import Mathlib

/-!
Blog API: authentication and session core.

A shallow embedding of the authentication core of the Blog API server
(password policy and hashing, token service, the guards of the middleware,
session and user repositories, user and session use cases, the handlers of the
user endpoints and their JSON responses) and of the authorisation of blog
updates, together with theorems about it.

Conventions of the embedding.

* A Go `string` is a Lean `String` (a sequence of Unicode scalar values, that is
  a well-formed UTF-8 string, which is what JSON decoding delivers).  Go's
  `len(s)` is the number of bytes of the UTF-8 encoding (`goLen`), and
  `for _, r := range s` visits `s.data`.
* A Go `error` result is an `Option String` (`none` is `nil`, `some msg` is an
  error whose `Error()` is `msg`); a `(T, error)` result is an `Except String T`.
  A method that changes the struct behind a pointer argument returns the struct.
* `primitive.ObjectID` is a natural number, `0` being `primitive.NilObjectID`.
* `time.Time` is an integer number of nanoseconds since the Unix epoch; every
  operation receives one reading of `time.Now()` as an argument `now`.
* The MongoDB collections are lists of documents in a state `DB` that the
  repository methods read and return; a driver call fails when the state says the
  server is unreachable.
* Libraries the server links but does not contain (the `unicode` tables beyond
  ASCII, the Blowfish computation of `bcrypt`, signing and decoding of tokens in
  `golang-jwt`, request binding, the random source) are parameters.
-/

namespace BlogAPI

/-! ## Go runtime and library primitives -/

/-- Go's `len(s)` for a string: the number of bytes of its UTF-8 encoding. -/
def goLen (s : String) : Nat := s.utf8ByteSize

/-- The Unicode general-category classes tested by the password validator:
`Lu`, `Ll`, `N`, `P`, `S`.  Every rune has one general category, so a rune is
in at most one of them. -/
inductive RuneClass where
  | upper
  | lower
  | number
  | punct
  | symbol
  deriving DecidableEq, Repr

/-- ASCII code points of category `P` (punctuation):
``! " # % & ' ( ) * , - . / : ; ? @ [ \ ] _ { }``. -/
def asciiPunct : List Nat :=
  [33, 34, 35, 37, 38, 39, 40, 41, 42, 44, 45, 46, 47, 58, 59, 63, 64, 91, 92, 93, 95, 123, 125]

/-- ASCII code points of category `S` (symbol): ``$ + < = > ^ ` | ~``. -/
def asciiSymbol : List Nat := [36, 43, 60, 61, 62, 94, 96, 124, 126]

/-- The class of an ASCII code point, as in the `unicode` package's tables. -/
def asciiClass (n : Nat) : Option RuneClass :=
  if 65 ≤ n ∧ n ≤ 90 then some RuneClass.upper
  else if 97 ≤ n ∧ n ≤ 122 then some RuneClass.lower
  else if 48 ≤ n ∧ n ≤ 57 then some RuneClass.number
  else if n ∈ asciiPunct then some RuneClass.punct
  else if n ∈ asciiSymbol then some RuneClass.symbol
  else none

/-- The class of a rune.  The ASCII part is fixed; the classification of the
other runes is the parameter `U`, standing for the range tables of Go's
`unicode` package (which are not part of this repository). -/
def runeClass (U : Char → Option RuneClass) (r : Char) : Option RuneClass :=
  if r.toNat < 128 then asciiClass r.toNat else U r

/-- Go's `unicode.IsUpper`. -/
def IsUpper (U : Char → Option RuneClass) (r : Char) : Bool :=
  runeClass U r == some RuneClass.upper

/-- Go's `unicode.IsLower`. -/
def IsLower (U : Char → Option RuneClass) (r : Char) : Bool :=
  runeClass U r == some RuneClass.lower

/-- Go's `unicode.IsNumber`: category `N`, which contains the decimal digits
(`Nd`) and also letter-like and other numbers (`Nl`, `No`). -/
def IsNumber (U : Char → Option RuneClass) (r : Char) : Bool :=
  runeClass U r == some RuneClass.number

/-- Go's `unicode.IsPunct`. -/
def IsPunct (U : Char → Option RuneClass) (r : Char) : Bool :=
  runeClass U r == some RuneClass.punct

/-- Go's `unicode.IsSymbol`. -/
def IsSymbol (U : Char → Option RuneClass) (r : Char) : Bool :=
  runeClass U r == some RuneClass.symbol

/-! ## `password_service.go` -/

def MinPasswordLength : Nat := 6

def MaxPasswordLength : Nat := 72

/-- The four local flags of `ValidatePassword`. -/
structure PasswordFlags where
  hasUpper : Bool
  hasLower : Bool
  hasNumber : Bool
  hasSpecial : Bool
  deriving DecidableEq, Repr

/-- One iteration of the loop of `ValidatePassword`: the `switch` on the rune,
whose cases are tried in order. -/
def passwordStep (U : Char → Option RuneClass) (f : PasswordFlags) (char : Char) :
    PasswordFlags :=
  if IsUpper U char then { f with hasUpper := true }
  else if IsLower U char then { f with hasLower := true }
  else if IsNumber U char then { f with hasNumber := true }
  else if IsPunct U char || IsSymbol U char then { f with hasSpecial := true }
  else f

/-- The flags after the loop `for _, char := range password`. -/
def passwordFlags (U : Char → Option RuneClass) (password : String) : PasswordFlags :=
  password.data.foldl (passwordStep U) ⟨false, false, false, false⟩

def errTooShort : String := "password must be at least 6 characters long"

def errTooLong : String := "password must be less than 72 characters"

def errNoUpper : String := "password must contain at least one uppercase letter"

def errNoLower : String := "password must contain at least one lowercase letter"

def errNoNumber : String := "password must contain at least one number"

def errNoSpecial : String := "password must contain at least one special character"

/-- `PasswordService.ValidatePassword`. -/
def ValidatePassword (U : Char → Option RuneClass) (password : String) : Option String :=
  if goLen password < MinPasswordLength then some errTooShort
  else if goLen password > MaxPasswordLength then some errTooLong
  else
    let f := passwordFlags U password
    if !f.hasUpper then some errNoUpper
    else if !f.hasLower then some errNoLower
    else if !f.hasNumber then some errNoNumber
    else if !f.hasSpecial then some errNoSpecial
    else none

/-! ## ASCII character classes, as the specification names them -/

/-- One of `A`–`Z`. -/
def asciiUpperLetter (c : Char) : Prop := 'A'.toNat ≤ c.toNat ∧ c.toNat ≤ 'Z'.toNat

/-- One of `a`–`z`. -/
def asciiLowerLetter (c : Char) : Prop := 'a'.toNat ≤ c.toNat ∧ c.toNat ≤ 'z'.toNat

/-- One of `0`–`9`. -/
def asciiDigit (c : Char) : Prop := '0'.toNat ≤ c.toNat ∧ c.toNat ≤ '9'.toNat

/-- An ASCII punctuation or symbol character: a printable ASCII character that
is not a letter, a digit or the space (code points 33–47, 58–64, 91–96 and
123–126). -/
def asciiSpecial (c : Char) : Prop :=
  (33 ≤ c.toNat ∧ c.toNat ≤ 47) ∨ (58 ≤ c.toNat ∧ c.toNat ≤ 64) ∨
    (91 ≤ c.toNat ∧ c.toNat ≤ 96) ∨ (123 ≤ c.toNat ∧ c.toNat ≤ 126)

instance : DecidablePred asciiUpperLetter := fun c => by
  unfold asciiUpperLetter; infer_instance

instance : DecidablePred asciiLowerLetter := fun c => by
  unfold asciiLowerLetter; infer_instance

instance : DecidablePred asciiDigit := fun c => by
  unfold asciiDigit; infer_instance

instance : DecidablePred asciiSpecial := fun c => by
  unfold asciiSpecial; infer_instance

/-! ## Domain types (`domain/user.go`, `domain/session.go`, `domain/infrastructure.go`) -/

/-- `primitive.ObjectID`; `0` is `primitive.NilObjectID`, the zero value. -/
abbrev ObjectID := Nat

def NilObjectID : ObjectID := 0

/-- `time.Time`, in nanoseconds since the Unix epoch. -/
abbrev Time := Int

/-- `time.Hour`, a `time.Duration` in nanoseconds. -/
def Hour : Int := 3600 * 1000000000

/-- `domain.Photo`. -/
structure Photo where
  Filename : String
  FilePath : String
  PublicID : String
  UploadedAt : Time
  deriving DecidableEq, Repr

/-- `domain.User`. -/
structure User where
  ID : ObjectID
  Username : String
  Email : String
  Password : String
  Role : String
  ProfilePicture : Option Photo
  Bio : String
  CreatedAt : Time
  UpdatedAt : Time
  deriving DecidableEq, Repr

/-- `domain.Session`. -/
structure Session where
  ID : ObjectID
  UserID : ObjectID
  Username : String
  Token : String
  IsActive : Bool
  CreatedAt : Time
  ExpiresAt : Time
  LastActivity : Time
  deriving DecidableEq, Repr

/-- `domain.JWTClaims`. -/
structure JWTClaims where
  UserID : ObjectID
  Email : String
  Role : String
  Exp : Int
  Iat : Int
  deriving DecidableEq, Repr

/-- `domain.LoginResponse`. -/
structure LoginResponse where
  User : User
  AccessToken : String
  RefreshToken : String
  deriving DecidableEq, Repr

/-- `domain.LoginRequest`. -/
structure LoginRequest where
  Email : String
  Password : String
  deriving DecidableEq, Repr

/-- The interface `domain.JWTService`.  Each method also receives the reading
of `time.Now()`. -/
structure JWTService where
  GenerateAccessToken : Time → ObjectID → String → String → Except String String
  GenerateRefreshToken : Time → ObjectID → String → String → Except String String
  ValidateToken : Time → String → Except String JWTClaims

/-! ## The document store

The MongoDB collections `users` and `sessions` with the indexes the repository
constructors create: unique indexes on `users.email`, `users.username` and
`sessions.user_id`, next to the unique `_id` of every collection. -/

/-- The state of the database. -/
structure DB where
  /-- The documents of the collection `users`, in insertion order. -/
  users : List User
  /-- The documents of the collection `sessions`, in insertion order. -/
  sessions : List Session
  /-- The last `ObjectID` the driver generated; the next one is `nextID + 1`. -/
  nextID : Nat
  /-- When `some e`, the server is unreachable and every driver call fails with
  the error `e` (a timeout, a lost connection). -/
  outage : Option String
  deriving DecidableEq, Repr

/-- The `ObjectID` generated for a document inserted without an `_id`. -/
def DB.freshID (db : DB) : ObjectID := db.nextID + 1

/-- The empty database. -/
def DB.empty : DB := ⟨[], [], 0, none⟩

/-- The message of the driver's `mongo.WriteException` for a duplicate key
(write error code 11000). -/
def errDuplicateKey : String := "E11000 duplicate key error"

/-- The message of the server's error for a `$set` that would change `_id`
(error code 66, `ImmutableField`). -/
def errImmutableField : String :=
  "Performing an update on the path _id would modify the immutable field _id"

/-- Replaces the first element of a list that satisfies `p` by its image under
`f`: the effect of `UpdateOne` on a collection. -/
def updateFirst {α : Type} (p : α → Bool) (f : α → α) : List α → List α
  | [] => []
  | x :: xs => if p x then f x :: xs else x :: updateFirst p f xs

/-- Removes the first element of a list that satisfies `p`: the effect of
`DeleteOne` on a collection. -/
def deleteFirst {α : Type} (p : α → Bool) : List α → List α
  | [] => []
  | x :: xs => if p x then xs else x :: deleteFirst p xs

/-! ## `session_repository.go` -/

def errSessionNotFound : String := "session not found"

/-- `SessionRepository.Update`: `UpdateOne` with the filter `user_id` and
`$set: session`.  The `_id` field is marshalled `omitempty`, so it is part of
the `$set` only when `session.ID` is not the zero value, and then the server
refuses to change the `_id` of the matched document.  A filter that matches no
document is not an error. -/
def SessionRepository.Update (db : DB) (now : Time) (session : Session) :
    Option String × Session × DB :=
  let session := { session with LastActivity := now }
  match db.outage with
  | some e => (some e, session, db)
  | none =>
    match db.sessions.find? (fun s => s.UserID == session.UserID) with
    | none => (none, session, db)
    | some old =>
      if session.ID ≠ NilObjectID ∧ session.ID ≠ old.ID then
        (some errImmutableField, session, db)
      else
        let sessions := updateFirst (fun s => s.UserID == session.UserID)
          (fun s => { session with ID := s.ID }) db.sessions
        (none, session, { db with sessions := sessions })

/-- `SessionRepository.Create`: `InsertOne`, and `Update` when the insert is
refused for a duplicate key.  The returned session is the caller's struct after
the call. -/
def SessionRepository.Create (db : DB) (now : Time) (session : Session) :
    Option String × Session × DB :=
  let session := { session with CreatedAt := now, LastActivity := now }
  match db.outage with
  | some e => (some e, session, db)
  | none =>
    if db.sessions.any (fun s => s.UserID == session.UserID) ∨
        (session.ID ≠ NilObjectID ∧ db.sessions.any (fun s => s.ID == session.ID)) then
      SessionRepository.Update db now session
    else if session.ID ≠ NilObjectID then
      (none, session, { db with sessions := db.sessions ++ [session] })
    else
      (none, { session with ID := db.freshID },
        { db with sessions := db.sessions ++ [{ session with ID := db.freshID }],
                  nextID := db.nextID + 1 })

/-- `SessionRepository.GetByID`. -/
def SessionRepository.GetByID (db : DB) (id : ObjectID) : Except String Session :=
  match db.outage with
  | some e => Except.error e
  | none =>
    match db.sessions.find? (fun s => s.ID == id) with
    | none => Except.error errSessionNotFound
    | some s => Except.ok s

/-- `SessionRepository.GetByUserID`. -/
def SessionRepository.GetByUserID (db : DB) (userID : ObjectID) : Except String Session :=
  match db.outage with
  | some e => Except.error e
  | none =>
    match db.sessions.find? (fun s => s.UserID == userID) with
    | none => Except.error errSessionNotFound
    | some s => Except.ok s

/-- `SessionRepository.GetByUsername`. -/
def SessionRepository.GetByUsername (db : DB) (username : String) : Except String Session :=
  match db.outage with
  | some e => Except.error e
  | none =>
    match db.sessions.find? (fun s => s.Username == username) with
    | none => Except.error errSessionNotFound
    | some s => Except.ok s

/-- `SessionRepository.Delete`. -/
def SessionRepository.Delete (db : DB) (id : ObjectID) : Option String × DB :=
  match db.outage with
  | some e => (some e, db)
  | none => (none, { db with sessions := deleteFirst (fun s => s.ID == id) db.sessions })

/-- `SessionRepository.DeleteByUserID`. -/
def SessionRepository.DeleteByUserID (db : DB) (userID : ObjectID) : Option String × DB :=
  match db.outage with
  | some e => (some e, db)
  | none =>
    (none, { db with sessions := deleteFirst (fun s => s.UserID == userID) db.sessions })

/-- `SessionRepository.DeleteExpired`: `DeleteMany` of the sessions with
`expires_at < now`. -/
def SessionRepository.DeleteExpired (db : DB) (now : Time) : Option String × DB :=
  match db.outage with
  | some e => (some e, db)
  | none =>
    (none, { db with sessions := db.sessions.filter (fun s => !(decide (s.ExpiresAt < now))) })

/-- `SessionRepository.UpdateLastActivity`. -/
def SessionRepository.UpdateLastActivity (db : DB) (now : Time) (id : ObjectID) :
    Option String × DB :=
  match db.outage with
  | some e => (some e, db)
  | none =>
    let sessions := updateFirst (fun s => s.ID == id)
      (fun s => { s with LastActivity := now }) db.sessions
    (none, { db with sessions := sessions })

/-! ## The HTTP layer (`gin`) -/

/-- A value stored in the context by `c.Set`. -/
inductive CtxValue where
  | oid (id : ObjectID)
  | str (s : String)
  deriving DecidableEq, Repr

/-- The JSON payloads the handlers write. -/
inductive Body where
  /-- `domain.ErrorResponse{Error: msg}`. -/
  | error (msg : String)
  /-- A `*domain.User`. -/
  | user (u : User)
  /-- A `*domain.LoginResponse`. -/
  | login (r : LoginResponse)
  /-- `domain.LogoutResponse{Message: msg}`. -/
  | logout (msg : String)
  deriving DecidableEq, Repr

/-- The part of a `gin.Context` the handlers use. -/
structure Context where
  /-- The request headers, by canonical name. -/
  Header : List (String × String)
  /-- The request body. -/
  RequestBody : String
  /-- The key/value pairs set by `c.Set`. -/
  Keys : List (String × CtxValue)
  /-- Whether `c.Abort()` was called (`c.IsAborted()`). -/
  aborted : Bool
  /-- Whether the handler chain has run to its end (the index of the chain is
  past the last handler). -/
  finished : Bool
  /-- The responses written by `c.JSON`, in order. -/
  written : List (Nat × Body)
  deriving DecidableEq, Repr

/-- `c.GetHeader(key)`: the value of the header, `""` when it is absent. -/
def Context.GetHeader (c : Context) (key : String) : String :=
  (c.Header.lookup key).getD ""

/-- `c.JSON(status, body)`. -/
def Context.JSON (c : Context) (status : Nat) (body : Body) : Context :=
  { c with written := c.written ++ [(status, body)] }

/-- `c.Abort()`. -/
def Context.Abort (c : Context) : Context := { c with aborted := true }

/-- `c.Set(key, value)`. -/
def Context.Set (c : Context) (key : String) (value : CtxValue) : Context :=
  { c with Keys := (key, value) :: c.Keys.filter (fun kv => kv.1 != key) }

/-- `c.Get(key)`. -/
def Context.Get (c : Context) (key : String) : Option CtxValue := c.Keys.lookup key

/-- What a request handler sees and changes: the database and its context. -/
structure World where
  db : DB
  c : Context
  deriving DecidableEq, Repr

/-- A `gin.HandlerFunc`.  Its first argument is `c.Next()`, which runs the
handlers that follow it in the chain. -/
abbrev HandlerFunc := (World → World) → World → World

/-- Runs a chain of handlers: the loop of `c.Next()`, which calls the handlers
in order while the context is neither aborted nor finished. -/
def runChain : List HandlerFunc → World → World
  | [], w => { w with c := { w.c with finished := true } }
  | h :: rest, w =>
    if w.c.aborted ∨ w.c.finished then w
    else runChain rest (h (runChain rest) w)

def StatusOK : Nat := 200

def StatusCreated : Nat := 201

def StatusBadRequest : Nat := 400

def StatusUnauthorized : Nat := 401

def StatusForbidden : Nat := 403

def StatusNotFound : Nat := 404

def StatusConflict : Nat := 409

def StatusInternalServerError : Nat := 500

/-! ## `auth_middleware.go` -/

/-- Go's `strings.Split(s, " ")` on the runes of `s`: the pieces between the
occurrences of the space, `n + 1` pieces for `n` spaces. -/
def splitOnSpace : List Char → List (List Char)
  | [] => [[]]
  | c :: cs =>
    if c = ' ' then [] :: splitOnSpace cs
    else
      match splitOnSpace cs with
      | [] => [[c]]
      | part :: parts => (c :: part) :: parts

/-- Go's `strings.Split(s, " ")`. -/
def stringsSplitSpace (s : String) : List String := (splitOnSpace s.data).map String.mk

/-- The function `extractToken`. -/
def extractToken (c : Context) : String :=
  let authHeader := c.GetHeader "Authorization"
  if authHeader = "" then ""
  else
    match stringsSplitSpace authHeader with
    | [part0, part1] => if part0 ≠ "Bearer" then "" else part1
    | _ => ""

/-- The response of the guard on a failure: `c.JSON(401, ErrorResponse{msg})`
followed by `c.Abort()`. -/
def unauthorized (w : World) (msg : String) : World :=
  { w with c := (w.c.JSON StatusUnauthorized (Body.error msg)).Abort }

/-- The context after the three `c.Set` calls of the guard. -/
def setPrincipal (c : Context) (claims : JWTClaims) : Context :=
  ((c.Set "user_id" (CtxValue.oid claims.UserID)).Set "user_email"
    (CtxValue.str claims.Email)).Set "user_role" (CtxValue.str claims.Role)

/-- `AuthMiddleware.AuthRequired`. -/
def AuthRequired (jwtService : JWTService) (now : Time) : HandlerFunc := fun next w =>
  let token := extractToken w.c
  if token = "" then unauthorized w "Authorization token required"
  else
    match jwtService.ValidateToken now token with
    | Except.error _ => unauthorized w "Invalid or expired token"
    | Except.ok claims =>
      match SessionRepository.GetByUserID w.db claims.UserID with
      | Except.error _ => unauthorized w "Session not found"
      | Except.ok session =>
        if !session.IsActive then unauthorized w "Session inactive"
        else next { w with c := setPrincipal w.c claims }

/-! ## `user_repository.go` -/

def errUserNotFound : String := "user not found"

def errUserExists : String := "user already exists"

/-- `UserRepository.Create`.  The returned user is the caller's struct after
the call. -/
def UserRepository.Create (db : DB) (now : Time) (user : User) : Option String × User × DB :=
  let user := { user with CreatedAt := now, UpdatedAt := now }
  let user := if user.Role = "" then { user with Role := "user" } else user
  match db.outage with
  | some e => (some e, user, db)
  | none =>
    if db.users.any (fun u => u.Email == user.Email) ∨
        db.users.any (fun u => u.Username == user.Username) ∨
        (user.ID ≠ NilObjectID ∧ db.users.any (fun u => u.ID == user.ID)) then
      (some errUserExists, user, db)
    else if user.ID ≠ NilObjectID then
      (none, user, { db with users := db.users ++ [user] })
    else
      (none, { user with ID := db.freshID },
        { db with users := db.users ++ [{ user with ID := db.freshID }],
                  nextID := db.nextID + 1 })

/-- `UserRepository.GetByID`. -/
def UserRepository.GetByID (db : DB) (id : ObjectID) : Except String User :=
  match db.outage with
  | some e => Except.error e
  | none =>
    match db.users.find? (fun u => u.ID == id) with
    | none => Except.error errUserNotFound
    | some u => Except.ok u

/-- `UserRepository.GetByEmail`. -/
def UserRepository.GetByEmail (db : DB) (email : String) : Except String User :=
  match db.outage with
  | some e => Except.error e
  | none =>
    match db.users.find? (fun u => u.Email == email) with
    | none => Except.error errUserNotFound
    | some u => Except.ok u

/-- `UserRepository.GetByUsername`. -/
def UserRepository.GetByUsername (db : DB) (username : String) : Except String User :=
  match db.outage with
  | some e => Except.error e
  | none =>
    match db.users.find? (fun u => u.Username == username) with
    | none => Except.error errUserNotFound
    | some u => Except.ok u

/-! ## Password hashing (`password_service.go`) -/

/-- The package `golang.org/x/crypto/bcrypt`, which is not part of this
repository.  `GenerateFromPassword` also receives the random salt it draws. -/
structure Bcrypt where
  GenerateFromPassword : (salt : Nat) → (password : String) → (cost : Nat) → Except String String
  CompareHashAndPassword : (hash : String) → (password : String) → Option String

/-- `bcrypt.DefaultCost`. -/
def DefaultCost : Nat := 10

/-- `PasswordService.HashPassword`. -/
def HashPassword (bcrypt : Bcrypt) (salt : Nat) (password : String) : Except String String :=
  bcrypt.GenerateFromPassword salt password DefaultCost

/-- `PasswordService.CheckPassword`. -/
def CheckPassword (bcrypt : Bcrypt) (password hash : String) : Bool :=
  (bcrypt.CompareHashAndPassword hash password).isNone

/-! ## `user_usecase.go` -/

def errEmailExists : String := "user with this email already exists"

def errUsernameExists : String := "user with this username already exists"

def errInvalidCredentials : String := "invalid email or password"

/-- `UserUseCase.Register`. -/
def Register (U : Char → Option RuneClass) (bcrypt : Bcrypt) (salt : Nat) (now : Time) (db : DB)
    (username email password : String) : Except String User × DB :=
  match ValidatePassword U password with
  | some err => (Except.error err, db)
  | none =>
    match UserRepository.GetByEmail db email with
    | Except.ok _ => (Except.error errEmailExists, db)
    | Except.error _ =>
      match UserRepository.GetByUsername db username with
      | Except.ok _ => (Except.error errUsernameExists, db)
      | Except.error _ =>
        match HashPassword bcrypt salt password with
        | Except.error err => (Except.error err, db)
        | Except.ok hashedPassword =>
          let user : User :=
            { ID := NilObjectID, Username := username, Email := email,
              Password := hashedPassword, Role := "user", ProfilePicture := none, Bio := "",
              CreatedAt := now, UpdatedAt := now }
          match UserRepository.Create db now user with
          | (some err, _, db1) => (Except.error err, db1)
          | (none, user1, db1) => (Except.ok user1, db1)

/-- `UserUseCase.Login`, with the one reading `now` of the clock for all its
calls of `time.Now()`; `LoginAt` keeps the readings apart. -/
def Login (bcrypt : Bcrypt) (jwtService : JWTService) (now : Time) (db : DB)
    (email password : String) : Except String LoginResponse × DB :=
  match UserRepository.GetByEmail db email with
  | Except.error _ => (Except.error errInvalidCredentials, db)
  | Except.ok user =>
    if !CheckPassword bcrypt password user.Password then
      (Except.error errInvalidCredentials, db)
    else
      match jwtService.GenerateAccessToken now user.ID user.Email user.Role with
      | Except.error err => (Except.error err, db)
      | Except.ok accessToken =>
        match jwtService.GenerateRefreshToken now user.ID user.Email user.Role with
        | Except.error err => (Except.error err, db)
        | Except.ok refreshToken =>
          let session : Session :=
            { ID := NilObjectID, UserID := user.ID, Username := user.Username,
              Token := refreshToken, IsActive := true, CreatedAt := now,
              ExpiresAt := now + Hour * 24 * 7, LastActivity := now }
          match SessionRepository.Create db now session with
          | (some err, _, db1) => (Except.error err, db1)
          | (none, _, db1) =>
            (Except.ok { User := user, AccessToken := accessToken,
                         RefreshToken := refreshToken }, db1)

/-- `UserUseCase.RefreshToken`, with the one reading `now` of the clock for all
its calls of `time.Now()`; `RefreshTokenAt` keeps the readings apart. -/
def RefreshToken (jwtService : JWTService) (now : Time) (db : DB) (refreshToken : String) :
    Except String LoginResponse × DB :=
  match jwtService.ValidateToken now refreshToken with
  | Except.error _ => (Except.error "invalid refresh token", db)
  | Except.ok claims =>
    match SessionRepository.GetByUserID db claims.UserID with
    | Except.error _ => (Except.error "session not found", db)
    | Except.ok session =>
      if !session.IsActive || decide (now > session.ExpiresAt) then
        (Except.error "session is expired or inactive", db)
      else
        match UserRepository.GetByID db claims.UserID with
        | Except.error _ => (Except.error "user not found", db)
        | Except.ok user =>
          match jwtService.GenerateAccessToken now user.ID user.Email user.Role with
          | Except.error err => (Except.error err, db)
          | Except.ok newAccessToken =>
            match SessionRepository.UpdateLastActivity db now session.ID with
            | (some err, db1) => (Except.error err, db1)
            | (none, db1) =>
              (Except.ok { User := user, AccessToken := newAccessToken,
                           RefreshToken := refreshToken }, db1)

/-- `UserUseCase.Logout`. -/
def Logout (db : DB) (userID : ObjectID) : Option String × DB :=
  SessionRepository.DeleteByUserID db userID

/-! ## `user_handler.go` -/

/-- The request decoding used by the handlers: `c.ShouldBindJSON` on the body
and `validator.Validate.Struct` on the result (JSON decoding and the validator
library are not part of this repository). -/
structure Binding where
  bindLoginRequest : String → Except String LoginRequest
  validateLoginRequest : LoginRequest → Option String

/-- `UserHandler.Login`. -/
def UserHandler.Login (binding : Binding) (bcrypt : Bcrypt) (jwtService : JWTService)
    (now : Time) : HandlerFunc := fun _ w =>
  match binding.bindLoginRequest w.c.RequestBody with
  | Except.error err =>
    { w with c := w.c.JSON StatusBadRequest (Body.error ("Invalid request data: " ++ err)) }
  | Except.ok req =>
    match binding.validateLoginRequest req with
    | some err =>
      { w with c := w.c.JSON StatusBadRequest (Body.error ("Validation failed: " ++ err)) }
    | none =>
      match BlogAPI.Login bcrypt jwtService now w.db req.Email req.Password with
      | (Except.error err, db1) =>
        { db := db1, c := w.c.JSON StatusUnauthorized (Body.error err) }
      | (Except.ok response, db1) =>
        { db := db1, c := w.c.JSON StatusOK (Body.login response) }

/-! ## Reference instances of the library interfaces

Executable stand-ins for what the embedding takes as parameters (`bcrypt`, a
token service implementing `domain.JWTService`, the request binding), used to
run the model on concrete inputs.  They are not cryptographic. -/

/-- A number `n` written as `n` copies of the character `c`. -/
def unary (c : Char) (n : Nat) : List Char := List.replicate n c

/-- Reads a number written by `unary c` and followed by a dot; returns the
number and the rest of the input. -/
def readUnary (c : Char) (l : List Char) : Option (Nat × List Char) :=
  match l.dropWhile (fun d => d == c) with
  | '.' :: rest => some ((l.takeWhile (fun d => d == c)).length, rest)
  | _ => none

/-- Writes a number in unary, followed by a dot, in front of `rest`. -/
def writeUnary (c : Char) (n : Nat) (rest : List Char) : List Char := unary c n ++ '.' :: rest

/-- The wire form of a reference token: user id, issue time, expiry time and the
length of the role in unary, each followed by a dot, then the role and the
email. -/
def refEncode (claims : JWTClaims) : String :=
  String.mk (writeUnary 'u' claims.UserID (writeUnary 'i' claims.Iat.toNat
    (writeUnary 'e' claims.Exp.toNat (writeUnary 'r' claims.Role.length
      (claims.Role.data ++ claims.Email.data)))))

/-- Reads a reference token back. -/
def refDecode (token : String) : Option JWTClaims :=
  match readUnary 'u' token.data with
  | none => none
  | some (uid, l1) =>
    match readUnary 'i' l1 with
    | none => none
    | some (iat, l2) =>
      match readUnary 'e' l2 with
      | none => none
      | some (exp, l3) =>
        match readUnary 'r' l3 with
        | none => none
        | some (n, l4) =>
          if n ≤ l4.length then
            some { UserID := uid, Email := String.mk (l4.drop n), Role := String.mk (l4.take n),
                   Exp := exp, Iat := iat }
          else none

/-- `time.Time.Unix()`: whole seconds since the epoch. -/
def unixSeconds (t : Time) : Int := t / 1000000000

/-- `time.Second`, a `time.Duration` in nanoseconds. -/
def Second : Int := 1000000000

/-- Issues a reference token with the given time to live. -/
def refGenerate (ttl : Int) (now : Time) (userID : ObjectID) (email role : String) :
    Except String String :=
  if ' ' ∈ email.data ∨ ' ' ∈ role.data then Except.error "unsupported claim"
  else
    Except.ok (refEncode { UserID := userID, Email := email, Role := role,
                           Exp := unixSeconds (now + ttl), Iat := unixSeconds now })

/-- Validates a reference token: it must be well formed and not expired. -/
def refValidate (now : Time) (token : String) : Except String JWTClaims :=
  match refDecode token with
  | none => Except.error "token is malformed"
  | some claims =>
    if now < claims.Exp * Second then Except.ok claims else Except.error "token is expired"

/-- A reference `JWTService` with the given times to live. -/
def refJWT (accessExpiry refreshExpiry : Int) : JWTService :=
  { GenerateAccessToken := refGenerate accessExpiry,
    GenerateRefreshToken := refGenerate refreshExpiry,
    ValidateToken := refValidate }

/-- A reference `bcrypt`: the hash is the salt in unary, a `#`, and the
password. -/
def refBcrypt : Bcrypt :=
  { GenerateFromPassword := fun salt password _ =>
      if goLen password > 72 then Except.error "bcrypt: password length exceeds 72 bytes"
      else Except.ok (String.mk (unary '$' salt ++ '#' :: password.data)),
    CompareHashAndPassword := fun hash password =>
      if hash.data.dropWhile (fun d => d == '$') = '#' :: password.data then none
      else some "crypto/bcrypt: hashedPassword is not the hash of the given password" }

/-- A reference request binding: the body is the email, a space, and the
password; both must be non-empty. -/
def refBinding : Binding :=
  { bindLoginRequest := fun body =>
      match splitOnSpace body.data with
      | [email, password] => Except.ok { Email := String.mk email, Password := String.mk password }
      | _ => Except.error "unexpected end of JSON input",
    validateLoginRequest := fun req =>
      if req.Email = "" ∨ req.Password = "" then some "required" else none }

/-! ## Evaluation support -/

instance {ε α : Type} [DecidableEq ε] [DecidableEq α] : DecidableEq (Except ε α) := fun a b =>
  match a, b with
  | Except.ok x, Except.ok y =>
    if h : x = y then isTrue (by rw [h]) else isFalse (fun e => h (by injection e))
  | Except.error x, Except.error y =>
    if h : x = y then isTrue (by rw [h]) else isFalse (fun e => h (by injection e))
  | Except.ok _, Except.error _ => isFalse (fun e => by injection e)
  | Except.error _, Except.ok _ => isFalse (fun e => by injection e)

/-- A context for a request with the given `Authorization` header and body. -/
def requestContext (authorization body : String) : Context :=
  { Header := [("Authorization", authorization)], RequestBody := body, Keys := [],
    aborted := false, finished := false, written := [] }

/-! ## Runs of the system -/

/-- The operations that act on the database: the methods of the session
repository, the use cases that call them, and the loss or recovery of the
connection to the server. -/
inductive Op where
  | sessionCreate (now : Time) (session : Session)
  | sessionUpdate (now : Time) (session : Session)
  | sessionUpdateLastActivity (now : Time) (id : ObjectID)
  | sessionDelete (id : ObjectID)
  | sessionDeleteByUserID (userID : ObjectID)
  | sessionDeleteExpired (now : Time)
  | register (U : Char → Option RuneClass) (bcrypt : Bcrypt) (salt : Nat) (now : Time)
      (username email password : String)
  | login (bcrypt : Bcrypt) (jwtService : JWTService) (now : Time) (email password : String)
  | refreshToken (jwtService : JWTService) (now : Time) (token : String)
  | logout (userID : ObjectID)
  | setOutage (outage : Option String)

/-- The database after an operation. -/
def Op.apply (db : DB) : Op → DB
  | Op.sessionCreate now session => (SessionRepository.Create db now session).2.2
  | Op.sessionUpdate now session => (SessionRepository.Update db now session).2.2
  | Op.sessionUpdateLastActivity now id => (SessionRepository.UpdateLastActivity db now id).2
  | Op.sessionDelete id => (SessionRepository.Delete db id).2
  | Op.sessionDeleteByUserID userID => (SessionRepository.DeleteByUserID db userID).2
  | Op.sessionDeleteExpired now => (SessionRepository.DeleteExpired db now).2
  | Op.register U bcrypt salt now username email password =>
    (Register U bcrypt salt now db username email password).2
  | Op.login bcrypt jwtService now email password =>
    (Login bcrypt jwtService now db email password).2
  | Op.refreshToken jwtService now token => (RefreshToken jwtService now db token).2
  | Op.logout userID => (Logout db userID).2
  | Op.setOutage outage => { db with outage := outage }

/-- The database after a sequence of operations. -/
def run (db : DB) (ops : List Op) : DB := ops.foldl Op.apply db

/-- At most one session per user: the `user_id`s of the stored sessions are
pairwise different. -/
def SessionsUnique (db : DB) : Prop := (db.sessions.map (fun s => s.UserID)).Nodup

instance : DecidablePred SessionsUnique := fun db => by
  unfold SessionsUnique; infer_instance

/-- The database after `alice` registered with the reference libraries. -/
def sampleDB : DB :=
  (Register (fun _ => none) refBcrypt 3 0 DB.empty "alice" "a@x.io" "Abcdef1!").2

/-- The reference token service with an access lifetime of 15 seconds and a
refresh lifetime of 60 seconds. -/
def sampleJWT : JWTService := refJWT (15 * Second) (60 * Second)

/-- What the guard relies on in a token service: a token it issued is a
non-empty string without spaces, and whenever `ValidateToken` accepts such a
token it returns the user id, email and role the token was issued for (the
signature protects the claims). -/
def JWTService.Sound (jwtService : JWTService) : Prop :=
  ∀ (t0 : Time) (userID : ObjectID) (email role token : String),
    (jwtService.GenerateAccessToken t0 userID email role = Except.ok token ∨
      jwtService.GenerateRefreshToken t0 userID email role = Except.ok token) →
    (token ≠ "" ∧ ' ' ∉ token.data) ∧
    ∀ (t : Time) (claims : JWTClaims), jwtService.ValidateToken t token = Except.ok claims →
      claims.UserID = userID ∧ claims.Email = email ∧ claims.Role = role

/-- The token of a successful generation, `""` on failure. -/
def tokenOf (r : Except String String) : String :=
  match r with
  | Except.ok token => token
  | Except.error _ => ""

/-- A run from the empty database: `alice` registers, logs in twice and
refreshes. -/
def sampleOps : List Op :=
  [Op.register (fun _ => none) refBcrypt 3 0 "alice" "a@x.io" "Abcdef1!",
   Op.login refBcrypt sampleJWT Second "a@x.io" "Abcdef1!",
   Op.login refBcrypt sampleJWT (2 * Second) "a@x.io" "Abcdef1!",
   Op.refreshToken sampleJWT (3 * Second)
     (tokenOf (sampleJWT.GenerateRefreshToken (2 * Second) 1 "a@x.io" "user"))]

/-- A session as `Login` builds it, for user `1` at the fifth second. -/
def sampleSession : Session :=
  { ID := NilObjectID, UserID := 1, Username := "alice", Token := "t", IsActive := true,
    CreatedAt := 5 * Second, ExpiresAt := 5 * Second + Hour * 24 * 7,
    LastActivity := 5 * Second }

/-- The user record of `alice` in `sampleDB`. -/
def sampleUser : User :=
  { ID := 1, Username := "alice", Email := "a@x.io", Password := "$$$#Abcdef1!", Role := "user",
    ProfilePicture := none, Bio := "", CreatedAt := 0, UpdatedAt := 0 }

/-- The first login of `alice`, one second after the registration. -/
def firstLogin : Except String LoginResponse × DB :=
  Login refBcrypt sampleJWT Second sampleDB "a@x.io" "Abcdef1!"

/-- The second login of `alice`, one second after the first. -/
def secondLogin : Except String LoginResponse × DB :=
  Login refBcrypt sampleJWT (2 * Second) firstLogin.2 "a@x.io" "Abcdef1!"

/-- The access token issued by `firstLogin`. -/
def accessToken1 : String := tokenOf (sampleJWT.GenerateAccessToken Second 1 "a@x.io" "user")

/-- The refresh token issued by `firstLogin`. -/
def refreshToken1 : String := tokenOf (sampleJWT.GenerateRefreshToken Second 1 "a@x.io" "user")

/-- The access token issued by `secondLogin`. -/
def accessToken2 : String :=
  tokenOf (sampleJWT.GenerateAccessToken (2 * Second) 1 "a@x.io" "user")

/-- The refresh token issued by `secondLogin`. -/
def refreshToken2 : String :=
  tokenOf (sampleJWT.GenerateRefreshToken (2 * Second) 1 "a@x.io" "user")

/-- The database after `firstLogin` in which an update of `alice`'s session has
moved its expiry to the third second; the session stays active. -/
def expiredSessionDB : DB :=
  (SessionRepository.Update firstLogin.2 (2 * Second)
    { ID := NilObjectID, UserID := 1, Username := "alice", Token := refreshToken1,
      IsActive := true, CreatedAt := Second, ExpiresAt := 3 * Second,
      LastActivity := Second }).2.2

/-- The `_id`s of the stored sessions are pairwise different (the `_id` index of
the collection). -/
def SessionIDsUnique (db : DB) : Prop := (db.sessions.map (fun s => s.ID)).Nodup

instance : DecidablePred SessionIDsUnique := fun db => by
  unfold SessionIDsUnique; infer_instance

/-! ## `jwt_service.go` -/

/-- The package `github.com/golang-jwt/jwt/v5`, which is not part of this
repository: signing, decoding and signature verification of tokens. -/
structure JWTLib where
  /-- `jwt.NewWithClaims(method, claims).SignedString(key)`, for the signing
  method whose name is `alg`. -/
  SignedString : (alg : String) → (claims : JWTClaims) → (key : String) → Except String String
  /-- `Parser.ParseUnverified`: the `alg` of the header and the claims of a token;
  an error for a malformed token or an algorithm that is not registered. -/
  ParseUnverified : (tokenString : String) → Except String (String × JWTClaims)
  /-- `token.Method.Verify`: whether the signature of the token is the one the
  method `alg` computes with `key`. -/
  Verify : (alg : String) → (tokenString : String) → (key : String) → Bool

/-- The names of the methods of type `*jwt.SigningMethodHMAC`. -/
def hmacAlgs : List String := ["HS256", "HS384", "HS512"]

/-- `JWTClaims.GetExpirationTime`: `time.Unix(c.Exp, 0)`. -/
def JWTClaims.GetExpirationTime (c : JWTClaims) : Time := c.Exp * Second

/-- `JWTClaims.GetNotBefore`: `time.Unix(c.Iat, 0)`. -/
def JWTClaims.GetNotBefore (c : JWTClaims) : Time := c.Iat * Second

/-- `JWTClaims.GetIssuedAt`: `time.Unix(c.Iat, 0)`. -/
def JWTClaims.GetIssuedAt (c : JWTClaims) : Time := c.Iat * Second

/-- `jwt.ParseWithClaims` with the default parser: decode the token, ask
`keyFunc` for the key, verify the signature, then validate the claims (the
token must not have reached its expiration time, and the current time must not
be before its not-before time). -/
def ParseWithClaims (lib : JWTLib) (now : Time) (tokenString : String)
    (keyFunc : String → Except String String) : Except String JWTClaims :=
  match lib.ParseUnverified tokenString with
  | Except.error err => Except.error err
  | Except.ok (alg, claims) =>
    match keyFunc alg with
    | Except.error err =>
      Except.error ("token is unverifiable: error while executing keyfunc: " ++ err)
    | Except.ok key =>
      if !lib.Verify alg tokenString key then Except.error "token signature is invalid"
      else if !decide (now < claims.GetExpirationTime) then
        Except.error "token has invalid claims: token is expired"
      else if decide (now < claims.GetNotBefore) then
        Except.error "token has invalid claims: token is not valid yet"
      else Except.ok claims

/-- `JWTService.GenerateAccessToken` of `jwt_service.go`. -/
def jwt.GenerateAccessToken (lib : JWTLib) (secretKey : String) (accessExpiry : Int)
    (now : Time) (userID : ObjectID) (email role : String) : Except String String :=
  lib.SignedString "HS256"
    { UserID := userID, Email := email, Role := role,
      Exp := unixSeconds (now + accessExpiry), Iat := unixSeconds now } secretKey

/-- `JWTService.GenerateRefreshToken` of `jwt_service.go`. -/
def jwt.GenerateRefreshToken (lib : JWTLib) (secretKey : String) (refreshExpiry : Int)
    (now : Time) (userID : ObjectID) (email role : String) : Except String String :=
  lib.SignedString "HS256"
    { UserID := userID, Email := email, Role := role,
      Exp := unixSeconds (now + refreshExpiry), Iat := unixSeconds now } secretKey

/-- `JWTService.ValidateToken` of `jwt_service.go`. -/
def jwt.ValidateToken (lib : JWTLib) (secretKey : String) (now : Time)
    (tokenString : String) : Except String JWTClaims :=
  ParseWithClaims lib now tokenString (fun alg =>
    if alg ∈ hmacAlgs then Except.ok secretKey
    else Except.error ("unexpected signing method: " ++ alg))

/-- `JWTService.RefreshAccessToken` of `jwt_service.go`. -/
def jwt.RefreshAccessToken (lib : JWTLib) (secretKey : String) (accessExpiry : Int)
    (now : Time) (refreshToken : String) : Except String String :=
  match jwt.ValidateToken lib secretKey now refreshToken with
  | Except.error err => Except.error err
  | Except.ok claims =>
    jwt.GenerateAccessToken lib secretKey accessExpiry now claims.UserID claims.Email claims.Role

/-- `NewJWTService`: the token service of `jwt_service.go` as a
`domain.JWTService`. -/
def jwt.NewJWTService (lib : JWTLib) (secretKey : String) (accessExpiry refreshExpiry : Int) :
    JWTService :=
  { GenerateAccessToken := jwt.GenerateAccessToken lib secretKey accessExpiry,
    GenerateRefreshToken := jwt.GenerateRefreshToken lib secretKey refreshExpiry,
    ValidateToken := jwt.ValidateToken lib secretKey }

/-- What the service relies on in the library: a signed token is a non-empty
string without spaces, it decodes to the algorithm and the claims it was signed
with, and its signature verifies under the algorithm and key it was signed
with. -/
def JWTLib.Lawful (lib : JWTLib) : Prop :=
  ∀ (alg : String) (claims : JWTClaims) (key token : String),
    lib.SignedString alg claims key = Except.ok token →
    (token ≠ "" ∧ ' ' ∉ token.data) ∧
    lib.ParseUnverified token = Except.ok (alg, claims) ∧
    lib.Verify alg token key = true

/-- The `_id`s of the stored users are pairwise different (the `_id` index of the
collection). -/
def UserIDsUnique (db : DB) : Prop := (db.users.map (fun u => u.ID)).Nodup

instance : DecidablePred UserIDsUnique := fun db => by
  unfold UserIDsUnique; infer_instance

/-- Reads the algorithm, the key and the claims of a reference signed token. -/
def refUnsign (token : String) : Option (String × String × JWTClaims) :=
  match readUnary 'a' token.data with
  | none => none
  | some (n, l1) =>
    match readUnary 'k' l1 with
    | none => none
    | some (m, l2) =>
      if n + m ≤ l2.length then
        match refDecode (String.mk (l2.drop (n + m))) with
        | none => none
        | some claims =>
          some (String.mk (l2.take n), String.mk ((l2.drop n).take m), claims)
      else none

/-- The signing methods the reference library knows. -/
def refAlgs : List String := ["HS256", "HS384", "HS512", "RS256", "ES256", "none"]

/-- A reference `golang-jwt`: a signed token is the lengths of the algorithm
name and of the key in unary, then the algorithm name, the key and the claims
as `refEncode` writes them. -/
def refLib : JWTLib :=
  { SignedString := fun alg claims key =>
      if alg ∉ refAlgs ∨ ' ' ∈ key.data ∨ ' ' ∈ claims.Email.data ∨ ' ' ∈ claims.Role.data ∨
          claims.Exp < 0 ∨ claims.Iat < 0 then
        Except.error "unsupported claim"
      else
        Except.ok (String.mk (writeUnary 'a' alg.length (writeUnary 'k' key.length
          (alg.data ++ (key.data ++ (refEncode claims).data))))),
    ParseUnverified := fun token =>
      match refUnsign token with
      | none => Except.error "token is malformed"
      | some (alg, _, claims) =>
        if alg ∈ refAlgs then Except.ok (alg, claims)
        else Except.error "token is unverifiable: signing method (alg) is unavailable",
    Verify := fun alg token key =>
      match refUnsign token with
      | none => false
      | some (alg1, key1, _) => alg1 == alg && key1 == key }

/-- The token service of `jwt_service.go` over the reference library, with an
access lifetime of 15 seconds and a refresh lifetime of 60 seconds. -/
def sampleService : JWTService := jwt.NewJWTService refLib "secret" (15 * Second) (60 * Second)

/-- A login of `alice` with `sampleService`, one second after the registration. -/
def serviceLogin : Except String LoginResponse × DB :=
  Login refBcrypt sampleService Second sampleDB "a@x.io" "Abcdef1!"

/-- The access token issued by `serviceLogin`. -/
def serviceAccessToken : String :=
  tokenOf (sampleService.GenerateAccessToken Second 1 "a@x.io" "user")

/-- The refresh token issued by `serviceLogin`. -/
def serviceRefreshToken : String :=
  tokenOf (sampleService.GenerateRefreshToken Second 1 "a@x.io" "user")

/-! ## `user_handler.go`: registration and refresh -/

/-- `domain.RegisterRequest`. -/
structure RegisterRequest where
  Username : String
  Email : String
  Password : String
  deriving DecidableEq, Repr

/-- `domain.RefreshTokenRequest`. -/
structure RefreshTokenRequest where
  RefreshToken : String
  deriving DecidableEq, Repr

/-- The decoding of a request of type `α`: `c.ShouldBindJSON` on the body and
`validator.Validate.Struct` on the result, with the `validate` tags of `α`. -/
structure RequestBinding (α : Type) where
  bind : String → Except String α
  validate : α → Option String

/-- The status `UserHandler.Register` chooses for an error of the use case. -/
def UserHandler.registerStatus (err : String) : Nat :=
  if err = "user with this email already exists" ∨
      err = "user with this username already exists" then StatusConflict
  else if err = "password must be at least 6 characters long" ∨
      err = "password must contain at least one uppercase letter" ∨
      err = "password must contain at least one lowercase letter" ∨
      err = "password must contain at least one number" ∨
      err = "password must contain at least one special character" then StatusBadRequest
  else StatusInternalServerError

/-- The end of `UserHandler.Register`: the response to the result of the use
case. -/
def UserHandler.registerRespond (c : Context) (result : Except String User) : Context :=
  match result with
  | Except.error err => c.JSON (UserHandler.registerStatus err) (Body.error err)
  | Except.ok user => c.JSON StatusCreated (Body.user user)

/-- `UserHandler.Register`. -/
def UserHandler.Register (binding : RequestBinding RegisterRequest)
    (U : Char → Option RuneClass) (bcrypt : Bcrypt) (salt : Nat) (now : Time) : HandlerFunc :=
  fun _ w =>
  match binding.bind w.c.RequestBody with
  | Except.error err =>
    { w with c := w.c.JSON StatusBadRequest (Body.error ("Invalid request data: " ++ err)) }
  | Except.ok req =>
    match binding.validate req with
    | some err =>
      { w with c := w.c.JSON StatusBadRequest (Body.error ("Validation failed: " ++ err)) }
    | none =>
      match BlogAPI.Register U bcrypt salt now w.db req.Username req.Email req.Password with
      | (result, db1) => { db := db1, c := UserHandler.registerRespond w.c result }

/-- `UserHandler.RefreshToken`. -/
def UserHandler.RefreshToken (binding : RequestBinding RefreshTokenRequest)
    (jwtService : JWTService) (now : Time) : HandlerFunc := fun _ w =>
  match binding.bind w.c.RequestBody with
  | Except.error err =>
    { w with c := w.c.JSON StatusBadRequest (Body.error ("Invalid request data: " ++ err)) }
  | Except.ok req =>
    match binding.validate req with
    | some err =>
      { w with c := w.c.JSON StatusBadRequest (Body.error ("Validation failed: " ++ err)) }
    | none =>
      match BlogAPI.RefreshToken jwtService now w.db req.RefreshToken with
      | (Except.error err, db1) =>
        { db := db1, c := w.c.JSON StatusUnauthorized (Body.error err) }
      | (Except.ok response, db1) =>
        { db := db1, c := w.c.JSON StatusOK (Body.login response) }

/-- The first part of `UserUseCase.Register`, up to the hashing of the password:
the policy check, the two look-ups and `HashPassword`.  It reads the database
and returns the hash. -/
def RegisterChecks (U : Char → Option RuneClass) (bcrypt : Bcrypt) (salt : Nat) (db : DB)
    (username email password : String) : Except String String :=
  match ValidatePassword U password with
  | some err => Except.error err
  | none =>
    match UserRepository.GetByEmail db email with
    | Except.ok _ => Except.error errEmailExists
    | Except.error _ =>
      match UserRepository.GetByUsername db username with
      | Except.ok _ => Except.error errUsernameExists
      | Except.error _ => HashPassword bcrypt salt password

/-- The second part of `UserUseCase.Register`: the insertion of the user. -/
def RegisterInsert (now : Time) (db : DB) (username email hashedPassword : String) :
    Except String User × DB :=
  let user : User :=
    { ID := NilObjectID, Username := username, Email := email,
      Password := hashedPassword, Role := "user", ProfilePicture := none, Bio := "",
      CreatedAt := now, UpdatedAt := now }
  match UserRepository.Create db now user with
  | (some err, _, db1) => (Except.error err, db1)
  | (none, user1, db1) => (Except.ok user1, db1)

/-- A reference binding of registration requests: the body is the username, the
email and the password separated by spaces; the username has 3 to 50
characters, the email contains an `@`, the password has at least 6
characters. -/
def refRegisterBinding : RequestBinding RegisterRequest :=
  { bind := fun body =>
      match splitOnSpace body.data with
      | [username, email, password] =>
        Except.ok { Username := String.mk username, Email := String.mk email,
                    Password := String.mk password }
      | _ => Except.error "unexpected end of JSON input",
    validate := fun req =>
      if req.Username.length < 3 ∨ 50 < req.Username.length then some "Username"
      else if '@' ∉ req.Email.data then some "Email"
      else if req.Password.length < 6 then some "Password"
      else none }

/-- A reference binding of refresh requests: the body is the refresh token, which
must not be empty. -/
def refRefreshBinding : RequestBinding RefreshTokenRequest :=
  { bind := fun body => Except.ok { RefreshToken := body },
    validate := fun req => if req.RefreshToken = "" then some "RefreshToken" else none }

/-- The database `sampleDB` while the server is unreachable. -/
def outageDB : DB := { sampleDB with outage := some "context deadline exceeded" }

/-- A password of 73 characters with a letter of each case, a digit and a
punctuation character. -/
def longPassword : String := String.mk ("Aa1!".data ++ List.replicate 69 'a')

/-! ## `auth_middleware.go`: the admin guard, the optional guard and the context readers -/

/-- `AuthMiddleware.AdminRequired`.  It calls the handler that `AuthRequired`
returns on its own context, so the `c.Next()` inside `AuthRequired` is the
`c.Next()` of this handler. -/
def AdminRequired (jwtService : JWTService) (now : Time) : HandlerFunc := fun next w =>
  let w1 := AuthRequired jwtService now next w
  if w1.c.aborted then w1
  else
    match w1.c.Get "user_role" with
    | none =>
      { w1 with c := (w1.c.JSON StatusUnauthorized (Body.error "User role not found")).Abort }
    | some role =>
      if role ≠ CtxValue.str "admin" then
        { w1 with c := (w1.c.JSON StatusForbidden (Body.error "Admin access required")).Abort }
      else next w1

/-- `AuthMiddleware.OptionalAuth`. -/
def OptionalAuth (jwtService : JWTService) (now : Time) : HandlerFunc := fun next w =>
  let token := extractToken w.c
  if token = "" then next w
  else
    match jwtService.ValidateToken now token with
    | Except.error _ => next w
    | Except.ok claims => next { w with c := setPrincipal w.c claims }

/-- `GetUserIDFromContext`. -/
def GetUserIDFromContext (c : Context) : ObjectID × Bool :=
  match c.Get "user_id" with
  | none => (NilObjectID, false)
  | some (CtxValue.oid id) => (id, true)
  | some (CtxValue.str _) => (NilObjectID, false)

/-- `GetUserRoleFromContext`. -/
def GetUserRoleFromContext (c : Context) : String × Bool :=
  match c.Get "user_role" with
  | none => ("", false)
  | some (CtxValue.str r) => (r, true)
  | some (CtxValue.oid _) => ("", false)

/-! ## `user_handler.go`: profile and logout -/

/-- `UserUseCase.GetByID`. -/
def GetByID (db : DB) (id : ObjectID) : Except String User := UserRepository.GetByID db id

/-- `UserHandler.GetProfile`. -/
def UserHandler.GetProfile : HandlerFunc := fun _ w =>
  match GetUserIDFromContext w.c with
  | (_, false) =>
    { w with c := w.c.JSON StatusUnauthorized (Body.error "User not authenticated") }
  | (userID, true) =>
    match BlogAPI.GetByID w.db userID with
    | Except.error _ => { w with c := w.c.JSON StatusNotFound (Body.error "User not found") }
    | Except.ok user => { w with c := w.c.JSON StatusOK (Body.user user) }

/-- `UserHandler.Logout`. -/
def UserHandler.Logout : HandlerFunc := fun _ w =>
  match GetUserIDFromContext w.c with
  | (_, false) =>
    { w with c := w.c.JSON StatusUnauthorized (Body.error "User not authenticated") }
  | (userID, true) =>
    match BlogAPI.Logout w.db userID with
    | (some err, db1) => { db := db1, c := w.c.JSON StatusInternalServerError (Body.error err) }
    | (none, db1) =>
      { db := db1, c := w.c.JSON StatusOK (Body.logout "Successfully logged out") }

/-- An access token of the reference service for user `1` with the role
`admin`, issued at the first second. -/
def adminToken : String := tokenOf (sampleJWT.GenerateAccessToken Second 1 "a@x.io" "admin")

/-! ## `golang.org/x/crypto/bcrypt`

How the package, which `password_service.go` calls, handles the password and
the hash.  The Blowfish computation itself stays a parameter. -/

/-- The UTF-8 encoding of a code point. -/
def utf8Encode (c : Char) : List Nat :=
  let n := c.toNat
  if n < 128 then [n]
  else if n < 2048 then [192 + n / 64, 128 + n % 64]
  else if n < 65536 then [224 + n / 4096, 128 + n / 64 % 64, 128 + n % 64]
  else [240 + n / 262144, 128 + n / 4096 % 64, 128 + n / 64 % 64, 128 + n % 64]

/-- Go's conversion `[]byte(s)`. -/
def goBytes (s : String) : List Nat := (s.data.map utf8Encode).flatten

/-- The key material the Blowfish key schedule reads in `bcrypt`: the package
appends a zero byte to the password (`ckey := append(password, 0)`) and the
schedule takes 18 words of 4 bytes from it, starting again at the first byte
whenever it reaches the end. -/
def bcryptKey (password : List Nat) : List Nat :=
  (List.range 72).map (fun i => (password ++ [0]).getD (i % (password.length + 1)) 0)

/-- The computations of the package on data of fixed size. -/
structure BcryptCore where
  /-- The 23 bytes `bcrypt` computes for a cost, a salt and the key material
  (the expensive key setup followed by the encryption of the magic text). -/
  digest : (cost : Nat) → (salt : Nat) → (key : List Nat) → List Nat
  /-- `hashed.Hash()`: the text of a hash, which holds the version, the cost,
  the salt and the digest. -/
  encode : (cost : Nat) → (salt : Nat) → (digest : List Nat) → String
  /-- `newFromHash`: reads a hash back; an error when the text is too short, or
  its prefix, version or cost is not valid. -/
  decode : (hashedSecret : String) → Except String (Nat × Nat × List Nat)

/-- `bcrypt.MinCost`. -/
def MinCost : Nat := 4

/-- `bcrypt.MaxCost`. -/
def MaxCost : Nat := 31

/-- The functions `GenerateFromPassword` and `CompareHashAndPassword` of the
package over its core. -/
def goBcrypt (core : BcryptCore) : Bcrypt :=
  { GenerateFromPassword := fun salt password cost =>
      if goLen password > 72 then Except.error "bcrypt: password length exceeds 72 bytes"
      else
        let cost := if cost < MinCost then DefaultCost else cost
        if cost > MaxCost then Except.error "crypto/bcrypt: cost is outside allowed range"
        else
          Except.ok (core.encode cost salt (core.digest cost salt (bcryptKey (goBytes password)))),
    CompareHashAndPassword := fun hashedPassword password =>
      match core.decode hashedPassword with
      | Except.error err => some err
      | Except.ok (cost, salt, digest) =>
        if core.digest cost salt (bcryptKey (goBytes password)) = digest then none
        else some "crypto/bcrypt: hashedPassword is not the hash of the given password" }

/-- What the package relies on in the text form of a hash: a hash it has
written is read back as the cost, the salt and the digest it holds. -/
def BcryptCore.Lawful (core : BcryptCore) : Prop :=
  ∀ (cost salt : Nat) (key : List Nat),
    core.decode (core.encode cost salt (core.digest cost salt key)) =
      Except.ok (cost, salt, core.digest cost salt key)

/-- A reference core: the digest is the key material with the cost and the salt
added to every byte; the text of a hash is the cost and the salt in unary
followed by one character for every byte of the digest. -/
def refCore : BcryptCore :=
  { digest := fun cost salt key => key.map (fun b => (b + cost + salt) % 256),
    encode := fun cost salt digest =>
      String.mk (writeUnary 'c' cost (writeUnary '$' salt (digest.map Char.ofNat))),
    decode := fun hashedSecret =>
      match readUnary 'c' hashedSecret.data with
      | none => Except.error "crypto/bcrypt: hashedSecret too short to be a bcrypted password"
      | some (cost, l1) =>
        match readUnary '$' l1 with
        | none => Except.error "crypto/bcrypt: hashedSecret too short to be a bcrypted password"
        | some (salt, l2) => Except.ok (cost, salt, l2.map Char.toNat) }

/-- A password of 72 characters with a letter of each case, a digit and a
punctuation character. -/
def password72 : String := String.mk ("Aa1!".data ++ List.replicate 68 'a')

/-- The password `password72` followed by one more character. -/
def password73 : String := String.mk ("Aa1!".data ++ List.replicate 68 'a' ++ ['b'])

/-- The password `Aa1!aa`, a zero byte, and `Aa1!aa` again. -/
def repeatedPassword : String := String.mk ("Aa1!aa".data ++ Char.ofNat 0 :: "Aa1!aa".data)

/-! ## The JSON form of the responses

What `c.JSON` sends: the value as `encoding/json` marshals it under the `json`
tags of `domain/user.go`. -/

/-- A JSON value.  An `ObjectID` and a `time.Time` marshal themselves to a
string (the hexadecimal and the RFC 3339 form); they are kept as such. -/
inductive JSON where
  | null
  | string (s : String)
  | objectID (id : ObjectID)
  | time (t : Time)
  | object (fields : List (String × JSON))

/-- The JSON form of a `domain.Photo`. -/
def Photo.toJSON (p : Photo) : JSON :=
  JSON.object [("filename", JSON.string p.Filename), ("file_path", JSON.string p.FilePath),
    ("public_id", JSON.string p.PublicID), ("uploaded_at", JSON.time p.UploadedAt)]

/-- The fields of the JSON form of a `domain.User`, in the order of the struct.
`Password` has the tag `json:"-"` and is left out; `profile_picture` and `bio`
are `omitempty` (a nil pointer and an empty string are left out); `id` is
`omitempty` as well, which never applies to an array of 12 bytes. -/
def User.jsonFields (u : User) : List (String × JSON) :=
  [("id", JSON.objectID u.ID), ("username", JSON.string u.Username),
    ("email", JSON.string u.Email), ("role", JSON.string u.Role)] ++
  (match u.ProfilePicture with
    | none => []
    | some p => [("profile_picture", p.toJSON)]) ++
  (if u.Bio = "" then [] else [("bio", JSON.string u.Bio)]) ++
  [("created_at", JSON.time u.CreatedAt), ("updated_at", JSON.time u.UpdatedAt)]

/-- The JSON form of a `*domain.User`. -/
def User.toJSON (u : User) : JSON := JSON.object u.jsonFields

/-- The JSON form of a `*domain.LoginResponse`. -/
def LoginResponse.toJSON (r : LoginResponse) : JSON :=
  JSON.object [("user", r.User.toJSON), ("access_token", JSON.string r.AccessToken),
    ("refresh_token", JSON.string r.RefreshToken)]

/-- The JSON form of a response body. -/
def Body.toJSON : Body → JSON
  | Body.error msg => JSON.object [("error", JSON.string msg)]
  | Body.user u => u.toJSON
  | Body.login r => r.toJSON
  | Body.logout msg => JSON.object [("message", JSON.string msg)]

/-- A response body in which the password of the user it holds, if any, is
replaced by `p`. -/
def Body.withPassword (p : String) : Body → Body
  | Body.user u => Body.user { u with Password := p }
  | Body.login r => Body.login { r with User := { r.User with Password := p } }
  | body => body

/-- The JSON payloads a context has sent. -/
def Context.payloads (c : Context) : List (Nat × BlogAPI.JSON) :=
  c.written.map (fun r => (r.1, r.2.toJSON))

/-! ## `GenerateSecureToken` (`password_service.go`) -/

/-- The `hextable` of `encoding/hex`. -/
def hextable : List Char := "0123456789abcdef".data

/-- `hex.EncodeToString`: two characters for every byte, the high half first. -/
def hexEncodeToString (src : List Nat) : String :=
  String.mk ((src.map (fun b =>
    [hextable.getD (b % 256 / 16) '0', hextable.getD (b % 16) '0'])).flatten)

/-- `PasswordService.GenerateSecureToken`.  The argument `entropy` gives the
bytes `rand.Read` writes into the slice, by position; the result is `none` when
`make` panics because the size is negative. -/
def GenerateSecureToken (entropy : Nat → Nat) (length : Int) : Option String :=
  let size := Int.tdiv length 2
  if size < 0 then none
  else some (hexEncodeToString ((List.range size.toNat).map (fun i => entropy i % 256)))

/-! ## `session_usecase.go` -/

/-- `SessionUseCase.CreateSession`. -/
def CreateSession (now : Time) (db : DB) (userID : ObjectID) (username refreshToken : String) :
    Except String Session × DB :=
  let session : Session :=
    { ID := NilObjectID, UserID := userID, Username := username, Token := refreshToken,
      IsActive := true, CreatedAt := now, ExpiresAt := now + 7 * 24 * Hour,
      LastActivity := now }
  match SessionRepository.Create db now session with
  | (some err, _, db1) => (Except.error err, db1)
  | (none, session1, db1) => (Except.ok session1, db1)

/-- `SessionUseCase.UpdateSessionActivity`. -/
def UpdateSessionActivity (now : Time) (db : DB) (userID : ObjectID) : Option String × DB :=
  match SessionRepository.GetByUserID db userID with
  | Except.error err => (some err, db)
  | Except.ok session => SessionRepository.UpdateLastActivity db now session.ID

/-- `SessionRepository.Create` with its readings of the clock kept apart: `now`
is the `time.Now()` of `Create`, `later` the `time.Now()` of the `Update` it
falls back to. -/
def SessionRepository.CreateAt (db : DB) (now later : Time) (session : Session) :
    Option String × Session × DB :=
  let session := { session with CreatedAt := now, LastActivity := now }
  match db.outage with
  | some e => (some e, session, db)
  | none =>
    if db.sessions.any (fun s => s.UserID == session.UserID) ∨
        (session.ID ≠ NilObjectID ∧ db.sessions.any (fun s => s.ID == session.ID)) then
      SessionRepository.Update db later session
    else if session.ID ≠ NilObjectID then
      (none, session, { db with sessions := db.sessions ++ [session] })
    else
      (none, { session with ID := db.freshID },
        { db with sessions := db.sessions ++ [{ session with ID := db.freshID }],
                  nextID := db.nextID + 1 })

/-- The readings of the clock while a session is built and stored, in the order
of the calls of `time.Now()`: three in the struct literal (`CreatedAt`,
`ExpiresAt`, `LastActivity`), one in `SessionRepository.Create`, one in the
`Update` that `Create` may fall back to. -/
structure StoreClock where
  created : Time
  expires : Time
  activity : Time
  create : Time
  update : Time
  deriving DecidableEq, Repr

/-- The readings of a `StoreClock`, in order. -/
def StoreClock.readings (k : StoreClock) : List Time :=
  [k.created, k.expires, k.activity, k.create, k.update]

/-- The readings of the clock during `UserUseCase.Login`: those of the two token
generations, then those of the session. -/
structure LoginClock where
  access : Time
  refresh : Time
  store : StoreClock
  deriving DecidableEq, Repr

/-- The readings of the clock during `UserUseCase.RefreshToken`: in
`ValidateToken`, in the test of the expiry of the session, in
`GenerateAccessToken` and in `UpdateLastActivity`. -/
structure RefreshClock where
  validate : Time
  check : Time
  issue : Time
  touch : Time
  deriving DecidableEq, Repr

/-- `UserUseCase.Login` with every call of `time.Now()` given its own reading. -/
def LoginAt (bcrypt : Bcrypt) (jwtService : JWTService) (k : LoginClock) (db : DB)
    (email password : String) : Except String LoginResponse × DB :=
  match UserRepository.GetByEmail db email with
  | Except.error _ => (Except.error errInvalidCredentials, db)
  | Except.ok user =>
    if !CheckPassword bcrypt password user.Password then
      (Except.error errInvalidCredentials, db)
    else
      match jwtService.GenerateAccessToken k.access user.ID user.Email user.Role with
      | Except.error err => (Except.error err, db)
      | Except.ok accessToken =>
        match jwtService.GenerateRefreshToken k.refresh user.ID user.Email user.Role with
        | Except.error err => (Except.error err, db)
        | Except.ok refreshToken =>
          let session : Session :=
            { ID := NilObjectID, UserID := user.ID, Username := user.Username,
              Token := refreshToken, IsActive := true, CreatedAt := k.store.created,
              ExpiresAt := k.store.expires + Hour * 24 * 7, LastActivity := k.store.activity }
          match SessionRepository.CreateAt db k.store.create k.store.update session with
          | (some err, _, db1) => (Except.error err, db1)
          | (none, _, db1) =>
            (Except.ok { User := user, AccessToken := accessToken,
                         RefreshToken := refreshToken }, db1)

/-- `UserUseCase.RefreshToken` with every call of `time.Now()` given its own
reading. -/
def RefreshTokenAt (jwtService : JWTService) (k : RefreshClock) (db : DB)
    (refreshToken : String) : Except String LoginResponse × DB :=
  match jwtService.ValidateToken k.validate refreshToken with
  | Except.error _ => (Except.error "invalid refresh token", db)
  | Except.ok claims =>
    match SessionRepository.GetByUserID db claims.UserID with
    | Except.error _ => (Except.error "session not found", db)
    | Except.ok session =>
      if !session.IsActive || decide (k.check > session.ExpiresAt) then
        (Except.error "session is expired or inactive", db)
      else
        match UserRepository.GetByID db claims.UserID with
        | Except.error _ => (Except.error "user not found", db)
        | Except.ok user =>
          match jwtService.GenerateAccessToken k.issue user.ID user.Email user.Role with
          | Except.error err => (Except.error err, db)
          | Except.ok newAccessToken =>
            match SessionRepository.UpdateLastActivity db k.touch session.ID with
            | (some err, db1) => (Except.error err, db1)
            | (none, db1) =>
              (Except.ok { User := user, AccessToken := newAccessToken,
                           RefreshToken := refreshToken }, db1)

/-- `SessionUseCase.CreateSession` with every call of `time.Now()` given its own
reading. -/
def CreateSessionAt (k : StoreClock) (db : DB) (userID : ObjectID)
    (username refreshToken : String) : Except String Session × DB :=
  let session : Session :=
    { ID := NilObjectID, UserID := userID, Username := username, Token := refreshToken,
      IsActive := true, CreatedAt := k.created, ExpiresAt := k.expires + 7 * 24 * Hour,
      LastActivity := k.activity }
  match SessionRepository.CreateAt db k.create k.update session with
  | (some err, _, db1) => (Except.error err, db1)
  | (none, session1, db1) => (Except.ok session1, db1)

/-- The operations on sessions of the two use cases, each with the readings of
the clock it takes. -/
inductive TimedOp where
  | login (bcrypt : Bcrypt) (jwtService : JWTService) (k : LoginClock) (email password : String)
  | refreshToken (jwtService : JWTService) (k : RefreshClock) (token : String)
  | createSession (k : StoreClock) (userID : ObjectID) (username token : String)
  | updateSessionActivity (now : Time) (userID : ObjectID)

/-- The database after an operation. -/
def TimedOp.apply (db : DB) : TimedOp → DB
  | TimedOp.login bcrypt jwtService k email password =>
    (LoginAt bcrypt jwtService k db email password).2
  | TimedOp.refreshToken jwtService k token => (RefreshTokenAt jwtService k db token).2
  | TimedOp.createSession k userID username token =>
    (CreateSessionAt k db userID username token).2
  | TimedOp.updateSessionActivity now userID => (UpdateSessionActivity now db userID).2

/-- The readings of the clock an operation takes, in order. -/
def TimedOp.readings : TimedOp → List Time
  | TimedOp.login _ _ k _ _ => [k.access, k.refresh] ++ k.store.readings
  | TimedOp.refreshToken _ k _ => [k.validate, k.check, k.issue, k.touch]
  | TimedOp.createSession k _ _ _ => k.readings
  | TimedOp.updateSessionActivity now _ => [now]

/-- The last reading of the clock an operation takes. -/
def TimedOp.last : TimedOp → Time
  | TimedOp.login _ _ k _ _ => k.store.update
  | TimedOp.refreshToken _ k _ => k.touch
  | TimedOp.createSession k _ _ _ => k.update
  | TimedOp.updateSessionActivity now _ => now

/-- The database after a sequence of operations. -/
def runTimed (db : DB) : List TimedOp → DB
  | [] => db
  | op :: rest => runTimed (op.apply db) rest

/-- A clock that never goes backwards: the readings of a run, in the order in
which they are taken, do not decrease. -/
def ClockMonotone (steps : List TimedOp) : Prop :=
  List.Pairwise (fun a b => a ≤ b) (steps.map TimedOp.readings).flatten

/-- The session is stored less than seven days after the reading of the clock
from which its expiry was computed. -/
def StoreClock.Prompt (k : StoreClock) : Prop := k.update < k.expires + Hour * 24 * 7

/-- Every session an operation stores is stored less than seven days after the
reading of the clock from which its expiry was computed. -/
def TimedOp.Prompt : TimedOp → Prop
  | TimedOp.login _ _ k _ _ => k.store.Prompt
  | TimedOp.createSession k _ _ _ => k.Prompt
  | _ => True

/-- Whether an operation is `Login` or `CreateSession`. -/
def TimedOp.stores : TimedOp → Bool
  | TimedOp.login _ _ _ _ _ => true
  | TimedOp.createSession _ _ _ _ => true
  | _ => false

/-- Every stored session was last active between its creation and the reading
`t` of the clock. -/
def SessionTimes (t : Time) (db : DB) : Prop :=
  ∀ s ∈ db.sessions, s.CreatedAt ≤ s.LastActivity ∧ s.LastActivity ≤ t

/-- Every stored session expires after its creation. -/
def SessionsExpireLater (db : DB) : Prop := ∀ s ∈ db.sessions, s.CreatedAt < s.ExpiresAt

/-- No stored session was last active after its expiry. -/
def SessionsNotOverdue (db : DB) : Prop := ∀ s ∈ db.sessions, s.LastActivity ≤ s.ExpiresAt

/-- The clock that reads `t` at every call. -/
def StoreClock.const (t : Time) : StoreClock := ⟨t, t, t, t, t⟩

/-- A run in which `alice` logs in at the first second and thirty days pass
before an `UpdateSessionActivity` for her. -/
def lateTouch : List TimedOp :=
  [TimedOp.login refBcrypt sampleJWT ⟨Second, Second, StoreClock.const Second⟩
     "a@x.io" "Abcdef1!",
   TimedOp.updateSessionActivity (Second + 30 * 24 * Hour) 1]

/-- A run in which `alice` logs in and a session is created for her again, each
operation taking its readings over a few nanoseconds. -/
def promptRun : List TimedOp :=
  [TimedOp.login refBcrypt sampleJWT
     ⟨Second, Second + 1, ⟨Second + 2, Second + 3, Second + 4, Second + 5, Second + 6⟩⟩
     "a@x.io" "Abcdef1!",
   TimedOp.createSession
     ⟨2 * Second, 2 * Second + 1, 2 * Second + 2, 2 * Second + 3, 2 * Second + 4⟩
     1 "alice" "t"]

/-! ## Blogs (`domain/blog.go`, `blog_repository.go`, `blog_usecase.go`) -/

/-- `domain.Comment`. -/
structure Comment where
  ID : ObjectID
  AuthorID : ObjectID
  AuthorUsername : String
  Content : String
  CreatedAt : Time
  UpdatedAt : Time
  deriving DecidableEq, Repr

/-- `domain.Blog`. -/
structure Blog where
  ID : ObjectID
  Title : String
  Content : String
  AuthorID : ObjectID
  AuthorUsername : String
  Tags : List String
  ViewCount : Int
  LikeCount : Int
  CommentCount : Int
  Likes : List String
  Dislikes : List String
  Comments : List Comment
  CreatedAt : Time
  UpdatedAt : Time
  deriving DecidableEq, Repr

/-- The state of the collection `blogs`. -/
structure BlogDB where
  /-- The documents of the collection, in insertion order. -/
  blogs : List Blog
  /-- When `some e`, the server is unreachable and every driver call fails with
  the error `e`. -/
  outage : Option String
  deriving DecidableEq, Repr

/-- `BlogRepo.GetByID`. -/
def BlogRepo.GetByID (db : BlogDB) (id : ObjectID) : Except String Blog :=
  match db.outage with
  | some e => Except.error ("database error in GetByID: " ++ e)
  | none =>
    match db.blogs.find? (fun b => b.ID == id) with
    | none => Except.error "blog not found"
    | some blog => Except.ok blog

/-- `BlogRepo.Delete`: `DeleteOne` by `_id`, an error when nothing was deleted. -/
def BlogRepo.Delete (db : BlogDB) (id : ObjectID) : Option String × BlogDB :=
  match db.outage with
  | some e => (some e, db)
  | none =>
    if db.blogs.any (fun b => b.ID == id) then
      (none, { db with blogs := deleteFirst (fun b => b.ID == id) db.blogs })
    else (some "blog not found for delete", db)

/-- `blogUseCase.UpdateBlog`.  The constant `domain.RoleAdmin` is not declared in
the files of the package `internal/domain`; it is the parameter `RoleAdmin`
(`Domain/models.go` declares `RoleAdmin = "admin"`). -/
def UpdateBlog (RoleAdmin : String) (now : Time) (db : BlogDB) (id : ObjectID)
    (blogUpdate : Blog) (userID : ObjectID) (userRole : String) : Except String Blog × BlogDB :=
  match BlogRepo.GetByID db id with
  | Except.error _ => (Except.error "blog not found", db)
  | Except.ok originalBlog =>
    if originalBlog.AuthorID ≠ userID ∧ userRole ≠ RoleAdmin then
      (Except.error "forbidden: you are not authorized to update this post", db)
    else
      (Except.ok { originalBlog with Title := blogUpdate.Title, Content := blogUpdate.Content,
                                     Tags := blogUpdate.Tags, UpdatedAt := now }, db)

/-- `blogUseCase.DeleteBlog`, with the parameter `RoleAdmin` of `UpdateBlog`. -/
def DeleteBlog (RoleAdmin : String) (db : BlogDB) (id : ObjectID) (userID : ObjectID)
    (userRole : String) : Option String × BlogDB :=
  match BlogRepo.GetByID db id with
  | Except.error _ => (some "blog not found", db)
  | Except.ok blog =>
    if blog.AuthorID ≠ userID ∧ userRole ≠ RoleAdmin then
      (some "forbidden: you are not authorized to delete this post", db)
    else BlogRepo.Delete db id

/-- A blog of user `1`. -/
def sampleBlog : Blog :=
  { ID := 7, Title := "Hello", Content := "First post", AuthorID := 1,
    AuthorUsername := "alice", Tags := ["go"], ViewCount := 0, LikeCount := 0,
    CommentCount := 0, Likes := [], Dislikes := [], Comments := [], CreatedAt := Second,
    UpdatedAt := Second }

/-- A store that holds `sampleBlog`. -/
def sampleBlogDB : BlogDB := { blogs := [sampleBlog], outage := none }

/-! # Theorems -/

/-! ## The password validator -/

theorem passwordStep_flags (U : Char → Option RuneClass) (f : PasswordFlags) (c : Char) :
    (passwordStep U f c).hasUpper = (f.hasUpper || IsUpper U c) ∧
    (passwordStep U f c).hasLower = (f.hasLower || IsLower U c) ∧
    (passwordStep U f c).hasNumber = (f.hasNumber || IsNumber U c) ∧
    (passwordStep U f c).hasSpecial = (f.hasSpecial || (IsPunct U c || IsSymbol U c)) := by
  unfold passwordStep IsUpper IsLower IsNumber IsPunct IsSymbol
  cases h : runeClass U c with
  | none => simp
  | some k => cases k <;> simp

theorem foldl_passwordStep_flags (U : Char → Option RuneClass) (cs : List Char)
    (f : PasswordFlags) :
    (cs.foldl (passwordStep U) f).hasUpper = (f.hasUpper || cs.any (IsUpper U)) ∧
    (cs.foldl (passwordStep U) f).hasLower = (f.hasLower || cs.any (IsLower U)) ∧
    (cs.foldl (passwordStep U) f).hasNumber = (f.hasNumber || cs.any (IsNumber U)) ∧
    (cs.foldl (passwordStep U) f).hasSpecial =
      (f.hasSpecial || cs.any (fun c => IsPunct U c || IsSymbol U c)) := by
  induction cs generalizing f with
  | nil => simp
  | cons c cs ih =>
    obtain ⟨h1, h2, h3, h4⟩ := passwordStep_flags U f c
    obtain ⟨i1, i2, i3, i4⟩ := ih (passwordStep U f c)
    simp only [List.foldl_cons, List.any_cons]
    rw [i1, i2, i3, i4, h1, h2, h3, h4]
    simp [Bool.or_assoc]

theorem passwordFlags_eq (U : Char → Option RuneClass) (p : String) :
    passwordFlags U p =
      ⟨p.data.any (IsUpper U), p.data.any (IsLower U), p.data.any (IsNumber U),
        p.data.any (fun c => IsPunct U c || IsSymbol U c)⟩ := by
  obtain ⟨h1, h2, h3, h4⟩ := foldl_passwordStep_flags U p.data ⟨false, false, false, false⟩
  unfold passwordFlags
  generalize List.foldl (passwordStep U) ⟨false, false, false, false⟩ p.data = g at *
  cases g
  simp_all

theorem goLen_mk (cs : List Char) : goLen (String.mk cs) = (cs.map Char.utf8Size).sum := by
  induction cs with
  | nil => rfl
  | cons c cs ih =>
    simp [goLen, String.utf8ByteSize, String.utf8ByteSize.go] at *
    omega

theorem length_le_goLen (p : String) : p.length ≤ goLen p := by
  cases p with
  | mk cs =>
    rw [goLen_mk]
    show cs.length ≤ _
    induction cs with
    | nil => simp
    | cons c cs ih =>
      have := Char.utf8Size_pos c
      simp
      omega

theorem utf8Size_of_ascii (c : Char) (h : c.toNat < 128) : c.utf8Size = 1 := by
  simp only [Char.utf8Size, Char.toNat] at *
  have hle : c.val ≤ UInt32.ofNatCore 127 (by decide) := by
    rw [UInt32.le_def, BitVec.le_def]
    show c.val.toNat ≤ 127
    omega
  rw [if_pos hle]

theorem goLen_eq_length_of_ascii (p : String) (h : ∀ c ∈ p.data, c.toNat < 128) :
    goLen p = p.length := by
  cases p with
  | mk cs =>
    rw [goLen_mk]
    show _ = cs.length
    induction cs with
    | nil => simp
    | cons c cs ih =>
      have hc : c.utf8Size = 1 := utf8Size_of_ascii c (h c (by simp))
      have := ih (fun d hd => h d (by simp at hd ⊢; exact Or.inr hd))
      simp [hc, this]
      omega

theorem validatePassword_eq (U : Char → Option RuneClass) (p : String) :
    ValidatePassword U p =
      if goLen p < 6 then some errTooShort
      else if goLen p > 72 then some errTooLong
      else if !p.data.any (IsUpper U) then some errNoUpper
      else if !p.data.any (IsLower U) then some errNoLower
      else if !p.data.any (IsNumber U) then some errNoNumber
      else if !p.data.any (fun c => IsPunct U c || IsSymbol U c) then some errNoSpecial
      else none := by
  simp only [ValidatePassword, passwordFlags_eq, MinPasswordLength, MaxPasswordLength]

/-- **C3 (counterexample).** The password `Aa1!é` has five code points (six
bytes) and is accepted, whatever the tables say about `é`.  And when the tables
put the superscript two in the class of numbers (its category is `No`), the
password `Aa!²xx`, which has no digit `0`–`9`, is accepted. -/
theorem validatePassword_accepts_five_codepoints :
    "Aa1!é".length = 5 ∧
    (∀ U : Char → Option RuneClass, ValidatePassword U "Aa1!é" = none) ∧
    (∀ c ∈ "Aa!²xx".data, ¬ asciiDigit c) ∧
    (∀ U : Char → Option RuneClass, U '²' = some RuneClass.number →
      ValidatePassword U "Aa!²xx" = none) := by
  refine ⟨by decide, fun U => ?_, by decide, fun U hnum => ?_⟩
  · rw [validatePassword_eq]
    have hl : goLen "Aa1!é" = 6 := by decide
    have hU : IsUpper U 'A' = true := rfl
    have hL : IsLower U 'a' = true := rfl
    have hN : IsNumber U '1' = true := rfl
    have hP : IsPunct U '!' = true := rfl
    have hd : "Aa1!é".data = ['A', 'a', '1', '!', 'é'] := by decide
    simp [hl, hd, hU, hL, hN, hP]
  · rw [validatePassword_eq]
    have hl : goLen "Aa!²xx" = 7 := by decide
    have hU : IsUpper U 'A' = true := rfl
    have hL : IsLower U 'a' = true := rfl
    have hN : IsNumber U '²' = true := by
      have h128 : ¬ ('²'.toNat < 128) := by decide
      simp [IsNumber, runeClass, h128, hnum]
    have hP : IsPunct U '!' = true := rfl
    have hd : "Aa!²xx".data = ['A', 'a', '!', '²', 'x', 'x'] := by decide
    simp [hl, hd, hU, hL, hN, hP]

/-- **C3 (amended).** An accepted password has between 6 and 72 bytes in UTF-8
(hence at most 72 code points) and contains a rune of each of the classes
`unicode.IsUpper`, `unicode.IsLower`, `unicode.IsNumber` and
`unicode.IsPunct`-or-`unicode.IsSymbol`. -/
theorem validatePassword_sound (U : Char → Option RuneClass) (p : String)
    (h : ValidatePassword U p = none) :
    6 ≤ goLen p ∧ goLen p ≤ 72 ∧ p.length ≤ 72 ∧
    (∃ c ∈ p.data, IsUpper U c = true) ∧ (∃ c ∈ p.data, IsLower U c = true) ∧
    (∃ c ∈ p.data, IsNumber U c = true) ∧
    (∃ c ∈ p.data, IsPunct U c = true ∨ IsSymbol U c = true) := by
  rw [validatePassword_eq] at h
  have hlen := length_le_goLen p
  split_ifs at h with h1 h2 h3 h4 h5 h6
  simp only [Bool.not_eq_true', Bool.not_eq_false, List.any_eq_true, Bool.or_eq_true] at h3 h4 h5 h6
  refine ⟨by omega, by omega, by omega, h3, h4, h5, h6⟩

theorem validatePassword_sound_witness :
    ValidatePassword (fun _ => none) "Ab1!ab" = none ∧ 6 ≤ goLen "Ab1!ab" ∧
      ∃ c ∈ "Ab1!ab".data, IsUpper (fun _ => none) c = true :=
  ⟨by decide,
   (validatePassword_sound (fun _ => none) "Ab1!ab" (by decide)).1,
   (validatePassword_sound (fun _ => none) "Ab1!ab" (by decide)).2.2.2.1⟩

/-- **C4 (counterexample).** The five-character password `ééééé` (ten bytes) is
not rejected as too short. -/
theorem validatePassword_five_chars_not_short :
    "ééééé".length = 5 ∧
      ∀ U : Char → Option RuneClass, ValidatePassword U "ééééé" ≠ some errTooShort := by
  refine ⟨by decide, fun U => ?_⟩
  rw [validatePassword_eq]
  have hl : goLen "ééééé" = 10 := by decide
  rw [hl]
  have e1 : errNoUpper ≠ errTooShort := by decide
  have e2 : errNoLower ≠ errTooShort := by decide
  have e3 : errNoNumber ≠ errTooShort := by decide
  have e4 : errNoSpecial ≠ errTooShort := by decide
  split_ifs <;> simp_all

/-- **C4 (amended).** The reason returned by `ValidatePassword` is that of the
first failing check in the order: fewer than 6 bytes, more than 72 bytes, no
upper-case rune, no lower-case rune, no number rune, no punctuation or symbol
rune; and there is no error when none fails.  A password of at most five bytes
(so one of at most five ASCII characters) is too short and one of 73 or more
characters is too long, whatever its characters; `abcdef1!` lacks an
upper-case letter. -/
theorem validatePassword_first_failure (U : Char → Option RuneClass) (p : String) :
    (goLen p < 6 → ValidatePassword U p = some errTooShort) ∧
    (6 ≤ goLen p → 72 < goLen p → ValidatePassword U p = some errTooLong) ∧
    (6 ≤ goLen p → goLen p ≤ 72 → (∀ c ∈ p.data, IsUpper U c = false) →
      ValidatePassword U p = some errNoUpper) ∧
    (6 ≤ goLen p → goLen p ≤ 72 → (∃ c ∈ p.data, IsUpper U c = true) →
      (∀ c ∈ p.data, IsLower U c = false) → ValidatePassword U p = some errNoLower) ∧
    (6 ≤ goLen p → goLen p ≤ 72 → (∃ c ∈ p.data, IsUpper U c = true) →
      (∃ c ∈ p.data, IsLower U c = true) → (∀ c ∈ p.data, IsNumber U c = false) →
      ValidatePassword U p = some errNoNumber) ∧
    (6 ≤ goLen p → goLen p ≤ 72 → (∃ c ∈ p.data, IsUpper U c = true) →
      (∃ c ∈ p.data, IsLower U c = true) → (∃ c ∈ p.data, IsNumber U c = true) →
      (∀ c ∈ p.data, IsPunct U c = false ∧ IsSymbol U c = false) →
      ValidatePassword U p = some errNoSpecial) ∧
    (6 ≤ goLen p → goLen p ≤ 72 → (∃ c ∈ p.data, IsUpper U c = true) →
      (∃ c ∈ p.data, IsLower U c = true) → (∃ c ∈ p.data, IsNumber U c = true) →
      (∃ c ∈ p.data, IsPunct U c = true ∨ IsSymbol U c = true) →
      ValidatePassword U p = none) ∧
    (73 ≤ p.length → ValidatePassword U p = some errTooLong) ∧
    (p.length ≤ 5 → (∀ c ∈ p.data, c.toNat < 128) →
      ValidatePassword U p = some errTooShort) ∧
    ValidatePassword U "abcdef1!" = some errNoUpper := by
  have hlen := length_le_goLen p
  have key := validatePassword_eq U p
  refine ⟨?_, ?_, ?_, ?_, ?_, ?_, ?_, ?_, ?_, ?_⟩
  · intro h
    rw [key, if_pos h]
  · intro h1 h2
    rw [key, if_neg (by omega), if_pos h2]
  · intro h1 h2 h3
    have : p.data.any (IsUpper U) = false := by
      simpa [List.any_eq_false] using h3
    rw [key, if_neg (by omega), if_neg (by omega)]
    simp [this]
  · intro h1 h2 h3 h4
    have a1 : p.data.any (IsUpper U) = true := by simpa using h3
    have a2 : p.data.any (IsLower U) = false := by simpa [List.any_eq_false] using h4
    rw [key, if_neg (by omega), if_neg (by omega)]
    simp [a1, a2]
  · intro h1 h2 h3 h4 h5
    have a1 : p.data.any (IsUpper U) = true := by simpa using h3
    have a2 : p.data.any (IsLower U) = true := by simpa using h4
    have a3 : p.data.any (IsNumber U) = false := by simpa [List.any_eq_false] using h5
    rw [key, if_neg (by omega), if_neg (by omega)]
    simp [a1, a2, a3]
  · intro h1 h2 h3 h4 h5 h6
    have a1 : p.data.any (IsUpper U) = true := by simpa using h3
    have a2 : p.data.any (IsLower U) = true := by simpa using h4
    have a3 : p.data.any (IsNumber U) = true := by simpa using h5
    have a4 : p.data.any (fun c => IsPunct U c || IsSymbol U c) = false := by
      simpa [List.any_eq_false] using h6
    rw [key, if_neg (by omega), if_neg (by omega)]
    simp [a1, a2, a3, a4]
  · intro h1 h2 h3 h4 h5 h6
    have a1 : p.data.any (IsUpper U) = true := by simpa using h3
    have a2 : p.data.any (IsLower U) = true := by simpa using h4
    have a3 : p.data.any (IsNumber U) = true := by simpa using h5
    have a4 : p.data.any (fun c => IsPunct U c || IsSymbol U c) = true := by
      simpa using h6
    rw [key, if_neg (by omega), if_neg (by omega)]
    simp [a1, a2, a3, a4]
  · intro h
    rw [key, if_neg (by omega), if_pos (by omega)]
  · intro h hascii
    have := goLen_eq_length_of_ascii p hascii
    rw [key, if_pos (by omega)]
  · rfl

theorem validatePassword_first_failure_witness :
    ValidatePassword (fun _ => none) "Ab1!" = some errTooShort ∧
    ValidatePassword (fun _ => none) "ABCDEF1!" = some errNoLower :=
  ⟨(validatePassword_first_failure (fun _ => none) "Ab1!").1 (by decide),
   (validatePassword_first_failure (fun _ => none) "ABCDEF1!").2.2.2.1 (by decide) (by decide)
     ⟨'A', by decide, by decide⟩ (by decide)⟩

theorem asciiClass_spec : ∀ n < 128,
    (asciiClass n = some RuneClass.upper ↔ 65 ≤ n ∧ n ≤ 90) ∧
    (asciiClass n = some RuneClass.lower ↔ 97 ≤ n ∧ n ≤ 122) ∧
    (asciiClass n = some RuneClass.number ↔ 48 ≤ n ∧ n ≤ 57) ∧
    (asciiClass n = some RuneClass.punct ∨ asciiClass n = some RuneClass.symbol ↔
      (33 ≤ n ∧ n ≤ 47) ∨ (58 ≤ n ∧ n ≤ 64) ∨ (91 ≤ n ∧ n ≤ 96) ∨ (123 ≤ n ∧ n ≤ 126)) := by
  decide

theorem ascii_classes (U : Char → Option RuneClass) (c : Char) (h : c.toNat < 128) :
    (IsUpper U c = true ↔ asciiUpperLetter c) ∧ (IsLower U c = true ↔ asciiLowerLetter c) ∧
    (IsNumber U c = true ↔ asciiDigit c) ∧
    (IsPunct U c = true ∨ IsSymbol U c = true ↔ asciiSpecial c) := by
  obtain ⟨h1, h2, h3, h4⟩ := asciiClass_spec c.toNat h
  have e1 : 'A'.toNat = 65 := rfl
  have e2 : 'Z'.toNat = 90 := rfl
  have e3 : 'a'.toNat = 97 := rfl
  have e4 : 'z'.toNat = 122 := rfl
  have e5 : '0'.toNat = 48 := rfl
  have e6 : '9'.toNat = 57 := rfl
  simp only [IsUpper, IsLower, IsNumber, IsPunct, IsSymbol, runeClass, if_pos h, beq_iff_eq,
    asciiUpperLetter, asciiLowerLetter, asciiDigit, asciiSpecial, e1, e2, e3, e4, e5, e6]
  exact ⟨h1, h2, h3, h4⟩

theorem exists_congr_of_ascii {p : String} (h : ∀ c ∈ p.data, c.toNat < 128)
    {P Q : Char → Prop} (hPQ : ∀ c, c.toNat < 128 → (P c ↔ Q c)) :
    (∃ c ∈ p.data, P c) ↔ (∃ c ∈ p.data, Q c) := by
  constructor
  · rintro ⟨c, hc, hp⟩
    exact ⟨c, hc, (hPQ c (h c hc)).1 hp⟩
  · rintro ⟨c, hc, hq⟩
    exact ⟨c, hc, (hPQ c (h c hc)).2 hq⟩

/-- **C5.** For a password made only of ASCII characters, `ValidatePassword`
returns no error exactly when the password has between 6 and 72 characters and
contains one of `A`–`Z`, one of `a`–`z`, one of `0`–`9` and one ASCII
punctuation or symbol character; `Ab1!ab` is accepted. -/
theorem validatePassword_ascii_iff (U : Char → Option RuneClass) (p : String)
    (hascii : ∀ c ∈ p.data, c.toNat < 128) :
    (ValidatePassword U p = none ↔
      6 ≤ p.length ∧ p.length ≤ 72 ∧ (∃ c ∈ p.data, asciiUpperLetter c) ∧
        (∃ c ∈ p.data, asciiLowerLetter c) ∧ (∃ c ∈ p.data, asciiDigit c) ∧
        (∃ c ∈ p.data, asciiSpecial c)) ∧
    ValidatePassword U "Ab1!ab" = none := by
  refine ⟨?_, rfl⟩
  have hl := goLen_eq_length_of_ascii p hascii
  rw [← exists_congr_of_ascii hascii (fun c hc => (ascii_classes U c hc).1),
    ← exists_congr_of_ascii hascii (fun c hc => (ascii_classes U c hc).2.1),
    ← exists_congr_of_ascii hascii (fun c hc => (ascii_classes U c hc).2.2.1),
    ← exists_congr_of_ascii hascii (fun c hc => (ascii_classes U c hc).2.2.2), ← hl]
  rw [validatePassword_eq]
  constructor
  · intro h
    split_ifs at h with h1 h2 h3 h4 h5 h6
    simp only [Bool.not_eq_true', Bool.not_eq_false, List.any_eq_true, Bool.or_eq_true]
      at h3 h4 h5 h6
    exact ⟨by omega, by omega, h3, h4, h5, h6⟩
  · rintro ⟨h1, h2, h3, h4, h5, h6⟩
    have a1 : p.data.any (IsUpper U) = true := by simpa using h3
    have a2 : p.data.any (IsLower U) = true := by simpa using h4
    have a3 : p.data.any (IsNumber U) = true := by simpa using h5
    have a4 : p.data.any (fun c => IsPunct U c || IsSymbol U c) = true := by
      simpa using h6
    rw [if_neg (by omega), if_neg (by omega)]
    simp [a1, a2, a3, a4]

theorem validatePassword_ascii_iff_witness :
    ValidatePassword (fun _ => none)
      "Ab1!abcdefghijklmnopqrstuvwxyzabcdefghijklmnopqrstuvwxyzabcdefghijklmnop" = none :=
  ((validatePassword_ascii_iff (fun _ => none)
      "Ab1!abcdefghijklmnopqrstuvwxyzabcdefghijklmnopqrstuvwxyzabcdefghijklmnop"
      (by decide)).1).2
    ⟨by decide, by decide, ⟨'A', by decide, by decide⟩, ⟨'b', by decide, by decide⟩,
      ⟨'1', by decide, by decide⟩, ⟨'!', by decide, by decide⟩⟩

/-! ## The bearer-token extraction -/

theorem splitOnSpace_ne_nil (l : List Char) : splitOnSpace l ≠ [] := by
  cases l with
  | nil => simp [splitOnSpace]
  | cons c cs =>
    unfold splitOnSpace
    split_ifs
    · simp
    · split <;> simp

theorem splitOnSpace_of_not_mem (l : List Char) (h : ' ' ∉ l) : splitOnSpace l = [l] := by
  induction l with
  | nil => rfl
  | cons c cs ih =>
    have hc : c ≠ ' ' := fun e => h (by simp [e])
    have hcs : ' ' ∉ cs := fun e => h (by simp [e])
    simp [splitOnSpace, hc, ih hcs]

theorem splitOnSpace_append (a b : List Char) (h : ' ' ∉ a) :
    splitOnSpace (a ++ ' ' :: b) = a :: splitOnSpace b := by
  induction a with
  | nil => simp [splitOnSpace]
  | cons c cs ih =>
    have hc : c ≠ ' ' := fun e => h (by simp [e])
    have hcs : ' ' ∉ cs := fun e => h (by simp [e])
    simp [splitOnSpace, hc, ih hcs]

theorem splitOnSpace_cases (l : List Char) :
    (' ' ∉ l ∧ splitOnSpace l = [l]) ∨
      ∃ a b, l = a ++ ' ' :: b ∧ ' ' ∉ a ∧ splitOnSpace l = a :: splitOnSpace b := by
  induction l with
  | nil => exact Or.inl ⟨by simp, rfl⟩
  | cons c cs ih =>
    by_cases hc : c = ' '
    · exact Or.inr ⟨[], cs, by simp [hc], by simp, by simp [splitOnSpace, hc]⟩
    · rcases ih with ⟨h1, _⟩ | ⟨a, b, h1, h2, _⟩
      · have : ' ' ∉ c :: cs := by
          simp only [List.mem_cons, not_or]
          exact ⟨fun e => hc e.symm, h1⟩
        exact Or.inl ⟨this, splitOnSpace_of_not_mem _ this⟩
      · have hn : ' ' ∉ c :: a := by
          simp only [List.mem_cons, not_or]
          exact ⟨fun e => hc e.symm, h2⟩
        refine Or.inr ⟨c :: a, b, by simp [h1], hn, ?_⟩
        rw [h1]
        exact splitOnSpace_append (c :: a) b hn

theorem splitOnSpace_eq_pair (l p0 p1 : List Char) :
    splitOnSpace l = [p0, p1] ↔ l = p0 ++ ' ' :: p1 ∧ ' ' ∉ p0 ∧ ' ' ∉ p1 := by
  constructor
  · intro h
    rcases splitOnSpace_cases l with ⟨_, h2⟩ | ⟨a, b, h1, h2, h3⟩
    · rw [h2] at h
      simp at h
    · rw [h3] at h
      simp only [List.cons.injEq] at h
      obtain ⟨rfl, hb⟩ := h
      rcases splitOnSpace_cases b with ⟨k1, k2⟩ | ⟨a', b', _, _, k3⟩
      · rw [k2] at hb
        simp only [List.cons.injEq, and_true] at hb
        subst hb
        exact ⟨h1, h2, k1⟩
      · rw [k3] at hb
        simp only [List.cons.injEq] at hb
        exact absurd hb.2 (splitOnSpace_ne_nil b')
  · rintro ⟨rfl, h0, h1⟩
    rw [splitOnSpace_append _ _ h0, splitOnSpace_of_not_mem _ h1]

theorem extractToken_eq (c : Context) (t : String) (ht : t ≠ "") :
    extractToken c = t ↔ c.GetHeader "Authorization" = "Bearer " ++ t ∧ ' ' ∉ t.data := by
  unfold extractToken
  generalize c.GetHeader "Authorization" = h
  simp only
  constructor
  · intro hx
    split_ifs at hx with he
    · exact absurd hx.symm ht
    · split at hx
      · rename_i part0 part1 hs
        split_ifs at hx with hb
        · exact absurd hx.symm ht
        · simp only [stringsSplitSpace] at hs
          have hl : (splitOnSpace h.data).length = 2 := by
            have := congrArg List.length hs
            simpa using this
          match hq : splitOnSpace h.data, hl with
          | [q0, q1], _ =>
            rw [hq] at hs
            simp only [List.map_cons, List.map_nil, List.cons.injEq, and_true] at hs
            obtain ⟨hs0, hs1⟩ := hs
            obtain ⟨e, _, n1⟩ := (splitOnSpace_eq_pair _ _ _).1 hq
            have hb' : part0 = "Bearer" := not_not.1 hb
            subst hx
            have hq0 : q0 = "Bearer".data := by
              rw [← hb', ← hs0]
            have hq1 : q1 = part1.data := by
              rw [← hs1]
            refine ⟨?_, hq1 ▸ n1⟩
            apply String.ext
            rw [e, hq0, hq1]
            simp [String.data_append]
      · exact absurd hx.symm ht
  · rintro ⟨rfl, hn⟩
    have hne : ("Bearer " ++ t) ≠ "" := by
      intro e
      have := congrArg String.length e
      simp only [String.length_append] at this
      have h7 : "Bearer ".length = 7 := rfl
      have h0 : "".length = 0 := rfl
      omega
    have hd : ("Bearer " ++ t).data = "Bearer".data ++ ' ' :: t.data := by
      simp [String.data_append]
    have hs : stringsSplitSpace ("Bearer " ++ t) = ["Bearer", t] := by
      unfold stringsSplitSpace
      rw [hd, (splitOnSpace_eq_pair _ _ _).2 ⟨rfl, by decide, hn⟩]
      rfl
    rw [if_neg hne, hs]
    simp

/-- **C2.** `extractToken` returns a non-empty token `t` exactly when the
`Authorization` header is `"Bearer "` followed by `t` and `t` contains no
space; for every other header it returns the empty string (so for an absent
header, `Bearer`, `Bearer ` with nothing after it, `Bearer x y`, two spaces
after `Bearer`, another scheme or another letter case), and `AuthRequired`
answers the empty token with status 401 and aborts. -/
theorem extractToken_spec (c : Context) :
    (∀ t : String, t ≠ "" →
      (extractToken c = t ↔ c.GetHeader "Authorization" = "Bearer " ++ t ∧ ' ' ∉ t.data)) ∧
    ((¬ ∃ t : String, t ≠ "" ∧ ' ' ∉ t.data ∧ c.GetHeader "Authorization" = "Bearer " ++ t) →
      extractToken c = "") ∧
    (c.GetHeader "Authorization" ∈
        ["", "Bearer", "Bearer ", "Bearer x y", "Bearer  x", "Basic x", "bearer x", "BEARER x"] →
      extractToken c = "") ∧
    (∀ (jwtService : JWTService) (now : Time) (next : World → World) (db : DB),
      extractToken c = "" →
        AuthRequired jwtService now next ⟨db, c⟩ =
            unauthorized ⟨db, c⟩ "Authorization token required" ∧
          (AuthRequired jwtService now next ⟨db, c⟩).c.aborted = true ∧
          (AuthRequired jwtService now next ⟨db, c⟩).c.written =
            c.written ++ [(401, Body.error "Authorization token required")]) := by
  refine ⟨fun t ht => extractToken_eq c t ht, ?_, ?_, ?_⟩
  · intro h
    by_contra hne
    exact h ⟨extractToken c, hne, ((extractToken_eq c _ hne).1 rfl).2,
      ((extractToken_eq c _ hne).1 rfl).1⟩
  · intro h
    simp only [List.mem_cons, List.mem_singleton, List.mem_nil_iff, or_false] at h
    rcases h with h | h | h | h | h | h | h | h <;>
      · simp only [extractToken, h]
        decide
  · intro jwtService now next db h
    have : AuthRequired jwtService now next ⟨db, c⟩ =
        unauthorized ⟨db, c⟩ "Authorization token required" := by
      simp [AuthRequired, h]
    rw [this]
    exact ⟨rfl, rfl, rfl⟩

theorem extractToken_spec_witness :
    extractToken ⟨[("Authorization", "Bearer abc.def")], "", [], false, false, []⟩ = "abc.def" :=
  ((extractToken_spec ⟨[("Authorization", "Bearer abc.def")], "", [], false, false, []⟩).1
    "abc.def" (by decide)).2 ⟨by decide, by decide⟩

/-! ## The guard -/

theorem setPrincipal_get (c : Context) (claims : JWTClaims) :
    (setPrincipal c claims).Get "user_id" = some (CtxValue.oid claims.UserID) ∧
    (setPrincipal c claims).Get "user_email" = some (CtxValue.str claims.Email) ∧
    (setPrincipal c claims).Get "user_role" = some (CtxValue.str claims.Role) := by
  simp [setPrincipal, Context.Set, Context.Get, List.lookup, List.filter]

/-- **C1.** `AuthRequired` lets the request proceed (calls the following
handlers) exactly when `extractToken` yields a non-empty token, `ValidateToken`
accepts it, `GetByUserID(claims.UserID)` finds a session and that session is
active; it then calls them on the context in which `user_id`, `user_email` and
`user_role` are the token's claims.  In every other case the following handlers
are not called, the response is 401 and the context is aborted. -/
theorem authRequired_spec (jwtService : JWTService) (now : Time) (next : World → World)
    (w : World) :
    (∀ claims session, extractToken w.c ≠ "" →
      jwtService.ValidateToken now (extractToken w.c) = Except.ok claims →
      SessionRepository.GetByUserID w.db claims.UserID = Except.ok session →
      session.IsActive = true →
        AuthRequired jwtService now next w = next { w with c := setPrincipal w.c claims } ∧
        (setPrincipal w.c claims).Get "user_id" = some (CtxValue.oid claims.UserID) ∧
        (setPrincipal w.c claims).Get "user_email" = some (CtxValue.str claims.Email) ∧
        (setPrincipal w.c claims).Get "user_role" = some (CtxValue.str claims.Role) ∧
        (setPrincipal w.c claims).aborted = w.c.aborted ∧
        (setPrincipal w.c claims).written = w.c.written) ∧
    ((¬ ∃ claims session, extractToken w.c ≠ "" ∧
        jwtService.ValidateToken now (extractToken w.c) = Except.ok claims ∧
        SessionRepository.GetByUserID w.db claims.UserID = Except.ok session ∧
        session.IsActive = true) →
      ∃ msg, AuthRequired jwtService now next w = unauthorized w msg ∧
        (unauthorized w msg).c.aborted = true ∧ (unauthorized w msg).db = w.db ∧
        (unauthorized w msg).c.written = w.c.written ++ [(401, Body.error msg)]) ∧
    (w.c.aborted = false →
      ((AuthRequired jwtService now id w).c.aborted = false ↔
        ∃ claims session, extractToken w.c ≠ "" ∧
          jwtService.ValidateToken now (extractToken w.c) = Except.ok claims ∧
          SessionRepository.GetByUserID w.db claims.UserID = Except.ok session ∧
          session.IsActive = true)) := by
  have pass : ∀ (nx : World → World) claims session, extractToken w.c ≠ "" →
      jwtService.ValidateToken now (extractToken w.c) = Except.ok claims →
      SessionRepository.GetByUserID w.db claims.UserID = Except.ok session →
      session.IsActive = true →
      AuthRequired jwtService now nx w = nx { w with c := setPrincipal w.c claims } := by
    intro nx claims session h1 h2 h3 h4
    simp [AuthRequired, h1, h2, h3, h4]
  have fail : ∀ (nx : World → World), (¬ ∃ claims session, extractToken w.c ≠ "" ∧
        jwtService.ValidateToken now (extractToken w.c) = Except.ok claims ∧
        SessionRepository.GetByUserID w.db claims.UserID = Except.ok session ∧
        session.IsActive = true) →
      ∃ msg, AuthRequired jwtService now nx w = unauthorized w msg := by
    intro nx h
    unfold AuthRequired
    simp only
    split_ifs with h1
    · exact ⟨_, rfl⟩
    · split
      · exact ⟨_, rfl⟩
      · rename_i claims h2
        split
        · exact ⟨_, rfl⟩
        · rename_i session h3
          split_ifs with h4
          · exact ⟨_, rfl⟩
          · exact absurd ⟨claims, session, h1, h2, h3, by simpa using h4⟩ h
  refine ⟨?_, ?_, ?_⟩
  · intro claims session h1 h2 h3 h4
    obtain ⟨g1, g2, g3⟩ := setPrincipal_get w.c claims
    exact ⟨pass next claims session h1 h2 h3 h4, g1, g2, g3, rfl, rfl⟩
  · intro h
    obtain ⟨msg, hm⟩ := fail next h
    exact ⟨msg, hm, rfl, rfl, rfl⟩
  · intro ha
    constructor
    · intro h
      by_contra hn
      obtain ⟨msg, hm⟩ := fail id hn
      rw [hm] at h
      simp [unauthorized, Context.Abort] at h
    · rintro ⟨claims, session, h1, h2, h3, h4⟩
      rw [pass id claims session h1 h2 h3 h4]
      exact ha

theorem authRequired_spec_witness :
    AuthRequired sampleJWT (2 * Second) id
        ⟨firstLogin.2, requestContext ("Bearer " ++ accessToken1) ""⟩ =
      ⟨firstLogin.2, setPrincipal (requestContext ("Bearer " ++ accessToken1) "")
        ⟨1, "a@x.io", "user", 16, 1⟩⟩ ∧
    (∃ msg, AuthRequired sampleJWT (2 * Second) id
        ⟨firstLogin.2, requestContext "Bearer x y" ""⟩ =
      unauthorized ⟨firstLogin.2, requestContext "Bearer x y" ""⟩ msg) :=
  have h := authRequired_spec sampleJWT (2 * Second) id
    ⟨firstLogin.2, requestContext ("Bearer " ++ accessToken1) ""⟩
  have h' := authRequired_spec sampleJWT (2 * Second) id
    ⟨firstLogin.2, requestContext "Bearer x y" ""⟩
  ⟨(h.1 ⟨1, "a@x.io", "user", 16, 1⟩
      { ID := 2, UserID := 1, Username := "alice", Token := refreshToken1, IsActive := true,
        CreatedAt := Second, ExpiresAt := Second + Hour * 24 * 7, LastActivity := Second }
      (by decide) (by decide) (by decide) rfl).1,
    (h'.2.1 (by
      rintro ⟨claims, session, hne, -⟩
      exact hne (by decide))).imp fun _ hm => hm.1⟩

/-! ## Login failures -/

theorem getByEmail_of_unknown (db : DB) (email : String)
    (h : ∀ u ∈ db.users, u.Email ≠ email) :
    ∃ e, UserRepository.GetByEmail db email = Except.error e := by
  unfold UserRepository.GetByEmail
  cases db.outage with
  | some e => exact ⟨e, rfl⟩
  | none =>
    have : db.users.find? (fun u => u.Email == email) = none := by
      rw [List.find?_eq_none]
      intro u hu
      simpa using h u hu
    simp only [this]
    exact ⟨_, rfl⟩

theorem login_unknown_email (bcrypt : Bcrypt) (jwtService : JWTService) (now : Time) (db : DB)
    (email password : String) (h : ∀ u ∈ db.users, u.Email ≠ email) :
    Login bcrypt jwtService now db email password = (Except.error errInvalidCredentials, db) := by
  obtain ⟨e, he⟩ := getByEmail_of_unknown db email h
  simp [Login, he]

theorem login_wrong_password (bcrypt : Bcrypt) (jwtService : JWTService) (now : Time) (db : DB)
    (email password : String) (user : User)
    (hu : db.users.find? (fun u => u.Email == email) = some user)
    (hp : CheckPassword bcrypt password user.Password = false) :
    Login bcrypt jwtService now db email password = (Except.error errInvalidCredentials, db) := by
  unfold Login UserRepository.GetByEmail
  cases db.outage with
  | some e => rfl
  | none => simp [hu, hp]

/-- **C6.** `Login` with an email that matches no user and `Login` of an
existing user with a password that `CheckPassword` rejects return the same
error, `invalid email or password`, and the login endpoint answers both
requests with status 401 and the same body. -/
theorem login_failures_indistinguishable (binding : Binding) (bcrypt : Bcrypt)
    (jwtService : JWTService) (now : Time) (db : DB) (next next' : World → World)
    (c c' : Context) (req req' : LoginRequest) (user : User)
    (hbind : binding.bindLoginRequest c.RequestBody = Except.ok req)
    (hvalid : binding.validateLoginRequest req = none)
    (hbind' : binding.bindLoginRequest c'.RequestBody = Except.ok req')
    (hvalid' : binding.validateLoginRequest req' = none)
    (hunknown : ∀ u ∈ db.users, u.Email ≠ req.Email)
    (hknown : db.users.find? (fun u => u.Email == req'.Email) = some user)
    (hwrong : CheckPassword bcrypt req'.Password user.Password = false) :
    Login bcrypt jwtService now db req.Email req.Password =
        (Except.error "invalid email or password", db) ∧
    Login bcrypt jwtService now db req'.Email req'.Password =
        (Except.error "invalid email or password", db) ∧
    UserHandler.Login binding bcrypt jwtService now next ⟨db, c⟩ =
        ⟨db, c.JSON 401 (Body.error "invalid email or password")⟩ ∧
    UserHandler.Login binding bcrypt jwtService now next' ⟨db, c'⟩ =
        ⟨db, c'.JSON 401 (Body.error "invalid email or password")⟩ := by
  have h1 := login_unknown_email bcrypt jwtService now db req.Email req.Password hunknown
  have h2 := login_wrong_password bcrypt jwtService now db req'.Email req'.Password user
    hknown hwrong
  refine ⟨h1, h2, ?_, ?_⟩
  · simp only [UserHandler.Login, hbind, hvalid, h1]
    rfl
  · simp only [UserHandler.Login, hbind', hvalid', h2]
    rfl

theorem login_failures_indistinguishable_witness :
    UserHandler.Login refBinding refBcrypt sampleJWT 0 id
        ⟨sampleDB, requestContext "" "b@x.io Abcdef1!"⟩ =
      ⟨sampleDB, (requestContext "" "b@x.io Abcdef1!").JSON 401
        (Body.error "invalid email or password")⟩ ∧
    UserHandler.Login refBinding refBcrypt sampleJWT 0 id
        ⟨sampleDB, requestContext "" "a@x.io Abcdef1?"⟩ =
      ⟨sampleDB, (requestContext "" "a@x.io Abcdef1?").JSON 401
        (Body.error "invalid email or password")⟩ :=
  have h := login_failures_indistinguishable refBinding refBcrypt sampleJWT 0 sampleDB id id
    (requestContext "" "b@x.io Abcdef1!") (requestContext "" "a@x.io Abcdef1?")
    ⟨"b@x.io", "Abcdef1!"⟩ ⟨"a@x.io", "Abcdef1?"⟩
    ⟨1, "alice", "a@x.io", "$$$#Abcdef1!", "user", none, "", 0, 0⟩
    (by decide) (by decide) (by decide) (by decide) (by decide) (by decide) (by decide)
  ⟨h.2.2.1, h.2.2.2⟩

/-! ## The session store: at most one session per user -/

theorem map_updateFirst {α β : Type} (p : α → Bool) (f : α → α) (g : α → β) (l : List α)
    (h : ∀ x, p x = true → g (f x) = g x) : (updateFirst p f l).map g = l.map g := by
  induction l with
  | nil => rfl
  | cons x xs ih =>
    unfold updateFirst
    split_ifs with hp
    · simp [h x hp]
    · simp [ih]

theorem length_updateFirst {α : Type} (p : α → Bool) (f : α → α) (l : List α) :
    (updateFirst p f l).length = l.length := by
  induction l with
  | nil => rfl
  | cons x xs ih =>
    unfold updateFirst
    split_ifs <;> simp [ih]

theorem deleteFirst_sublist {α : Type} (p : α → Bool) (l : List α) :
    (deleteFirst p l).Sublist l := by
  induction l with
  | nil => exact List.Sublist.refl _
  | cons x xs ih =>
    unfold deleteFirst
    split_ifs
    · exact List.sublist_cons_self x xs
    · exact ih.cons₂ x

theorem sessionsUnique_of_sublist {db db' : DB} (h : db'.sessions.Sublist db.sessions)
    (hu : SessionsUnique db) : SessionsUnique db' :=
  List.Nodup.sublist (h.map _) hu

theorem sessionsUnique_of_eq {db db' : DB} (h : db'.sessions = db.sessions)
    (hu : SessionsUnique db) : SessionsUnique db' := by
  unfold SessionsUnique at *
  rw [h]
  exact hu

theorem update_userIDs (db : DB) (now : Time) (session : Session) :
    (SessionRepository.Update db now session).2.2.sessions.map (fun s => s.UserID) =
      db.sessions.map (fun s => s.UserID) := by
  unfold SessionRepository.Update
  cases db.outage with
  | some e => rfl
  | none =>
    simp only
    split
    · rfl
    · split_ifs
      · rfl
      · apply map_updateFirst
        intro x hx
        simpa using (beq_iff_eq.1 hx).symm

theorem update_unique (db : DB) (now : Time) (session : Session) (hu : SessionsUnique db) :
    SessionsUnique (SessionRepository.Update db now session).2.2 := by
  unfold SessionsUnique at *
  rw [update_userIDs]
  exact hu

theorem create_unique (db : DB) (now : Time) (session : Session) (hu : SessionsUnique db) :
    SessionsUnique (SessionRepository.Create db now session).2.2 := by
  unfold SessionRepository.Create
  cases db.outage with
  | some e => exact hu
  | none =>
    simp only
    split_ifs with h1 h2
    · exact update_unique db now _ hu
    · have hnot : session.UserID ∉ db.sessions.map (fun s => s.UserID) := by
        intro hm
        apply h1
        left
        obtain ⟨s, hs, he⟩ := List.mem_map.1 hm
        exact List.any_eq_true.2 ⟨s, hs, by simpa using he⟩
      unfold SessionsUnique at *
      simp only [List.map_append, List.map_cons, List.map_nil]
      exact List.Nodup.append hu (List.nodup_singleton _)
        (by simpa [List.disjoint_singleton] using hnot)
    · have hnot : session.UserID ∉ db.sessions.map (fun s => s.UserID) := by
        intro hm
        apply h1
        left
        obtain ⟨s, hs, he⟩ := List.mem_map.1 hm
        exact List.any_eq_true.2 ⟨s, hs, by simpa using he⟩
      unfold SessionsUnique at *
      simp only [List.map_append, List.map_cons, List.map_nil]
      exact List.Nodup.append hu (List.nodup_singleton _)
        (by simpa [List.disjoint_singleton] using hnot)

theorem updateLastActivity_unique (db : DB) (now : Time) (id : ObjectID)
    (hu : SessionsUnique db) :
    SessionsUnique (SessionRepository.UpdateLastActivity db now id).2 := by
  unfold SessionRepository.UpdateLastActivity
  cases db.outage with
  | some e => exact hu
  | none =>
    unfold SessionsUnique at *
    simp only
    rw [map_updateFirst]
    · exact hu
    · intro x _
      rfl

theorem deleteByUserID_unique (db : DB) (userID : ObjectID) (hu : SessionsUnique db) :
    SessionsUnique (SessionRepository.DeleteByUserID db userID).2 := by
  unfold SessionRepository.DeleteByUserID
  cases db.outage with
  | some e => exact hu
  | none => exact sessionsUnique_of_sublist (deleteFirst_sublist _ _) hu

theorem delete_unique (db : DB) (id : ObjectID) (hu : SessionsUnique db) :
    SessionsUnique (SessionRepository.Delete db id).2 := by
  unfold SessionRepository.Delete
  cases db.outage with
  | some e => exact hu
  | none => exact sessionsUnique_of_sublist (deleteFirst_sublist _ _) hu

theorem deleteExpired_unique (db : DB) (now : Time) (hu : SessionsUnique db) :
    SessionsUnique (SessionRepository.DeleteExpired db now).2 := by
  unfold SessionRepository.DeleteExpired
  cases db.outage with
  | some e => exact hu
  | none => exact sessionsUnique_of_sublist (List.filter_sublist _) hu

theorem userCreate_sessions (db : DB) (now : Time) (user : User) :
    (UserRepository.Create db now user).2.2.sessions = db.sessions := by
  unfold UserRepository.Create
  cases db.outage with
  | some e => rfl
  | none =>
    simp only
    split_ifs <;> rfl

theorem register_sessions (U : Char → Option RuneClass) (bcrypt : Bcrypt) (salt : Nat)
    (now : Time) (db : DB) (username email password : String) :
    (Register U bcrypt salt now db username email password).2.sessions = db.sessions := by
  unfold Register
  split
  · rfl
  · split
    · rfl
    · split
      · rfl
      · split
        · rfl
        · simp only
          split
          · rename_i h
            have e := congrArg (fun r => r.2.2) h
            simp only at e
            show _ = db.sessions
            simp only
            rw [← e]
            exact userCreate_sessions _ _ _
          · rename_i h
            have e := congrArg (fun r => r.2.2) h
            simp only at e
            show _ = db.sessions
            simp only
            rw [← e]
            exact userCreate_sessions _ _ _

theorem login_unique (bcrypt : Bcrypt) (jwtService : JWTService) (now : Time) (db : DB)
    (email password : String) (hu : SessionsUnique db) :
    SessionsUnique (Login bcrypt jwtService now db email password).2 := by
  unfold Login
  split
  · exact hu
  · split_ifs
    · exact hu
    · split
      · exact hu
      · split
        · exact hu
        · simp only
          split
          · rename_i h
            have e := congrArg (fun r => r.2.2) h
            simp only at e
            show SessionsUnique _
            simp only
            rw [← e]
            exact create_unique _ _ _ hu
          · rename_i h
            have e := congrArg (fun r => r.2.2) h
            simp only at e
            show SessionsUnique _
            simp only
            rw [← e]
            exact create_unique _ _ _ hu

theorem refreshToken_unique (jwtService : JWTService) (now : Time) (db : DB)
    (refreshToken : String) (hu : SessionsUnique db) :
    SessionsUnique (RefreshToken jwtService now db refreshToken).2 := by
  unfold RefreshToken
  split
  · exact hu
  · split
    · exact hu
    · split_ifs
      · exact hu
      · split
        · exact hu
        · split
          · exact hu
          · split
            · rename_i h
              have e := congrArg (fun r => r.2) h
              simp only at e
              show SessionsUnique _
              simp only
              rw [← e]
              exact updateLastActivity_unique _ _ _ hu
            · rename_i h
              have e := congrArg (fun r => r.2) h
              simp only at e
              show SessionsUnique _
              simp only
              rw [← e]
              exact updateLastActivity_unique _ _ _ hu

theorem apply_unique (db : DB) (op : Op) (hu : SessionsUnique db) :
    SessionsUnique (op.apply db) := by
  cases op with
  | sessionCreate now session => exact create_unique db now session hu
  | sessionUpdate now session => exact update_unique db now session hu
  | sessionUpdateLastActivity now id => exact updateLastActivity_unique db now id hu
  | sessionDelete id => exact delete_unique db id hu
  | sessionDeleteByUserID userID => exact deleteByUserID_unique db userID hu
  | sessionDeleteExpired now => exact deleteExpired_unique db now hu
  | register U bcrypt salt now username email password =>
    exact sessionsUnique_of_eq (register_sessions U bcrypt salt now db username email password) hu
  | login bcrypt jwtService now email password =>
    exact login_unique bcrypt jwtService now db email password hu
  | refreshToken jwtService now token =>
    exact refreshToken_unique jwtService now db token hu
  | logout userID => exact deleteByUserID_unique db userID hu
  | setOutage outage => exact hu

theorem run_unique (db : DB) (ops : List Op) (hu : SessionsUnique db) :
    SessionsUnique (run db ops) := by
  induction ops generalizing db with
  | nil => exact hu
  | cons op ops ih => exact ih (op.apply db) (apply_unique db op hu)

theorem find?_updateFirst_same {α : Type} (p : α → Bool) (f : α → α) (l : List α) (old : α)
    (hf : ∀ x, p x = true → p (f x) = true) (h : l.find? p = some old) :
    (updateFirst p f l).find? p = some (f old) := by
  induction l with
  | nil => simp at h
  | cons x xs ih =>
    unfold updateFirst
    by_cases hp : p x = true
    · rw [if_pos hp]
      rw [List.find?_cons_of_pos _ hp] at h
      rw [List.find?_cons_of_pos _ (hf x hp)]
      simp only [Option.some.injEq] at h
      rw [h]
    · rw [if_neg hp]
      rw [List.find?_cons_of_neg _ hp] at h
      rw [List.find?_cons_of_neg _ hp]
      exact ih h

theorem find?_updateFirst_other {α : Type} (p q : α → Bool) (f : α → α) (l : List α)
    (hq : ∀ x, p x = true → q x = false ∧ q (f x) = false) :
    (updateFirst p f l).find? q = l.find? q := by
  induction l with
  | nil => rfl
  | cons x xs ih =>
    unfold updateFirst
    by_cases hp : p x = true
    · rw [if_pos hp]
      have h1 : ¬ q x = true := by simp [(hq x hp).1]
      have h2 : ¬ q (f x) = true := by simp [(hq x hp).2]
      rw [List.find?_cons_of_neg _ h1, List.find?_cons_of_neg _ h2]
    · rw [if_neg hp]
      by_cases hx : q x = true
      · rw [List.find?_cons_of_pos _ hx, List.find?_cons_of_pos _ hx]
      · rw [List.find?_cons_of_neg _ hx, List.find?_cons_of_neg _ hx]
        exact ih

theorem create_existing (db : DB) (now : Time) (session old : Session)
    (hout : db.outage = none)
    (hold : db.sessions.find? (fun s => s.UserID == session.UserID) = some old)
    (hid : session.ID = NilObjectID) :
    SessionRepository.Create db now session =
      (none, { session with CreatedAt := now, LastActivity := now },
        DB.mk db.users
          (updateFirst (fun s => s.UserID == session.UserID)
            (fun s => { session with CreatedAt := now, LastActivity := now, ID := s.ID })
            db.sessions)
          db.nextID db.outage) := by
  have hany : db.sessions.any (fun s => s.UserID == session.UserID) = true := by
    rw [List.any_eq_true]
    have hp := List.find?_some hold
    exact ⟨old, List.mem_of_find?_eq_some hold, hp⟩
  unfold SessionRepository.Create
  simp only [hout, hany, true_or, if_true]
  unfold SessionRepository.Update
  simp only [hout, hold, hid, ne_eq, not_true_eq_false, false_and, if_false]

theorem create_existing_same (db : DB) (now : Time) (session old : Session)
    (hout : db.outage = none)
    (hold : db.sessions.find? (fun s => s.UserID == session.UserID) = some old)
    (hid : session.ID = NilObjectID ∨ session.ID = old.ID) :
    SessionRepository.Create db now session =
      (none, { session with CreatedAt := now, LastActivity := now },
        DB.mk db.users
          (updateFirst (fun s => s.UserID == session.UserID)
            (fun s => { session with CreatedAt := now, LastActivity := now, ID := s.ID })
            db.sessions)
          db.nextID db.outage) := by
  have hany : db.sessions.any (fun s => s.UserID == session.UserID) = true := by
    rw [List.any_eq_true]
    have hp := List.find?_some hold
    exact ⟨old, List.mem_of_find?_eq_some hold, hp⟩
  have hc : ¬ (session.ID ≠ NilObjectID ∧ session.ID ≠ old.ID) := by
    rintro ⟨h1, h2⟩
    rcases hid with h | h
    · exact h1 h
    · exact h2 h
  unfold SessionRepository.Create
  simp only [hout, hany, true_or, if_true]
  unfold SessionRepository.Update
  simp only [hout, hold, hc, if_false]

theorem create_existing_other (db : DB) (now : Time) (session old : Session)
    (hout : db.outage = none)
    (hold : db.sessions.find? (fun s => s.UserID == session.UserID) = some old)
    (h1 : session.ID ≠ NilObjectID) (h2 : session.ID ≠ old.ID) :
    SessionRepository.Create db now session =
      (some errImmutableField, { session with CreatedAt := now, LastActivity := now }, db) := by
  have hany : db.sessions.any (fun s => s.UserID == session.UserID) = true := by
    rw [List.any_eq_true]
    have hp := List.find?_some hold
    exact ⟨old, List.mem_of_find?_eq_some hold, hp⟩
  have hc : session.ID ≠ NilObjectID ∧ session.ID ≠ old.ID := ⟨h1, h2⟩
  unfold SessionRepository.Create
  simp only [hout, hany, true_or, if_true]
  unfold SessionRepository.Update
  simp only [hout, hold]
  rw [if_pos hc]

/-- **C8 (counterexample).** After `alice` has logged in her row has the `_id`
`2`.  A `Create` of a session for her that carries the `_id` `5` is refused by
the unique index, falls back to `Update`, whose `$set` would change the `_id`
of her row, and fails; her row stays as it was. -/
theorem create_with_other_id_fails :
    SessionRepository.GetByUserID (run DB.empty sampleOps) 1 =
      Except.ok { ID := 2, UserID := 1, Username := "alice", Token := refreshToken2,
                  IsActive := true, CreatedAt := 2 * Second,
                  ExpiresAt := 2 * Second + Hour * 24 * 7, LastActivity := 3 * Second } ∧
    SessionRepository.Create (run DB.empty sampleOps) (5 * Second)
        { sampleSession with ID := 5 } =
      (some errImmutableField, { sampleSession with ID := 5 }, run DB.empty sampleOps) := by
  decide

/-- **C8 (amended).** In every state reached from an empty session store through
the operations of the session repository and through `Register`, `Login`,
`RefreshToken` and `Logout`, the stored sessions have pairwise different
`user_id`s.  In such a state a `Create` for a user who already has a row, of a
session that carries no `_id` (as `Login` builds it) or the `_id` of that row,
succeeds, adds no row, and leaves that row holding the new session's token,
expiry and activity flag with `created_at` and `last_activity` set to the
current time; the rows of the other users are unchanged.  A `Create` of a
session that carries another `_id` fails and leaves the store as it was. -/
theorem sessions_unique_reachable (db0 : DB) (ops : List Op) (h0 : db0.sessions = []) :
    SessionsUnique (run db0 ops) ∧
    ∀ (now : Time) (session old : Session),
      (run db0 ops).outage = none →
      (run db0 ops).sessions.find? (fun s => s.UserID == session.UserID) = some old →
      ((session.ID = NilObjectID ∨ session.ID = old.ID) →
        (SessionRepository.Create (run db0 ops) now session).1 = none ∧
        SessionsUnique (SessionRepository.Create (run db0 ops) now session).2.2 ∧
        (SessionRepository.Create (run db0 ops) now session).2.2.sessions.length =
          (run db0 ops).sessions.length ∧
        SessionRepository.GetByUserID (SessionRepository.Create (run db0 ops) now session).2.2
            session.UserID =
          Except.ok { session with ID := old.ID, CreatedAt := now, LastActivity := now } ∧
        ∀ userID, userID ≠ session.UserID →
          SessionRepository.GetByUserID (SessionRepository.Create (run db0 ops) now session).2.2
            userID = SessionRepository.GetByUserID (run db0 ops) userID) ∧
      (session.ID ≠ NilObjectID → session.ID ≠ old.ID →
        SessionRepository.Create (run db0 ops) now session =
          (some errImmutableField, { session with CreatedAt := now, LastActivity := now },
            run db0 ops)) := by
  have hu : SessionsUnique (run db0 ops) := by
    apply run_unique
    unfold SessionsUnique
    rw [h0]
    exact List.nodup_nil
  refine ⟨hu, ?_⟩
  intro now session old hout hold
  generalize run db0 ops = db at *
  refine ⟨?_, create_existing_other db now session old hout hold⟩
  intro hid
  have hc := create_existing_same db now session old hout hold hid
  refine ⟨by rw [hc], create_unique db now session hu, ?_, ?_, ?_⟩
  · rw [hc]
    exact length_updateFirst _ _ _
  · rw [hc]
    unfold SessionRepository.GetByUserID
    simp only [hout]
    rw [find?_updateFirst_same _ _ _ old (fun x hx => by simp) hold]
  · intro userID hne
    rw [hc]
    unfold SessionRepository.GetByUserID
    simp only [hout]
    rw [find?_updateFirst_other]
    intro x hx
    have hx' : x.UserID = session.UserID := by simpa using hx
    constructor
    · simp only [beq_eq_false_iff_ne, ne_eq]
      rw [hx']
      exact fun e => hne e.symm
    · simp only [beq_eq_false_iff_ne, ne_eq]
      exact fun e => hne e.symm

theorem sessions_unique_reachable_witness :
    SessionsUnique (run DB.empty sampleOps) ∧
    (run DB.empty sampleOps).sessions.length = 1 ∧
    (SessionRepository.Create (run DB.empty sampleOps) (5 * Second) sampleSession).1 = none ∧
    (SessionRepository.Create (run DB.empty sampleOps) (5 * Second)
      sampleSession).2.2.sessions.length = 1 ∧
    SessionRepository.GetByUserID
        (SessionRepository.Create (run DB.empty sampleOps) (5 * Second) sampleSession).2.2 1 =
      Except.ok { sampleSession with ID := 2 } ∧
    SessionRepository.Create (run DB.empty sampleOps) (5 * Second)
        { sampleSession with ID := 5 } =
      (some errImmutableField, { sampleSession with ID := 5 }, run DB.empty sampleOps) :=
  have h := sessions_unique_reachable DB.empty sampleOps rfl
  have h2 := (h.2 (5 * Second) sampleSession
    { ID := 2, UserID := 1, Username := "alice",
      Token := tokenOf (sampleJWT.GenerateRefreshToken (2 * Second) 1 "a@x.io" "user"),
      IsActive := true, CreatedAt := 2 * Second, ExpiresAt := 2 * Second + Hour * 24 * 7,
      LastActivity := 3 * Second }
    (by decide) (by decide)).1 (Or.inl rfl)
  have h3 := (h.2 (5 * Second) { sampleSession with ID := 5 }
    { ID := 2, UserID := 1, Username := "alice",
      Token := tokenOf (sampleJWT.GenerateRefreshToken (2 * Second) 1 "a@x.io" "user"),
      IsActive := true, CreatedAt := 2 * Second, ExpiresAt := 2 * Second + Hour * 24 * 7,
      LastActivity := 3 * Second }
    (by decide) (by decide)).2 (by decide) (by decide)
  ⟨h.1, by decide, h2.1, h2.2.2.1.trans (by decide), h2.2.2.2.1, h3⟩

/-! ## The reference token service -/

theorem readUnary_writeUnary (c : Char) (n : Nat) (rest : List Char) (hc : c ≠ '.') :
    readUnary c (writeUnary c n rest) = some (n, rest) := by
  have hd : ('.' == c) = false := by
    simp only [beq_eq_false_iff_ne, ne_eq]
    exact fun e => hc e.symm
  have h1 : ∀ m, (List.replicate m c ++ '.' :: rest).dropWhile (fun d => d == c) =
      '.' :: rest := by
    intro m
    induction m with
    | zero => simp [List.dropWhile_cons, hd]
    | succ m ih => simp [List.replicate_succ, List.dropWhile_cons, ih]
  have h2 : ∀ m, ((List.replicate m c ++ '.' :: rest).takeWhile (fun d => d == c)).length =
      m := by
    intro m
    induction m with
    | zero => simp [List.takeWhile_cons, hd]
    | succ m ih => simpa [List.replicate_succ, List.takeWhile_cons] using ih
  unfold readUnary writeUnary unary
  rw [h1 n, h2 n]
  rfl

theorem refDecode_refEncode (claims : JWTClaims) :
    refDecode (refEncode claims) =
      some { claims with Exp := claims.Exp.toNat, Iat := claims.Iat.toNat } := by
  unfold refDecode refEncode
  simp only
  rw [readUnary_writeUnary _ _ _ (by decide)]
  simp only
  rw [readUnary_writeUnary _ _ _ (by decide)]
  simp only
  rw [readUnary_writeUnary _ _ _ (by decide)]
  simp only
  rw [readUnary_writeUnary _ _ _ (by decide)]
  simp only
  have hl : claims.Role.length ≤ (claims.Role.data ++ claims.Email.data).length := by
    rw [List.length_append]
    exact Nat.le_add_right _ _
  have ht : List.take claims.Role.length (claims.Role.data ++ claims.Email.data) =
      claims.Role.data := List.take_left' rfl
  have hd : List.drop claims.Role.length (claims.Role.data ++ claims.Email.data) =
      claims.Email.data := List.drop_left' rfl
  rw [if_pos hl, ht, hd]

theorem not_mem_writeUnary (c : Char) (n : Nat) (rest : List Char) (hc : c ≠ ' ')
    (hr : ' ' ∉ rest) : ' ' ∉ writeUnary c n rest := by
  simp only [writeUnary, unary, List.mem_append, List.mem_cons, List.mem_replicate, not_or]
  exact ⟨fun h => hc h.2.symm, by decide, hr⟩

theorem refEncode_wellFormed (claims : JWTClaims) (he : ' ' ∉ claims.Email.data)
    (hr : ' ' ∉ claims.Role.data) :
    refEncode claims ≠ "" ∧ ' ' ∉ (refEncode claims).data := by
  constructor
  · intro h
    have := congrArg String.data h
    simp [refEncode, writeUnary] at this
  · unfold refEncode
    simp only
    apply not_mem_writeUnary _ _ _ (by decide)
    apply not_mem_writeUnary _ _ _ (by decide)
    apply not_mem_writeUnary _ _ _ (by decide)
    apply not_mem_writeUnary _ _ _ (by decide)
    simp only [List.mem_append, not_or]
    exact ⟨hr, he⟩

theorem refJWT_sound (accessExpiry refreshExpiry : Int) :
    (refJWT accessExpiry refreshExpiry).Sound := by
  have key : ∀ (ttl : Int) (t0 : Time) (userID : ObjectID) (email role token : String),
      refGenerate ttl t0 userID email role = Except.ok token →
      (token ≠ "" ∧ ' ' ∉ token.data) ∧
      ∀ (t : Time) (claims : JWTClaims), refValidate t token = Except.ok claims →
        claims.UserID = userID ∧ claims.Email = email ∧ claims.Role = role := by
    intro ttl t0 userID email role token hg
    unfold refGenerate at hg
    split_ifs at hg with hs
    simp only [Except.ok.injEq] at hg
    subst hg
    rw [not_or] at hs
    refine ⟨refEncode_wellFormed _ hs.1 hs.2, ?_⟩
    intro t claims hv
    unfold refValidate at hv
    rw [refDecode_refEncode] at hv
    simp only at hv
    split_ifs at hv
    simp only [Except.ok.injEq] at hv
    subst hv
    exact ⟨rfl, rfl, rfl⟩
  intro t0 userID email role token h
  rcases h with h | h
  · exact key accessExpiry t0 userID email role token h
  · exact key refreshExpiry t0 userID email role token h

/-! ## Register, Login and the guard -/

theorem create_fresh (db : DB) (now : Time) (session : Session) (hout : db.outage = none)
    (hid : session.ID = NilObjectID) :
    (SessionRepository.Create db now session).1 = none ∧
    (SessionRepository.Create db now session).2.2.outage = none ∧
    (SessionRepository.Create db now session).2.2.users = db.users ∧
    ∃ s, SessionRepository.GetByUserID (SessionRepository.Create db now session).2.2
        session.UserID = Except.ok s ∧
      s.UserID = session.UserID ∧ s.Token = session.Token ∧ s.IsActive = session.IsActive ∧
      s.ExpiresAt = session.ExpiresAt := by
  cases hf : db.sessions.find? (fun s => s.UserID == session.UserID) with
  | some old =>
    rw [create_existing db now session old hout hf hid]
    refine ⟨rfl, hout, rfl, ?_⟩
    unfold SessionRepository.GetByUserID
    simp only [hout]
    rw [find?_updateFirst_same _ _ _ old (fun x hx => by simp) hf]
    exact ⟨_, rfl, rfl, rfl, rfl, rfl⟩
  | none =>
    have hany : db.sessions.any (fun s => s.UserID == session.UserID) = false := by
      rw [List.find?_eq_none] at hf
      rw [List.any_eq_false]
      exact hf
    have hc : SessionRepository.Create db now session =
        (none, { session with CreatedAt := now, LastActivity := now, ID := db.freshID },
          DB.mk db.users
            (db.sessions ++
              [{ session with CreatedAt := now, LastActivity := now, ID := db.freshID }])
            (db.nextID + 1) db.outage) := by
      unfold SessionRepository.Create
      simp [hout, hany, hid]
    rw [hc]
    refine ⟨rfl, hout, rfl, ?_⟩
    unfold SessionRepository.GetByUserID
    simp only [hout, List.find?_append, hf, Option.none_or]
    simp

theorem login_inv (bcrypt : Bcrypt) (jwtService : JWTService) (now : Time) (db db1 : DB)
    (email password : String) (response : LoginResponse)
    (h : Login bcrypt jwtService now db email password = (Except.ok response, db1)) :
    UserRepository.GetByEmail db email = Except.ok response.User ∧
    CheckPassword bcrypt password response.User.Password = true ∧
    jwtService.GenerateAccessToken now response.User.ID response.User.Email response.User.Role =
      Except.ok response.AccessToken ∧
    jwtService.GenerateRefreshToken now response.User.ID response.User.Email
      response.User.Role = Except.ok response.RefreshToken ∧
    db.outage = none ∧ db1.outage = none ∧ db1.users = db.users ∧
    ∃ s, SessionRepository.GetByUserID db1 response.User.ID = Except.ok s ∧
      s.UserID = response.User.ID ∧ s.Token = response.RefreshToken ∧ s.IsActive = true ∧
      s.ExpiresAt = now + Hour * 24 * 7 := by
  unfold Login at h
  split at h
  · simp at h
  · rename_i user hu
    split_ifs at h with hc
    · simp at h
    · split at h
      · simp at h
      · rename_i accessToken ha
        split at h
        · simp at h
        · rename_i refreshToken hr
          simp only at h
          split at h
          · simp at h
          · rename_i x s1 db2 hcreate
            simp only [Prod.mk.injEq, Except.ok.injEq] at h
            obtain ⟨h1, h2⟩ := h
            subst h1 h2
            have hout : db.outage = none := by
              unfold UserRepository.GetByEmail at hu
              cases ho : db.outage with
              | none => rfl
              | some e => simp [ho] at hu
            obtain ⟨_, c2, c3, s, c4, c5, c6, c7, c8⟩ := create_fresh db now
              { ID := NilObjectID, UserID := user.ID, Username := user.Username,
                Token := refreshToken, IsActive := true, CreatedAt := now,
                ExpiresAt := now + Hour * 24 * 7, LastActivity := now } hout rfl
            rw [hcreate] at c2 c3 c4
            refine ⟨hu, by simpa using hc, ha, hr, hout, c2, c3, s, c4, c5, c6, c7, c8⟩

theorem login_success (bcrypt : Bcrypt) (jwtService : JWTService) (now : Time) (db : DB)
    (email password accessToken refreshToken : String) (user : User)
    (hout : db.outage = none)
    (hu : db.users.find? (fun u => u.Email == email) = some user)
    (hc : CheckPassword bcrypt password user.Password = true)
    (ha : jwtService.GenerateAccessToken now user.ID user.Email user.Role =
      Except.ok accessToken)
    (hr : jwtService.GenerateRefreshToken now user.ID user.Email user.Role =
      Except.ok refreshToken) :
    ∃ db1, Login bcrypt jwtService now db email password =
      (Except.ok { User := user, AccessToken := accessToken, RefreshToken := refreshToken },
        db1) := by
  obtain ⟨c1, -⟩ := create_fresh db now
    { ID := NilObjectID, UserID := user.ID, Username := user.Username,
      Token := refreshToken, IsActive := true, CreatedAt := now,
      ExpiresAt := now + Hour * 24 * 7, LastActivity := now } hout rfl
  have hg : UserRepository.GetByEmail db email = Except.ok user := by
    unfold UserRepository.GetByEmail
    simp [hout, hu]
  unfold Login
  simp only [hg, hc, ha, hr, Bool.not_true, Bool.false_eq_true, if_false]
  split
  · rename_i h
    rw [h] at c1
    simp at c1
  · exact ⟨_, rfl⟩

theorem register_success (U : Char → Option RuneClass) (bcrypt : Bcrypt) (salt : Nat)
    (now : Time) (db : DB) (username email password hash : String)
    (hout : db.outage = none) (hpw : ValidatePassword U password = none)
    (hemail : ∀ u ∈ db.users, u.Email ≠ email)
    (husername : ∀ u ∈ db.users, u.Username ≠ username)
    (hhash : HashPassword bcrypt salt password = Except.ok hash) :
    Register U bcrypt salt now db username email password =
      (Except.ok { ID := db.freshID, Username := username, Email := email, Password := hash,
                   Role := "user", ProfilePicture := none, Bio := "", CreatedAt := now,
                   UpdatedAt := now },
        DB.mk
          (db.users ++ [{ ID := db.freshID, Username := username, Email := email,
                          Password := hash, Role := "user", ProfilePicture := none, Bio := "",
                          CreatedAt := now, UpdatedAt := now }])
          db.sessions (db.nextID + 1) db.outage) := by
  have h1 : db.users.find? (fun u => u.Email == email) = none := by
    rw [List.find?_eq_none]
    intro u hu
    simpa using hemail u hu
  have h2 : db.users.find? (fun u => u.Username == username) = none := by
    rw [List.find?_eq_none]
    intro u hu
    simpa using husername u hu
  have a1 : db.users.any (fun u => u.Email == email) = false := by
    rw [List.any_eq_false]
    intro u hu
    simpa using hemail u hu
  have a2 : db.users.any (fun u => u.Username == username) = false := by
    rw [List.any_eq_false]
    intro u hu
    simpa using husername u hu
  have hne : ¬ ("user" = "") := by decide
  simp [Register, UserRepository.GetByEmail, UserRepository.GetByUsername,
    UserRepository.Create, hout, hpw, h1, h2, hhash, a1, a2, hne, NilObjectID]

theorem guard_accepts (jwtService : JWTService) (now : Time) (next : World → World) (db : DB)
    (c : Context) (token : String) (claims : JWTClaims) (s : Session)
    (hc : c.GetHeader "Authorization" = "Bearer " ++ token)
    (hfmt : token ≠ "" ∧ ' ' ∉ token.data)
    (hv : jwtService.ValidateToken now token = Except.ok claims)
    (hs : SessionRepository.GetByUserID db claims.UserID = Except.ok s)
    (ha : s.IsActive = true) :
    AuthRequired jwtService now next ⟨db, c⟩ = next ⟨db, setPrincipal c claims⟩ := by
  have ht : extractToken c = token := (extractToken_eq c token hfmt.1).2 ⟨hc, hfmt.2⟩
  simp [AuthRequired, ht, hfmt.1, hv, hs, ha]

/-- **C7.** For a username and an email that are not registered and a password
the policy accepts, `Register` succeeds, `Login` with the same email and
password then succeeds, the session stored by the login carries the registered
user's id, and `AuthRequired` on a request bearing the returned access token
calls the next handlers with `user_id` set to that id. -/
theorem register_login_guard (U : Char → Option RuneClass) (bcrypt : Bcrypt)
    (jwtService : JWTService) (salt : Nat) (t0 t1 t2 : Time) (db : DB)
    (username email password hash accessToken refreshToken : String) (claims : JWTClaims)
    (c : Context) (next : World → World)
    (hout : db.outage = none)
    (hpw : ValidatePassword U password = none)
    (hemail : ∀ u ∈ db.users, u.Email ≠ email)
    (husername : ∀ u ∈ db.users, u.Username ≠ username)
    (hhash : HashPassword bcrypt salt password = Except.ok hash)
    (hcheck : CheckPassword bcrypt password hash = true)
    (hJ : jwtService.Sound)
    (hA : jwtService.GenerateAccessToken t1 db.freshID email "user" = Except.ok accessToken)
    (hR : jwtService.GenerateRefreshToken t1 db.freshID email "user" = Except.ok refreshToken)
    (hV : jwtService.ValidateToken t2 accessToken = Except.ok claims)
    (hc : c.GetHeader "Authorization" = "Bearer " ++ accessToken) :
    ∃ user db1 db2 session,
      Register U bcrypt salt t0 db username email password = (Except.ok user, db1) ∧
      user.Username = username ∧ user.Email = email ∧
      Login bcrypt jwtService t1 db1 email password =
        (Except.ok { User := user, AccessToken := accessToken, RefreshToken := refreshToken },
          db2) ∧
      SessionRepository.GetByUserID db2 user.ID = Except.ok session ∧
      session.UserID = user.ID ∧ session.IsActive = true ∧
      AuthRequired jwtService t2 next ⟨db2, c⟩ = next ⟨db2, setPrincipal c claims⟩ ∧
      (setPrincipal c claims).Get "user_id" = some (CtxValue.oid user.ID) := by
  have hreg := register_success U bcrypt salt t0 db username email password hash hout hpw
    hemail husername hhash
  have hfind : (db.users ++
      [(⟨db.freshID, username, email, hash, "user", none, "", t0, t0⟩ : User)]).find?
        (fun u => u.Email == email) =
      some ⟨db.freshID, username, email, hash, "user", none, "", t0, t0⟩ := by
    have h1 : db.users.find? (fun u => u.Email == email) = none := by
      rw [List.find?_eq_none]
      intro u hu
      simpa using hemail u hu
    simp [List.find?_append, h1]
  obtain ⟨db2, hlogin⟩ := login_success bcrypt jwtService t1
    (DB.mk (db.users ++ [(⟨db.freshID, username, email, hash, "user", none, "", t0, t0⟩ : User)])
      db.sessions (db.nextID + 1) db.outage)
    email password accessToken refreshToken _ hout hfind hcheck hA hR
  obtain ⟨-, -, -, -, -, -, -, s, hs1, hs2, -, hs4, -⟩ :=
    login_inv bcrypt jwtService t1 _ db2 email password _ hlogin
  obtain ⟨hfmt, hint⟩ := hJ t1 db.freshID email "user" accessToken (Or.inl hA)
  obtain ⟨hid, -, -⟩ := hint t2 claims hV
  refine ⟨_, _, db2, s, hreg, rfl, rfl, hlogin, hs1, hs2, hs4, ?_, ?_⟩
  · exact guard_accepts jwtService t2 next db2 c accessToken claims s hc hfmt hV
      (by rw [hid]; exact hs1) hs4
  · rw [(setPrincipal_get c claims).1, hid]

theorem register_login_guard_witness :
    ∃ user db1 db2 session,
      Register (fun _ => none) refBcrypt 3 0 DB.empty "alice" "a@x.io" "Abcdef1!" =
        (Except.ok user, db1) ∧
      user.Username = "alice" ∧ user.Email = "a@x.io" ∧
      Login refBcrypt sampleJWT Second db1 "a@x.io" "Abcdef1!" =
        (Except.ok { User := user, AccessToken := accessToken1,
                     RefreshToken := refreshToken1 }, db2) ∧
      SessionRepository.GetByUserID db2 user.ID = Except.ok session ∧
      session.UserID = user.ID ∧ session.IsActive = true ∧
      AuthRequired sampleJWT (2 * Second) id
          ⟨db2, requestContext ("Bearer " ++ accessToken1) ""⟩ =
        id ⟨db2, setPrincipal (requestContext ("Bearer " ++ accessToken1) "")
          ⟨1, "a@x.io", "user", 16, 1⟩⟩ ∧
      (setPrincipal (requestContext ("Bearer " ++ accessToken1) "")
          ⟨1, "a@x.io", "user", 16, 1⟩).Get "user_id" = some (CtxValue.oid user.ID) :=
  register_login_guard (fun _ => none) refBcrypt sampleJWT 3 0 Second (2 * Second) DB.empty
    "alice" "a@x.io" "Abcdef1!" "$$$#Abcdef1!" accessToken1 refreshToken1
    ⟨1, "a@x.io", "user", 16, 1⟩ (requestContext ("Bearer " ++ accessToken1) "") id
    (by decide) (by decide) (by decide) (by decide) (by decide) (by decide)
    (refJWT_sound _ _) (by decide) (by decide) (by decide) (by decide)

/-! ## A second login -/

/-- **C9 (counterexample).** `alice` logs in twice.  One second after the second
login her first access token has not expired, and `AuthRequired` lets a request
bearing it proceed: nothing is written and the context is not aborted. -/
theorem relogin_first_token_accepted :
    firstLogin.1 = Except.ok ⟨sampleUser, accessToken1, refreshToken1⟩ ∧
    secondLogin.1 = Except.ok ⟨sampleUser, accessToken2, refreshToken2⟩ ∧
    accessToken1 ≠ accessToken2 ∧
    sampleJWT.ValidateToken (3 * Second) accessToken1 =
      Except.ok ⟨1, "a@x.io", "user", 16, 1⟩ ∧
    (AuthRequired sampleJWT (3 * Second) id
      ⟨secondLogin.2, requestContext ("Bearer " ++ accessToken1) ""⟩).c.aborted = false ∧
    (AuthRequired sampleJWT (3 * Second) id
      ⟨secondLogin.2, requestContext ("Bearer " ++ accessToken1) ""⟩).c.written = [] ∧
    (AuthRequired sampleJWT (3 * Second) id
      ⟨secondLogin.2, requestContext ("Bearer " ++ accessToken1) ""⟩).c.Get "user_id" =
        some (CtxValue.oid 1) := by
  decide

/-- **C9 (amended).** After a first successful `Login` of a user (tokens `A1`,
`R1`) and a second successful `Login` of the same user (tokens `A2`, `R2`), the
user's session holds `R2`, and `AuthRequired` lets a request proceed that bears
`A2` and also one that bears `A1`, as long as `ValidateToken` accepts the
token (it has not expired). -/
theorem relogin_accepts_both (bcrypt : Bcrypt) (jwtService : JWTService) (t1 t2 t3 : Time)
    (db db1 db2 : DB) (email password : String) (r1 r2 : LoginResponse)
    (claims1 claims2 : JWTClaims) (c1 c2 : Context) (next : World → World)
    (hJ : jwtService.Sound)
    (h1 : Login bcrypt jwtService t1 db email password = (Except.ok r1, db1))
    (h2 : Login bcrypt jwtService t2 db1 email password = (Except.ok r2, db2))
    (hv1 : jwtService.ValidateToken t3 r1.AccessToken = Except.ok claims1)
    (hv2 : jwtService.ValidateToken t3 r2.AccessToken = Except.ok claims2)
    (hc1 : c1.GetHeader "Authorization" = "Bearer " ++ r1.AccessToken)
    (hc2 : c2.GetHeader "Authorization" = "Bearer " ++ r2.AccessToken) :
    r2.User = r1.User ∧
    (∃ s, SessionRepository.GetByUserID db2 r1.User.ID = Except.ok s ∧
      s.Token = r2.RefreshToken ∧ s.IsActive = true) ∧
    AuthRequired jwtService t3 next ⟨db2, c1⟩ = next ⟨db2, setPrincipal c1 claims1⟩ ∧
    AuthRequired jwtService t3 next ⟨db2, c2⟩ = next ⟨db2, setPrincipal c2 claims2⟩ ∧
    claims1.UserID = r1.User.ID ∧ claims2.UserID = r1.User.ID := by
  obtain ⟨a1, -, a3, -, -, -, a7, -⟩ := login_inv bcrypt jwtService t1 db db1 email password r1 h1
  obtain ⟨b1, -, b3, -, -, -, -, s, b8, -, b10, b11, -⟩ :=
    login_inv bcrypt jwtService t2 db1 db2 email password r2 h2
  have hsame : r2.User = r1.User := by
    have e : UserRepository.GetByEmail db1 email = UserRepository.GetByEmail db email := by
      unfold UserRepository.GetByEmail
      have ho : db1.outage = db.outage := by
        obtain ⟨-, -, -, -, o1, o2, -⟩ := login_inv bcrypt jwtService t1 db db1 email password r1 h1
        rw [o1, o2]
      rw [ho, a7]
    rw [e, a1] at b1
    simp only [Except.ok.injEq] at b1
    exact b1.symm
  obtain ⟨f1, i1⟩ := hJ t1 _ _ _ _ (Or.inl a3)
  obtain ⟨f2, i2⟩ := hJ t2 _ _ _ _ (Or.inl b3)
  obtain ⟨u1, -, -⟩ := i1 t3 claims1 hv1
  obtain ⟨u2, -, -⟩ := i2 t3 claims2 hv2
  rw [hsame] at b8 u2
  refine ⟨hsame, ⟨s, b8, b10, b11⟩, ?_, ?_, u1, u2⟩
  · exact guard_accepts jwtService t3 next db2 c1 _ claims1 s hc1 f1 hv1
      (by rw [u1]; exact b8) b11
  · exact guard_accepts jwtService t3 next db2 c2 _ claims2 s hc2 f2 hv2
      (by rw [u2]; exact b8) b11

theorem relogin_accepts_both_witness :
    AuthRequired sampleJWT (3 * Second) id
        ⟨secondLogin.2, requestContext ("Bearer " ++ accessToken1) ""⟩ =
      id ⟨secondLogin.2, setPrincipal (requestContext ("Bearer " ++ accessToken1) "")
        ⟨1, "a@x.io", "user", 16, 1⟩⟩ ∧
    AuthRequired sampleJWT (3 * Second) id
        ⟨secondLogin.2, requestContext ("Bearer " ++ accessToken2) ""⟩ =
      id ⟨secondLogin.2, setPrincipal (requestContext ("Bearer " ++ accessToken2) "")
        ⟨1, "a@x.io", "user", 17, 2⟩⟩ :=
  have h := relogin_accepts_both refBcrypt sampleJWT Second (2 * Second) (3 * Second)
    sampleDB firstLogin.2 secondLogin.2 "a@x.io" "Abcdef1!"
    ⟨sampleUser, accessToken1, refreshToken1⟩ ⟨sampleUser, accessToken2, refreshToken2⟩
    ⟨1, "a@x.io", "user", 16, 1⟩ ⟨1, "a@x.io", "user", 17, 2⟩
    (requestContext ("Bearer " ++ accessToken1) "")
    (requestContext ("Bearer " ++ accessToken2) "") id
    (refJWT_sound _ _) (by decide) (by decide) (by decide) (by decide) (by decide) (by decide)
  ⟨h.2.2.1, h.2.2.2.1⟩

/-! ## Logout -/

theorem deleteFirst_eq_filter {α : Type} (g : α → Nat) (k : Nat) (l : List α)
    (h : (l.map g).Nodup) :
    deleteFirst (fun x => g x == k) l = l.filter (fun x => g x != k) := by
  induction l with
  | nil => rfl
  | cons x xs ih =>
    rw [List.map_cons, List.nodup_cons] at h
    unfold deleteFirst
    by_cases hx : g x = k
    · have hk : ∀ y ∈ xs, (g y != k) = true := by
        intro y hy
        simp only [bne_iff_ne, ne_eq]
        intro e
        exact h.1 (List.mem_map.2 ⟨y, hy, by rw [e, hx]⟩)
      simp only [hx, beq_self_eq_true, if_true]
      rw [List.filter_cons_of_neg (by simp [hx])]
      exact (List.filter_eq_self.2 hk).symm
    · have hb : (g x == k) = false := by simpa using hx
      simp only [hb, Bool.false_eq_true, if_false]
      rw [List.filter_cons_of_pos (by simpa using hx), ih h.2]

/-- **C10.** `Logout` returns no error whether or not the user has a session, so
a second `Logout` succeeds too.  After it no session of that user is stored and
the sessions of all other users, like the users, are as before; `AuthRequired`
then answers a request bearing a token of that user with 401 `Session not
found` and aborts, although `ValidateToken` accepts the token. -/
theorem logout_spec (db : DB) (userID : ObjectID) (hout : db.outage = none)
    (hu : SessionsUnique db) :
    (Logout db userID).1 = none ∧
    (Logout (Logout db userID).2 userID).1 = none ∧
    (Logout db userID).2.sessions = db.sessions.filter (fun s => s.UserID != userID) ∧
    (∀ s ∈ (Logout db userID).2.sessions, s.UserID ≠ userID) ∧
    SessionRepository.GetByUserID (Logout db userID).2 userID =
      Except.error "session not found" ∧
    (∀ other, other ≠ userID →
      SessionRepository.GetByUserID (Logout db userID).2 other =
        SessionRepository.GetByUserID db other) ∧
    (Logout db userID).2.users = db.users ∧
    ∀ (jwtService : JWTService) (now : Time) (next : World → World) (c : Context)
      (claims : JWTClaims),
      extractToken c ≠ "" →
      jwtService.ValidateToken now (extractToken c) = Except.ok claims →
      claims.UserID = userID →
        AuthRequired jwtService now next ⟨(Logout db userID).2, c⟩ =
          ⟨(Logout db userID).2,
            (c.JSON 401 (Body.error "Session not found")).Abort⟩ := by
  have hl : Logout db userID =
      (none, DB.mk db.users (db.sessions.filter (fun s => s.UserID != userID)) db.nextID
        db.outage) := by
    unfold Logout SessionRepository.DeleteByUserID
    simp only [hout]
    have hn : (db.sessions.map (fun s : Session => s.UserID)).Nodup := hu
    rw [deleteFirst_eq_filter (fun s : Session => s.UserID) userID db.sessions hn]
  have hnone : (db.sessions.filter (fun s => s.UserID != userID)).find?
      (fun s => s.UserID == userID) = none := by
    rw [List.find?_eq_none]
    intro s hs
    have := (List.mem_filter.1 hs).2
    simpa using this
  have hget : SessionRepository.GetByUserID (Logout db userID).2 userID =
      Except.error "session not found" := by
    rw [hl]
    unfold SessionRepository.GetByUserID
    simp only [hout, hnone]
    rfl
  refine ⟨by rw [hl], ?_, by rw [hl], ?_, hget, ?_, by rw [hl], ?_⟩
  · rw [hl]
    unfold Logout SessionRepository.DeleteByUserID
    simp only [hout]
  · rw [hl]
    intro s hs
    have := (List.mem_filter.1 hs).2
    simpa using this
  · intro other hne
    rw [hl]
    unfold SessionRepository.GetByUserID
    simp only [hout]
    have : (db.sessions.filter (fun s => s.UserID != userID)).find?
        (fun s => s.UserID == other) = db.sessions.find? (fun s => s.UserID == other) := by
      rw [List.find?_filter]
      congr 1
      funext s
      by_cases hs : s.UserID = other
      · simp [hs, hne]
      · simp [hs]
    rw [this]
  · intro jwtService now next c claims ht hv hid
    unfold AuthRequired
    simp only [ht, if_false, hv]
    rw [hid, hget]
    rfl

theorem logout_spec_witness :
    (Logout firstLogin.2 1).1 = none ∧
    (Logout (Logout firstLogin.2 1).2 1).1 = none ∧
    (Logout firstLogin.2 1).2.sessions = [] ∧
    AuthRequired sampleJWT (2 * Second) id
        ⟨(Logout firstLogin.2 1).2, requestContext ("Bearer " ++ accessToken1) ""⟩ =
      ⟨(Logout firstLogin.2 1).2,
        ((requestContext ("Bearer " ++ accessToken1) "").JSON 401
          (Body.error "Session not found")).Abort⟩ :=
  have h := logout_spec firstLogin.2 1 (by decide) (by decide)
  ⟨h.1, h.2.1, h.2.2.1.trans (by decide),
    h.2.2.2.2.2.2.2 sampleJWT (2 * Second) id
      (requestContext ("Bearer " ++ accessToken1) "") ⟨1, "a@x.io", "user", 16, 1⟩
      (by decide) (by decide) rfl⟩

/-! ## The guard and the expiry of the session -/

/-- **C11 (evaluation at the failing input).** `alice`'s session expired at the
third second and is still flagged active.  At the fourth second her access
token has not expired, and `AuthRequired` lets the request proceed with her
principal: nothing is written and the context is not aborted. -/
theorem authRequired_accepts_expired_session :
    SessionRepository.GetByUserID expiredSessionDB 1 =
      Except.ok { ID := 2, UserID := 1, Username := "alice", Token := refreshToken1,
                  IsActive := true, CreatedAt := Second, ExpiresAt := 3 * Second,
                  LastActivity := 2 * Second } ∧
    (3 * Second ≤ 4 * Second) ∧
    sampleJWT.ValidateToken (4 * Second) accessToken1 =
      Except.ok ⟨1, "a@x.io", "user", 16, 1⟩ ∧
    AuthRequired sampleJWT (4 * Second) id
        ⟨expiredSessionDB, requestContext ("Bearer " ++ accessToken1) ""⟩ =
      ⟨expiredSessionDB, setPrincipal (requestContext ("Bearer " ++ accessToken1) "")
        ⟨1, "a@x.io", "user", 16, 1⟩⟩ ∧
    (AuthRequired sampleJWT (4 * Second) id
      ⟨expiredSessionDB, requestContext ("Bearer " ++ accessToken1) ""⟩).c.aborted = false ∧
    (AuthRequired sampleJWT (4 * Second) id
      ⟨expiredSessionDB, requestContext ("Bearer " ++ accessToken1) ""⟩).c.written = [] := by
  decide

/-! ## RefreshToken -/

theorem getByUserID_of_none (db : DB) (userID : ObjectID)
    (h : ∀ s ∈ db.sessions, s.UserID ≠ userID) :
    ∃ e, SessionRepository.GetByUserID db userID = Except.error e := by
  unfold SessionRepository.GetByUserID
  cases db.outage with
  | some e => exact ⟨e, rfl⟩
  | none =>
    have : db.sessions.find? (fun s => s.UserID == userID) = none := by
      rw [List.find?_eq_none]
      intro s hs
      simpa using h s hs
    simp only [this]
    exact ⟨_, rfl⟩

theorem getByID_of_none (db : DB) (id : ObjectID) (h : ∀ u ∈ db.users, u.ID ≠ id) :
    ∃ e, UserRepository.GetByID db id = Except.error e := by
  unfold UserRepository.GetByID
  cases db.outage with
  | some e => exact ⟨e, rfl⟩
  | none =>
    have : db.users.find? (fun u => u.ID == id) = none := by
      rw [List.find?_eq_none]
      intro u hu
      simpa using h u hu
    simp only [this]
    exact ⟨_, rfl⟩

theorem updateLastActivity_fst (db : DB) (now : Time) (id : ObjectID) :
    (SessionRepository.UpdateLastActivity db now id).1 = db.outage ∧
    (db.outage ≠ none → (SessionRepository.UpdateLastActivity db now id).2 = db) ∧
    (SessionRepository.UpdateLastActivity db now id).2.users = db.users ∧
    (SessionRepository.UpdateLastActivity db now id).2.outage = db.outage := by
  unfold SessionRepository.UpdateLastActivity
  cases h : db.outage with
  | some e => simp [h]
  | none => simp [h]

theorem refreshToken_of_expired (jwtService : JWTService) (now : Time) (db : DB)
    (token : String) (claims : JWTClaims) (session : Session)
    (hv : jwtService.ValidateToken now token = Except.ok claims)
    (hs : SessionRepository.GetByUserID db claims.UserID = Except.ok session)
    (h : session.IsActive = false ∨ session.ExpiresAt < now) :
    RefreshToken jwtService now db token =
      (Except.error "session is expired or inactive", db) := by
  unfold RefreshToken
  simp only [hv, hs]
  rw [if_pos]
  rcases h with h | h
  · simp [h]
  · simp [h]

theorem refreshToken_success (jwtService : JWTService) (now : Time) (db : DB)
    (token accessToken : String) (claims : JWTClaims) (session : Session) (user : User)
    (hout : db.outage = none)
    (hv : jwtService.ValidateToken now token = Except.ok claims)
    (hs : SessionRepository.GetByUserID db claims.UserID = Except.ok session)
    (ha : session.IsActive = true) (he : now ≤ session.ExpiresAt)
    (hu : UserRepository.GetByID db claims.UserID = Except.ok user)
    (hg : jwtService.GenerateAccessToken now user.ID user.Email user.Role =
      Except.ok accessToken) :
    RefreshToken jwtService now db token =
      (Except.ok { User := user, AccessToken := accessToken, RefreshToken := token },
        (SessionRepository.UpdateLastActivity db now session.ID).2) := by
  have h1 := (updateLastActivity_fst db now session.ID).1
  rw [hout] at h1
  have hne : ¬ (now > session.ExpiresAt) := not_lt.2 he
  unfold RefreshToken
  simp only [hv, hs, ha, hu, hg, hne, Bool.not_true, Bool.false_or, decide_False,
    Bool.false_eq_true, if_false]
  split
  · rename_i h
    rw [h] at h1
    simp at h1
  · rename_i h
    rw [h]

theorem refreshToken_inv (jwtService : JWTService) (now : Time) (db db1 : DB)
    (token : String) (response : LoginResponse)
    (h : RefreshToken jwtService now db token = (Except.ok response, db1)) :
    ∃ claims session,
      jwtService.ValidateToken now token = Except.ok claims ∧
      SessionRepository.GetByUserID db claims.UserID = Except.ok session ∧
      session.IsActive = true ∧ now ≤ session.ExpiresAt ∧
      UserRepository.GetByID db claims.UserID = Except.ok response.User ∧
      jwtService.GenerateAccessToken now response.User.ID response.User.Email
        response.User.Role = Except.ok response.AccessToken ∧
      response.RefreshToken = token ∧ db.outage = none ∧
      db1 = (SessionRepository.UpdateLastActivity db now session.ID).2 := by
  unfold RefreshToken at h
  split at h
  · simp at h
  · rename_i claims hv
    split at h
    · simp at h
    · rename_i session hs
      split_ifs at h with hx
      · simp at h
      · split at h
        · simp at h
        · rename_i user hu
          split at h
          · simp at h
          · rename_i accessToken hg
            split at h
            · simp at h
            · rename_i x db2 hup
              simp only [Prod.mk.injEq, Except.ok.injEq] at h
              obtain ⟨h1, h2⟩ := h
              subst h1 h2
              simp only [Bool.or_eq_true, Bool.not_eq_true', decide_eq_true_eq, not_or,
                Bool.not_eq_false, not_lt] at hx
              have hout : db.outage = none := by
                have := (updateLastActivity_fst db now session.ID).1
                rw [hup] at this
                exact this.symm
              refine ⟨claims, session, hv, hs, hx.1, hx.2, hu, hg, rfl, hout, ?_⟩
              rw [hup]

theorem refreshToken_failure_db (jwtService : JWTService) (now : Time) (db db1 : DB)
    (token err : String)
    (h : RefreshToken jwtService now db token = (Except.error err, db1)) : db1 = db := by
  unfold RefreshToken at h
  split at h
  · simp only [Prod.mk.injEq] at h
    exact h.2.symm
  · split at h
    · simp only [Prod.mk.injEq] at h
      exact h.2.symm
    · rename_i session hs
      split_ifs at h
      · simp only [Prod.mk.injEq] at h
        exact h.2.symm
      · split at h
        · simp only [Prod.mk.injEq] at h
          exact h.2.symm
        · split at h
          · simp only [Prod.mk.injEq] at h
            exact h.2.symm
          · split at h
            · rename_i e db2 hup
              simp only [Prod.mk.injEq] at h
              rw [← h.2]
              have h1 := updateLastActivity_fst db now session.ID
              rw [hup] at h1
              have hne : db.outage ≠ none := by
                rw [← h1.1]
                simp
              exact h1.2.1 hne
            · simp at h

/-- **C12.** `RefreshToken` fails with `invalid refresh token` when
`ValidateToken` rejects the credential; else with `session not found` when no
session is stored for `claims.UserID`; else with `session is expired or
inactive` when the session is inactive or past its expiry; else with `user not
found` when no user is stored for `claims.UserID`.  Every failure of
`RefreshToken` returns an error in place of a response and leaves the database,
so the session store and the user store, as it was. -/
theorem refreshToken_failures (jwtService : JWTService) (now : Time) (db : DB)
    (token : String) :
    (∀ e, jwtService.ValidateToken now token = Except.error e →
      RefreshToken jwtService now db token = (Except.error "invalid refresh token", db)) ∧
    (∀ claims, jwtService.ValidateToken now token = Except.ok claims →
      (∀ s ∈ db.sessions, s.UserID ≠ claims.UserID) →
      RefreshToken jwtService now db token = (Except.error "session not found", db)) ∧
    (∀ claims session, jwtService.ValidateToken now token = Except.ok claims →
      SessionRepository.GetByUserID db claims.UserID = Except.ok session →
      (session.IsActive = false ∨ session.ExpiresAt < now) →
      RefreshToken jwtService now db token =
        (Except.error "session is expired or inactive", db)) ∧
    (∀ claims session, jwtService.ValidateToken now token = Except.ok claims →
      SessionRepository.GetByUserID db claims.UserID = Except.ok session →
      session.IsActive = true → now ≤ session.ExpiresAt →
      (∀ u ∈ db.users, u.ID ≠ claims.UserID) →
      RefreshToken jwtService now db token = (Except.error "user not found", db)) ∧
    (∀ err db1, RefreshToken jwtService now db token = (Except.error err, db1) →
      db1 = db ∧ db1.sessions = db.sessions ∧ db1.users = db.users) := by
  refine ⟨?_, ?_, ?_, ?_, ?_⟩
  · intro e hv
    simp [RefreshToken, hv]
  · intro claims hv hn
    obtain ⟨e, he⟩ := getByUserID_of_none db claims.UserID hn
    simp [RefreshToken, hv, he]
  · intro claims session hv hs h
    exact refreshToken_of_expired jwtService now db token claims session hv hs h
  · intro claims session hv hs ha he hn
    obtain ⟨e, hu⟩ := getByID_of_none db claims.UserID hn
    have hne : ¬ (now > session.ExpiresAt) := not_lt.2 he
    simp [RefreshToken, hv, hs, ha, hne, hu]
  · intro err db1 h
    have := refreshToken_failure_db jwtService now db db1 token err h
    subst this
    exact ⟨rfl, rfl, rfl⟩

theorem refreshToken_failures_witness :
    RefreshToken sampleJWT (2 * Second) firstLogin.2 "x" =
      (Except.error "invalid refresh token", firstLogin.2) ∧
    RefreshToken sampleJWT (2 * Second) sampleDB refreshToken1 =
      (Except.error "session not found", sampleDB) ∧
    RefreshToken sampleJWT (4 * Second) expiredSessionDB refreshToken1 =
      (Except.error "session is expired or inactive", expiredSessionDB) :=
  ⟨(refreshToken_failures sampleJWT (2 * Second) firstLogin.2 "x").1
      "token is malformed" (by decide),
   (refreshToken_failures sampleJWT (2 * Second) sampleDB refreshToken1).2.1
      ⟨1, "a@x.io", "user", 61, 1⟩ (by decide) (by decide),
   (refreshToken_failures sampleJWT (4 * Second) expiredSessionDB refreshToken1).2.2.1
      ⟨1, "a@x.io", "user", 61, 1⟩
      { ID := 2, UserID := 1, Username := "alice", Token := refreshToken1,
        IsActive := true, CreatedAt := Second, ExpiresAt := 3 * Second,
        LastActivity := 2 * Second }
      (by decide) (by decide) (Or.inr (by decide))⟩

/-- **C13 (counterexample).** `alice`'s active session expires at the third
second.  At exactly the third second `RefreshToken` with her refresh token does
not fail: it returns a response with a new access token. -/
theorem refreshToken_at_expiry_succeeds :
    SessionRepository.GetByUserID expiredSessionDB 1 =
      Except.ok { ID := 2, UserID := 1, Username := "alice", Token := refreshToken1,
                  IsActive := true, CreatedAt := Second, ExpiresAt := 3 * Second,
                  LastActivity := 2 * Second } ∧
    sampleJWT.ValidateToken (3 * Second) refreshToken1 =
      Except.ok ⟨1, "a@x.io", "user", 61, 1⟩ ∧
    (RefreshToken sampleJWT (3 * Second) expiredSessionDB refreshToken1).1 =
      Except.ok ⟨sampleUser,
        tokenOf (sampleJWT.GenerateAccessToken (3 * Second) 1 "a@x.io" "user"),
        refreshToken1⟩ := by
  decide

/-- **C13 (amended).** For a credential that `ValidateToken` accepts and whose
user has a stored session, `RefreshToken` fails with `session is expired or
inactive` when the session is inactive or its expiry is before the current
time.  When the session is active and its expiry is exactly the current time,
the expiry check passes: with the user stored and the access token issued,
`RefreshToken` succeeds. -/
theorem refreshToken_expiry_boundary (jwtService : JWTService) (now : Time) (db : DB)
    (token : String) (claims : JWTClaims) (session : Session)
    (hv : jwtService.ValidateToken now token = Except.ok claims)
    (hs : SessionRepository.GetByUserID db claims.UserID = Except.ok session) :
    ((session.IsActive = false ∨ session.ExpiresAt < now) →
      RefreshToken jwtService now db token =
        (Except.error "session is expired or inactive", db)) ∧
    (session.IsActive = true → session.ExpiresAt = now →
      ∀ user accessToken, UserRepository.GetByID db claims.UserID = Except.ok user →
        jwtService.GenerateAccessToken now user.ID user.Email user.Role =
          Except.ok accessToken →
        RefreshToken jwtService now db token =
          (Except.ok { User := user, AccessToken := accessToken, RefreshToken := token },
            (SessionRepository.UpdateLastActivity db now session.ID).2)) := by
  refine ⟨refreshToken_of_expired jwtService now db token claims session hv hs, ?_⟩
  intro ha he user accessToken hu hg
  have hout : db.outage = none := by
    unfold UserRepository.GetByID at hu
    cases ho : db.outage with
    | none => rfl
    | some e => simp [ho] at hu
  exact refreshToken_success jwtService now db token accessToken claims session user hout hv hs
    ha (le_of_eq he.symm) hu hg

theorem refreshToken_expiry_boundary_witness :
    RefreshToken sampleJWT (4 * Second) expiredSessionDB refreshToken1 =
      (Except.error "session is expired or inactive", expiredSessionDB) ∧
    RefreshToken sampleJWT (3 * Second) expiredSessionDB refreshToken1 =
      (Except.ok ⟨sampleUser,
        tokenOf (sampleJWT.GenerateAccessToken (3 * Second) 1 "a@x.io" "user"),
        refreshToken1⟩,
        (SessionRepository.UpdateLastActivity expiredSessionDB (3 * Second) 2).2) :=
  ⟨(refreshToken_expiry_boundary sampleJWT (4 * Second) expiredSessionDB refreshToken1
      ⟨1, "a@x.io", "user", 61, 1⟩
      { ID := 2, UserID := 1, Username := "alice", Token := refreshToken1,
        IsActive := true, CreatedAt := Second, ExpiresAt := 3 * Second,
        LastActivity := 2 * Second }
      (by decide) (by decide)).1 (Or.inr (by decide)),
   (refreshToken_expiry_boundary sampleJWT (3 * Second) expiredSessionDB refreshToken1
      ⟨1, "a@x.io", "user", 61, 1⟩
      { ID := 2, UserID := 1, Username := "alice", Token := refreshToken1,
        IsActive := true, CreatedAt := Second, ExpiresAt := 3 * Second,
        LastActivity := 2 * Second }
      (by decide) (by decide)).2 rfl rfl sampleUser _ (by decide) (by decide)⟩

/-- **C16 (counterexample).** After `alice`'s first login her session stores the
refresh token.  `RefreshToken` called with the access token of that login, which
is a different string, succeeds. -/
theorem refreshToken_accepts_access_token :
    SessionRepository.GetByUserID firstLogin.2 1 =
      Except.ok { ID := 2, UserID := 1, Username := "alice", Token := refreshToken1,
                  IsActive := true, CreatedAt := Second,
                  ExpiresAt := Second + Hour * 24 * 7, LastActivity := Second } ∧
    accessToken1 ≠ refreshToken1 ∧
    (RefreshToken sampleJWT (2 * Second) firstLogin.2 accessToken1).1 =
      Except.ok ⟨sampleUser,
        tokenOf (sampleJWT.GenerateAccessToken (2 * Second) 1 "a@x.io" "user"),
        accessToken1⟩ := by
  decide

/-- **C16 (amended).** `RefreshToken` accepts every credential that
`ValidateToken` accepts and whose user has a stored user record and an active
session not past its expiry, also when the credential differs from the token
stored in that session; the response repeats the submitted credential as the
refresh token. -/
theorem refreshToken_ignores_stored_token (jwtService : JWTService) (now : Time) (db : DB)
    (token accessToken : String) (claims : JWTClaims) (session : Session) (user : User)
    (hout : db.outage = none)
    (hv : jwtService.ValidateToken now token = Except.ok claims)
    (hs : SessionRepository.GetByUserID db claims.UserID = Except.ok session)
    (_hne : token ≠ session.Token)
    (ha : session.IsActive = true) (he : now ≤ session.ExpiresAt)
    (hu : UserRepository.GetByID db claims.UserID = Except.ok user)
    (hg : jwtService.GenerateAccessToken now user.ID user.Email user.Role =
      Except.ok accessToken) :
    RefreshToken jwtService now db token =
      (Except.ok { User := user, AccessToken := accessToken, RefreshToken := token },
        (SessionRepository.UpdateLastActivity db now session.ID).2) :=
  refreshToken_success jwtService now db token accessToken claims session user hout hv hs
    ha he hu hg

theorem refreshToken_ignores_stored_token_witness :
    RefreshToken sampleJWT (2 * Second) firstLogin.2 accessToken1 =
      (Except.ok ⟨sampleUser,
        tokenOf (sampleJWT.GenerateAccessToken (2 * Second) 1 "a@x.io" "user"),
        accessToken1⟩,
        (SessionRepository.UpdateLastActivity firstLogin.2 (2 * Second) 2).2) :=
  refreshToken_ignores_stored_token sampleJWT (2 * Second) firstLogin.2 accessToken1 _
    ⟨1, "a@x.io", "user", 16, 1⟩
    { ID := 2, UserID := 1, Username := "alice", Token := refreshToken1,
      IsActive := true, CreatedAt := Second, ExpiresAt := Second + Hour * 24 * 7,
      LastActivity := Second }
    sampleUser (by decide) (by decide) (by decide) (by decide) rfl (by decide) (by decide)
    (by decide)

theorem find?_updateFirst_preserve {α : Type} (p q : α → Bool) (f : α → α) (l : List α)
    (x : α) (hp : ∀ y, p (f y) = p y) (h : l.find? p = some x) :
    ∃ y, (updateFirst q f l).find? p = some y ∧ (y = x ∨ y = f x) := by
  induction l with
  | nil => simp at h
  | cons a as ih =>
    unfold updateFirst
    by_cases hq : q a = true
    · rw [if_pos hq]
      by_cases ha : p a = true
      · rw [List.find?_cons_of_pos _ ha] at h
        simp only [Option.some.injEq] at h
        subst h
        exact ⟨f a, List.find?_cons_of_pos _ (by rw [hp]; exact ha), Or.inr rfl⟩
      · rw [List.find?_cons_of_neg _ ha] at h
        exact ⟨x, by rw [List.find?_cons_of_neg _ (by rw [hp]; exact ha)]; exact h, Or.inl rfl⟩
    · rw [if_neg hq]
      by_cases ha : p a = true
      · rw [List.find?_cons_of_pos _ ha] at h
        exact ⟨a, List.find?_cons_of_pos _ ha, Or.inl (by simpa using h)⟩
      · rw [List.find?_cons_of_neg _ ha] at h
        rw [List.find?_cons_of_neg _ ha]
        exact ih h

theorem updateFirst_eq_map {α : Type} (g : α → Nat) (k : Nat) (f : α → α) (l : List α)
    (h : (l.map g).Nodup) :
    updateFirst (fun x => g x == k) f l = l.map (fun x => if g x = k then f x else x) := by
  induction l with
  | nil => rfl
  | cons a as ih =>
    rw [List.map_cons, List.nodup_cons] at h
    unfold updateFirst
    by_cases ha : g a = k
    · have hk : ∀ y ∈ as, g y ≠ k := by
        intro y hy e
        exact h.1 (List.mem_map.2 ⟨y, hy, by rw [e, ha]⟩)
      have : as.map (fun x => if g x = k then f x else x) = as := by
        conv_rhs => rw [← List.map_id as]
        apply List.map_congr_left
        intro y hy
        simp [hk y hy]
      simp [ha, this]
    · have hb : (g a == k) = false := by simpa using ha
      simp only [hb, Bool.false_eq_true, if_false, List.map_cons, ha]
      rw [ih h.2]

theorem refreshToken_success_sound (jwtService : JWTService) (now t : Time) (db db1 : DB)
    (r : String) (response : LoginResponse) (claims1 : JWTClaims) (c : Context)
    (next : World → World)
    (hJ : jwtService.Sound) (hids : SessionIDsUnique db)
    (h : RefreshToken jwtService now db r = (Except.ok response, db1))
    (hv1 : jwtService.ValidateToken t response.AccessToken = Except.ok claims1)
    (hc : c.GetHeader "Authorization" = "Bearer " ++ response.AccessToken) :
    ∃ claims session,
      jwtService.ValidateToken now r = Except.ok claims ∧
      SessionRepository.GetByUserID db claims.UserID = Except.ok session ∧
      response.RefreshToken = r ∧
      UserRepository.GetByID db claims.UserID = Except.ok response.User ∧
      claims1.UserID = response.User.ID ∧ claims1.Email = response.User.Email ∧
      claims1.Role = response.User.Role ∧
      AuthRequired jwtService t next ⟨db1, c⟩ = next ⟨db1, setPrincipal c claims1⟩ ∧
      (setPrincipal c claims1).Get "user_id" = some (CtxValue.oid response.User.ID) ∧
      (setPrincipal c claims1).Get "user_email" = some (CtxValue.str response.User.Email) ∧
      (setPrincipal c claims1).Get "user_role" = some (CtxValue.str response.User.Role) ∧
      db1.users = db.users ∧
      db1.sessions =
        db.sessions.map (fun s => if s.ID = session.ID then { s with LastActivity := now }
          else s) ∧
      (∀ s ∈ db.sessions, s.ID = session.ID → s = session) := by
  obtain ⟨claims, session, hv, hs, ha, he, hu, hg, hr, hout, hdb⟩ :=
    refreshToken_inv jwtService now db db1 r response h
  obtain ⟨hfmt, hint⟩ := hJ now _ _ _ _ (Or.inl hg)
  obtain ⟨i1, i2, i3⟩ := hint t claims1 hv1
  have hfind : db.sessions.find? (fun s => s.UserID == claims.UserID) = some session := by
    unfold SessionRepository.GetByUserID at hs
    simp only [hout] at hs
    split at hs
    · simp at hs
    · rename_i s hf
      simp only [Except.ok.injEq] at hs
      rw [← hs]
      exact hf
  have hmem : session ∈ db.sessions := List.mem_of_find?_eq_some hfind
  have huid : response.User.ID = claims.UserID := by
    unfold UserRepository.GetByID at hu
    simp only [hout] at hu
    split at hu
    · simp at hu
    · rename_i u hf
      simp only [Except.ok.injEq] at hu
      have := List.find?_some hf
      rw [← hu]
      simpa using this
  have hsess : db1.sessions = updateFirst (fun s => s.ID == session.ID)
      (fun s => { s with LastActivity := now }) db.sessions := by
    rw [hdb]
    unfold SessionRepository.UpdateLastActivity
    simp only [hout]
  have husers : db1.users = db.users := by
    rw [hdb]
    exact (updateLastActivity_fst db now session.ID).2.2.1
  have hout1 : db1.outage = none := by
    rw [hdb, (updateLastActivity_fst db now session.ID).2.2.2]
    exact hout
  obtain ⟨y, hy, hyx⟩ := find?_updateFirst_preserve (fun s : Session => s.UserID == claims.UserID)
    (fun s => s.ID == session.ID) (fun s => { s with LastActivity := now }) db.sessions session
    (fun _ => rfl) hfind
  have hya : y.IsActive = true := by
    rcases hyx with e | e
    · rw [e]
      exact ha
    · rw [e]
      exact ha
  have hget : SessionRepository.GetByUserID db1 claims1.UserID = Except.ok y := by
    unfold SessionRepository.GetByUserID
    simp only [hout1, hsess]
    rw [i1, huid, hy]
  have hn : (db.sessions.map (fun s : Session => s.ID)).Nodup := hids
  obtain ⟨g1, g2, g3⟩ := setPrincipal_get c claims1
  refine ⟨claims, session, hv, hs, hr, hu, i1, i2, i3, ?_, ?_, ?_, ?_, husers, ?_, ?_⟩
  · exact guard_accepts jwtService t next db1 c _ claims1 y hc hfmt hv1 hget hya
  · rw [g1, i1]
  · rw [g2, i2]
  · rw [g3, i3]
  · rw [hsess]
    exact updateFirst_eq_map (fun s : Session => s.ID) session.ID _ db.sessions hn
  · intro s hs' hid
    exact List.inj_on_of_nodup_map hn hs' hmem hid

/-! ## The token service of `jwt_service.go` -/

theorem refUnsign_signed (alg key : String) (claims : JWTClaims)
    (he : 0 ≤ claims.Exp) (hi : 0 ≤ claims.Iat) :
    refUnsign (String.mk (writeUnary 'a' alg.length (writeUnary 'k' key.length
      (alg.data ++ (key.data ++ (refEncode claims).data))))) = some (alg, key, claims) := by
  unfold refUnsign
  simp only
  rw [readUnary_writeUnary _ _ _ (by decide)]
  simp only
  rw [readUnary_writeUnary _ _ _ (by decide)]
  simp only
  have hl : alg.length + key.length ≤
      (alg.data ++ (key.data ++ (refEncode claims).data)).length := by
    simp only [List.length_append, String.length]
    omega
  have h1 : List.drop (alg.length + key.length)
      (alg.data ++ (key.data ++ (refEncode claims).data)) = (refEncode claims).data := by
    have e1 : List.drop (alg.length + key.length)
        (alg.data ++ (key.data ++ (refEncode claims).data)) =
        List.drop key.length (key.data ++ (refEncode claims).data) :=
      List.drop_append key.length
    rw [e1]
    exact List.drop_left' rfl
  have h2 : List.take alg.length (alg.data ++ (key.data ++ (refEncode claims).data)) =
      alg.data := List.take_left' rfl
  have h3 : List.take key.length (List.drop alg.length
      (alg.data ++ (key.data ++ (refEncode claims).data))) = key.data := by
    have e2 : List.drop alg.length (alg.data ++ (key.data ++ (refEncode claims).data)) =
        key.data ++ (refEncode claims).data := List.drop_left' rfl
    rw [e2]
    exact List.take_left' rfl
  rw [if_pos hl, h1, h2, h3]
  have hd : refDecode (String.mk (refEncode claims).data) = some claims := by
    have := refDecode_refEncode claims
    rw [Int.toNat_of_nonneg he, Int.toNat_of_nonneg hi] at this
    exact this
  rw [hd]

theorem refLib_lawful : refLib.Lawful := by
  intro alg claims key token h
  simp only [refLib] at h
  split_ifs at h with hc
  simp only [not_or, not_not, not_lt] at hc
  obtain ⟨c1, c2, c3, c4, c5, c6⟩ := hc
  simp only [Except.ok.injEq] at h
  subst h
  have hu := refUnsign_signed alg key claims c5 c6
  have halg : ' ' ∉ alg.data := by
    simp only [refAlgs, List.mem_cons, List.mem_singleton, List.mem_nil_iff, or_false] at c1
    rcases c1 with e | e | e | e | e | e <;>
      · rw [e]
        decide
  refine ⟨⟨?_, ?_⟩, ?_, ?_⟩
  · intro e
    have := congrArg String.data e
    simp [writeUnary] at this
  · simp only
    apply not_mem_writeUnary _ _ _ (by decide)
    apply not_mem_writeUnary _ _ _ (by decide)
    simp only [List.mem_append, not_or]
    exact ⟨halg, c2, (refEncode_wellFormed claims c3 c4).2⟩
  · simp only [refLib, hu, c1, if_true]
  · simp only [refLib, hu, beq_self_eq_true, Bool.and_self]

theorem validateToken_of_parse (lib : JWTLib) (secretKey : String) (now : Time)
    (token alg : String) (claims claims1 : JWTClaims)
    (hp : lib.ParseUnverified token = Except.ok (alg, claims))
    (hv : jwt.ValidateToken lib secretKey now token = Except.ok claims1) :
    claims1 = claims := by
  unfold jwt.ValidateToken ParseWithClaims at hv
  simp only [hp] at hv
  split at hv
  · simp at hv
  · split_ifs at hv
    simp only [Except.ok.injEq] at hv
    exact hv.symm

theorem newJWTService_sound (lib : JWTLib) (secretKey : String)
    (accessExpiry refreshExpiry : Int) (hlib : lib.Lawful) :
    (jwt.NewJWTService lib secretKey accessExpiry refreshExpiry).Sound := by
  intro t0 userID email role token h
  have key : ∀ claims : JWTClaims, claims.UserID = userID → claims.Email = email →
      claims.Role = role → lib.SignedString "HS256" claims secretKey = Except.ok token →
      (token ≠ "" ∧ ' ' ∉ token.data) ∧
      ∀ (t : Time) (claims1 : JWTClaims),
        jwt.ValidateToken lib secretKey t token = Except.ok claims1 →
        claims1.UserID = userID ∧ claims1.Email = email ∧ claims1.Role = role := by
    intro claims h1 h2 h3 hs
    obtain ⟨hfmt, hp, -⟩ := hlib _ _ _ _ hs
    refine ⟨hfmt, ?_⟩
    intro t claims1 hv
    have := validateToken_of_parse lib secretKey t token _ claims claims1 hp hv
    rw [this]
    exact ⟨h1, h2, h3⟩
  rcases h with h | h
  · exact key _ rfl rfl rfl h
  · exact key _ rfl rfl rfl h

/-- **C15 (counterexample).** `alice` logs in at the first second and refreshes
half a second later.  The access token of the refresh response is the access
token of the login. -/
theorem refresh_same_second_same_token :
    serviceLogin.1 = Except.ok ⟨sampleUser, serviceAccessToken, serviceRefreshToken⟩ ∧
    (RefreshToken sampleService (Second + 500000000) serviceLogin.2 serviceRefreshToken).1 =
      Except.ok ⟨sampleUser, serviceAccessToken, serviceRefreshToken⟩ := by
  decide

theorem user_eq_of_id (db : DB) (u v : User) (hids : UserIDsUnique db) (hu : u ∈ db.users)
    (hv : v ∈ db.users) (h : u.ID = v.ID) : u = v :=
  List.inj_on_of_nodup_map hids hu hv h

theorem getByEmail_mem (db : DB) (email : String) (u : User)
    (h : UserRepository.GetByEmail db email = Except.ok u) : u ∈ db.users := by
  unfold UserRepository.GetByEmail at h
  split at h
  · simp at h
  · split at h
    · simp at h
    · rename_i x hf
      simp only [Except.ok.injEq] at h
      rw [← h]
      exact List.mem_of_find?_eq_some hf

theorem getByID_mem (db : DB) (id : ObjectID) (u : User)
    (h : UserRepository.GetByID db id = Except.ok u) : u ∈ db.users ∧ u.ID = id := by
  unfold UserRepository.GetByID at h
  split at h
  · simp at h
  · split at h
    · simp at h
    · rename_i x hf
      simp only [Except.ok.injEq] at h
      rw [← h]
      exact ⟨List.mem_of_find?_eq_some hf, by simpa using List.find?_some hf⟩

/-- **C15 (amended).** The token service signs the claims user id, email, role,
`iat` and `exp`, the two times in whole seconds.  After a successful `Login`
at time `t1`, a successful `RefreshToken` at time `t2` with the returned
refresh credential returns the same user; its access credential differs from
the one of the login when `t2` falls in another second than `t1`, and is the
same credential when `t2` and `t1` fall in the same second (and so do the
expiry times). -/
theorem refresh_access_token_seconds (lib : JWTLib) (secretKey : String)
    (accessExpiry refreshExpiry : Int) (bcrypt : Bcrypt) (t1 t2 : Time) (db db1 db2 : DB)
    (email password : String) (r1 r2 : LoginResponse)
    (hlib : lib.Lawful) (hids : UserIDsUnique db)
    (h1 : Login bcrypt (jwt.NewJWTService lib secretKey accessExpiry refreshExpiry) t1 db
      email password = (Except.ok r1, db1))
    (h2 : RefreshToken (jwt.NewJWTService lib secretKey accessExpiry refreshExpiry) t2 db1
      r1.RefreshToken = (Except.ok r2, db2)) :
    r2.User = r1.User ∧
    (unixSeconds t2 = unixSeconds t1 →
      unixSeconds (t2 + accessExpiry) = unixSeconds (t1 + accessExpiry) →
      r2.AccessToken = r1.AccessToken) ∧
    (unixSeconds t2 ≠ unixSeconds t1 → r2.AccessToken ≠ r1.AccessToken) := by
  have hJ := newJWTService_sound lib secretKey accessExpiry refreshExpiry hlib
  obtain ⟨a1, -, a3, a4, -, -, a7, -⟩ := login_inv bcrypt _ t1 db db1 email password r1 h1
  obtain ⟨claims, session, b1, -, -, -, b5, b6, -, -, -⟩ :=
    refreshToken_inv _ t2 db1 db2 r1.RefreshToken r2 h2
  obtain ⟨-, hint⟩ := hJ t1 _ _ _ _ (Or.inr a4)
  obtain ⟨i1, -, -⟩ := hint t2 claims b1
  have hsame : r2.User = r1.User := by
    obtain ⟨m2, e2⟩ := getByID_mem db1 claims.UserID r2.User b5
    rw [a7] at m2
    exact user_eq_of_id db _ _ hids m2 (getByEmail_mem db email r1.User a1) (by rw [e2, i1])
  rw [hsame] at b6
  have g1 : lib.SignedString "HS256"
      { UserID := r1.User.ID, Email := r1.User.Email, Role := r1.User.Role,
        Exp := unixSeconds (t1 + accessExpiry), Iat := unixSeconds t1 } secretKey =
      Except.ok r1.AccessToken := a3
  have g2 : lib.SignedString "HS256"
      { UserID := r1.User.ID, Email := r1.User.Email, Role := r1.User.Role,
        Exp := unixSeconds (t2 + accessExpiry), Iat := unixSeconds t2 } secretKey =
      Except.ok r2.AccessToken := b6
  refine ⟨hsame, ?_, ?_⟩
  · intro e1 e2
    rw [e1, e2, g1] at g2
    simp only [Except.ok.injEq] at g2
    exact g2.symm
  · intro hne e
    obtain ⟨-, p1, -⟩ := hlib _ _ _ _ g1
    obtain ⟨-, p2, -⟩ := hlib _ _ _ _ g2
    rw [e, p1] at p2
    simp only [Except.ok.injEq, Prod.mk.injEq, JWTClaims.mk.injEq, true_and] at p2
    exact hne p2.2.symm

theorem refresh_access_token_seconds_witness :
    (RefreshToken sampleService (Second + 500000000) serviceLogin.2 serviceRefreshToken).1 =
      Except.ok ⟨sampleUser, serviceAccessToken, serviceRefreshToken⟩ ∧
    tokenOf (sampleService.GenerateAccessToken (2 * Second) 1 "a@x.io" "user") ≠
      serviceAccessToken :=
  have h := refresh_access_token_seconds refLib "secret" (15 * Second) (60 * Second) refBcrypt
    Second (2 * Second) sampleDB serviceLogin.2
    (RefreshToken sampleService (2 * Second) serviceLogin.2 serviceRefreshToken).2
    "a@x.io" "Abcdef1!" ⟨sampleUser, serviceAccessToken, serviceRefreshToken⟩
    ⟨sampleUser, tokenOf (sampleService.GenerateAccessToken (2 * Second) 1 "a@x.io" "user"),
      serviceRefreshToken⟩
    refLib_lawful (by decide) (by decide) (by decide)
  ⟨by decide, h.2.2 (by decide)⟩

/-! ## Register -/

theorem register_eq_checks_insert (U : Char → Option RuneClass) (bcrypt : Bcrypt) (salt : Nat)
    (now : Time) (db : DB) (username email password : String) :
    Register U bcrypt salt now db username email password =
      match RegisterChecks U bcrypt salt db username email password with
      | Except.error err => (Except.error err, db)
      | Except.ok hashedPassword => RegisterInsert now db username email hashedPassword := by
  unfold Register RegisterChecks RegisterInsert
  cases ValidatePassword U password with
  | some err => rfl
  | none =>
    simp only
    cases UserRepository.GetByEmail db email with
    | ok u => rfl
    | error e =>
      simp only
      cases UserRepository.GetByUsername db username with
      | ok u => rfl
      | error e => simp only

theorem userCreate_cases (db : DB) (now : Time) (username email hash : String) :
    (∃ err, UserRepository.Create db now
        ⟨NilObjectID, username, email, hash, "user", none, "", now, now⟩ =
      (some err, ⟨NilObjectID, username, email, hash, "user", none, "", now, now⟩, db)) ∨
    UserRepository.Create db now
        ⟨NilObjectID, username, email, hash, "user", none, "", now, now⟩ =
      (none, ⟨db.freshID, username, email, hash, "user", none, "", now, now⟩,
        DB.mk (db.users ++ [⟨db.freshID, username, email, hash, "user", none, "", now, now⟩])
          db.sessions (db.nextID + 1) db.outage) := by
  have hne : ¬ ("user" = "") := by decide
  unfold UserRepository.Create
  simp only [hne, if_false]
  cases db.outage with
  | some e => exact Or.inl ⟨e, rfl⟩
  | none =>
    simp only
    split_ifs with h1 h2
    · exact Or.inl ⟨_, rfl⟩
    · exact absurd rfl h2
    · exact Or.inr rfl

theorem registerInsert_cases (now : Time) (db : DB) (username email hash : String) :
    (∃ err, RegisterInsert now db username email hash = (Except.error err, db)) ∨
    RegisterInsert now db username email hash =
      (Except.ok ⟨db.freshID, username, email, hash, "user", none, "", now, now⟩,
        DB.mk (db.users ++ [⟨db.freshID, username, email, hash, "user", none, "", now, now⟩])
          db.sessions (db.nextID + 1) db.outage) := by
  unfold RegisterInsert
  rcases userCreate_cases db now username email hash with ⟨err, h⟩ | h
  · left
    refine ⟨err, ?_⟩
    simp only
    rw [h]
  · right
    simp only
    rw [h]

theorem getByEmail_of_stored (db : DB) (email : String) (hout : db.outage = none)
    (h : ∃ u ∈ db.users, u.Email = email) :
    ∃ u, UserRepository.GetByEmail db email = Except.ok u := by
  unfold UserRepository.GetByEmail
  simp only [hout]
  obtain ⟨u, hu, he⟩ := h
  have : (db.users.find? (fun u => u.Email == email)).isSome = true := by
    rw [List.find?_isSome]
    exact ⟨u, hu, by simpa using he⟩
  obtain ⟨v, hv⟩ := Option.isSome_iff_exists.1 this
  rw [hv]
  exact ⟨v, rfl⟩

theorem getByUsername_of_stored (db : DB) (username : String) (hout : db.outage = none)
    (h : ∃ u ∈ db.users, u.Username = username) :
    ∃ u, UserRepository.GetByUsername db username = Except.ok u := by
  unfold UserRepository.GetByUsername
  simp only [hout]
  obtain ⟨u, hu, he⟩ := h
  have : (db.users.find? (fun u => u.Username == username)).isSome = true := by
    rw [List.find?_isSome]
    exact ⟨u, hu, by simpa using he⟩
  obtain ⟨v, hv⟩ := Option.isSome_iff_exists.1 this
  rw [hv]
  exact ⟨v, rfl⟩

theorem registerChecks_ok (U : Char → Option RuneClass) (bcrypt : Bcrypt) (salt : Nat)
    (db : DB) (username email password hash : String)
    (h : RegisterChecks U bcrypt salt db username email password = Except.ok hash) :
    ValidatePassword U password = none ∧ HashPassword bcrypt salt password = Except.ok hash := by
  unfold RegisterChecks at h
  split at h
  · simp at h
  · rename_i hv
    split at h
    · simp at h
    · split at h
      · simp at h
      · exact ⟨hv, h⟩

/-- **C17.** `Register` validates the password first and returns the error of the
policy as it is; otherwise, the store being reachable, it fails with `user with
this email already exists` when a user with that email is stored, otherwise
with `user with this username already exists` when a user with that username
is stored.  Every failure leaves the database as it was.  On success the user
is appended to the user store with role `user` and with the result of
`HashPassword` as its password. -/
theorem register_spec (U : Char → Option RuneClass) (bcrypt : Bcrypt) (salt : Nat)
    (now : Time) (db : DB) (username email password : String) :
    (∀ err, ValidatePassword U password = some err →
      Register U bcrypt salt now db username email password = (Except.error err, db)) ∧
    (ValidatePassword U password = none → db.outage = none →
      (∃ u ∈ db.users, u.Email = email) →
      Register U bcrypt salt now db username email password =
        (Except.error "user with this email already exists", db)) ∧
    (ValidatePassword U password = none → db.outage = none →
      (∀ u ∈ db.users, u.Email ≠ email) → (∃ u ∈ db.users, u.Username = username) →
      Register U bcrypt salt now db username email password =
        (Except.error "user with this username already exists", db)) ∧
    (∀ err db1, Register U bcrypt salt now db username email password =
        (Except.error err, db1) → db1 = db) ∧
    (∀ user db1, Register U bcrypt salt now db username email password =
        (Except.ok user, db1) →
      ValidatePassword U password = none ∧
      HashPassword bcrypt salt password = Except.ok user.Password ∧
      user.Role = "user" ∧ user.Username = username ∧ user.Email = email ∧
      db1.users = db.users ++ [user] ∧ db1.sessions = db.sessions) := by
  refine ⟨?_, ?_, ?_, ?_, ?_⟩
  · intro err h
    simp [Register, h]
  · intro hv hout h
    obtain ⟨u, hu⟩ := getByEmail_of_stored db email hout h
    simp [Register, hv, hu, errEmailExists]
  · intro hv hout hn h
    obtain ⟨e, he⟩ := getByEmail_of_unknown db email hn
    obtain ⟨u, hu⟩ := getByUsername_of_stored db username hout h
    simp [Register, hv, he, hu, errUsernameExists]
  · intro err db1 h
    rw [register_eq_checks_insert] at h
    split at h
    · simp only [Prod.mk.injEq] at h
      exact h.2.symm
    · rename_i hash hc
      rcases registerInsert_cases now db username email hash with ⟨e, hi⟩ | hi
      · rw [hi] at h
        simp only [Prod.mk.injEq] at h
        exact h.2.symm
      · rw [hi] at h
        simp at h
  · intro user db1 h
    rw [register_eq_checks_insert] at h
    split at h
    · simp at h
    · rename_i hash hc
      obtain ⟨hv, hh⟩ := registerChecks_ok U bcrypt salt db username email password hash hc
      rcases registerInsert_cases now db username email hash with ⟨e, hi⟩ | hi
      · rw [hi] at h
        simp at h
      · rw [hi] at h
        simp only [Prod.mk.injEq, Except.ok.injEq] at h
        obtain ⟨h1, h2⟩ := h
        subst h1 h2
        exact ⟨hv, hh, rfl, rfl, rfl, rfl, rfl⟩

theorem register_spec_witness :
    Register (fun _ => none) refBcrypt 3 0 sampleDB "bob" "b@x.io" "abcdef1!" =
      (Except.error errNoUpper, sampleDB) ∧
    Register (fun _ => none) refBcrypt 3 0 sampleDB "bob" "a@x.io" "Abcdef1!" =
      (Except.error "user with this email already exists", sampleDB) ∧
    Register (fun _ => none) refBcrypt 3 0 sampleDB "alice" "b@x.io" "Abcdef1!" =
      (Except.error "user with this username already exists", sampleDB) ∧
    HashPassword refBcrypt 3 "Abcdef1!" = Except.ok sampleUser.Password ∧
    sampleUser.Role = "user" ∧ sampleDB.users = DB.empty.users ++ [sampleUser] :=
  have h := register_spec (fun _ => none) refBcrypt 3 0 sampleDB "bob" "b@x.io" "abcdef1!"
  have h1 := register_spec (fun _ => none) refBcrypt 3 0 sampleDB "bob" "a@x.io" "Abcdef1!"
  have h2 := register_spec (fun _ => none) refBcrypt 3 0 sampleDB "alice" "b@x.io" "Abcdef1!"
  have h3 := (register_spec (fun _ => none) refBcrypt 3 0 DB.empty "alice" "a@x.io"
    "Abcdef1!").2.2.2.2 sampleUser sampleDB (by decide)
  ⟨h.1 errNoUpper (by decide), h1.2.1 (by decide) (by decide) ⟨sampleUser, by decide, rfl⟩,
    h2.2.2.1 (by decide) (by decide) (by decide) ⟨sampleUser, by decide, rfl⟩,
    h3.2.1, h3.2.2.1, h3.2.2.2.2.2.1⟩

/-! ## The register endpoint -/

/-- **C18 (evaluation at the failing input).** Two requests register the email
`a@x.io`.  The checks of `bob`'s request run on the store before `alice` is
inserted and pass; its insertion runs after `alice` was inserted, and
`UserRepository.Create` rejects it with the duplicate-key error `user already
exists`.  The register endpoint answers this error with status 500, whereas it
answers 409 when the check finds the email. -/
theorem register_duplicate_key_status :
    RegisterChecks (fun _ => none) refBcrypt 3 DB.empty "bob" "a@x.io" "Abcdef1!" =
      Except.ok "$$$#Abcdef1!" ∧
    RegisterInsert 0 sampleDB "bob" "a@x.io" "$$$#Abcdef1!" =
      (Except.error "user already exists", sampleDB) ∧
    UserHandler.registerRespond (requestContext "" "bob a@x.io Abcdef1!")
        (Except.error "user already exists") =
      (requestContext "" "bob a@x.io Abcdef1!").JSON 500 (Body.error "user already exists") ∧
    UserHandler.Register refRegisterBinding (fun _ => none) refBcrypt 3 0 id
        ⟨sampleDB, requestContext "" "bob a@x.io Abcdef1!"⟩ =
      ⟨sampleDB, (requestContext "" "bob a@x.io Abcdef1!").JSON 409
        (Body.error "user with this email already exists")⟩ := by
  decide

/-- **C19 (evaluation at the failing input).** A registration with a password of
73 characters is rejected by `ValidatePassword` as too long, and the register
endpoint answers with status 500.  The five other reasons of the policy are
answered with status 400. -/
theorem register_too_long_status :
    longPassword.length = 73 ∧
    ValidatePassword (fun _ => none) longPassword =
      some "password must be less than 72 characters" ∧
    UserHandler.Register refRegisterBinding (fun _ => none) refBcrypt 3 0 id
        ⟨DB.empty, requestContext "" ("alice a@x.io " ++ longPassword)⟩ =
      ⟨DB.empty, (requestContext "" ("alice a@x.io " ++ longPassword)).JSON 500
        (Body.error "password must be less than 72 characters")⟩ ∧
    UserHandler.registerStatus errTooLong = 500 ∧
    UserHandler.registerStatus errTooShort = 400 ∧
    UserHandler.registerStatus errNoUpper = 400 ∧
    UserHandler.registerStatus errNoLower = 400 ∧
    UserHandler.registerStatus errNoNumber = 400 ∧
    UserHandler.registerStatus errNoSpecial = 400 := by
  decide

/-! ## Storage failures -/

/-- **C20 (counterexample).** The server is unreachable, so `GetByEmail` fails
with `context deadline exceeded`.  `Login` of the registered user `alice` with
her password returns `invalid email or password`, and the login endpoint
answers with status 401. -/
theorem login_storage_failure_is_401 :
    UserRepository.GetByEmail outageDB "a@x.io" = Except.error "context deadline exceeded" ∧
    Login refBcrypt sampleJWT Second outageDB "a@x.io" "Abcdef1!" =
      (Except.error "invalid email or password", outageDB) ∧
    UserHandler.Login refBinding refBcrypt sampleJWT Second id
        ⟨outageDB, requestContext "" "a@x.io Abcdef1!"⟩ =
      ⟨outageDB, (requestContext "" "a@x.io Abcdef1!").JSON 401
        (Body.error "invalid email or password")⟩ := by
  decide

/-- **C20 (amended).** While the server is unreachable, so that every repository
call fails with the storage error `e`: `Login` returns `invalid email or
password` and `RefreshToken`, for a credential that `ValidateToken` accepts,
returns `session not found`, and the login and refresh endpoints answer with
status 401; `Register` ignores the failures of its two look-ups, goes on to
hash the password and returns the error `e` of `UserRepository.Create`, which
the register endpoint answers with status 500 (`e` being none of the messages
it maps to 409 or 400).  No operation changes the database. -/
theorem storage_failure_responses (U : Char → Option RuneClass) (bcrypt : Bcrypt)
    (jwtService : JWTService) (salt : Nat) (now : Time) (db : DB) (e : String)
    (hout : db.outage = some e) :
    (∀ email password,
      Login bcrypt jwtService now db email password =
        (Except.error "invalid email or password", db)) ∧
    (∀ (binding : Binding) (c : Context) (req : LoginRequest) (next : World → World),
      binding.bindLoginRequest c.RequestBody = Except.ok req →
      binding.validateLoginRequest req = none →
      UserHandler.Login binding bcrypt jwtService now next ⟨db, c⟩ =
        ⟨db, c.JSON 401 (Body.error "invalid email or password")⟩) ∧
    (∀ token claims, jwtService.ValidateToken now token = Except.ok claims →
      RefreshToken jwtService now db token = (Except.error "session not found", db)) ∧
    (∀ (binding : RequestBinding RefreshTokenRequest) (c : Context)
      (req : RefreshTokenRequest) (next : World → World) (claims : JWTClaims),
      binding.bind c.RequestBody = Except.ok req → binding.validate req = none →
      jwtService.ValidateToken now req.RefreshToken = Except.ok claims →
      UserHandler.RefreshToken binding jwtService now next ⟨db, c⟩ =
        ⟨db, c.JSON 401 (Body.error "session not found")⟩) ∧
    (∀ username email password hash, ValidatePassword U password = none →
      HashPassword bcrypt salt password = Except.ok hash →
      Register U bcrypt salt now db username email password = (Except.error e, db)) ∧
    (∀ (binding : RequestBinding RegisterRequest) (c : Context) (req : RegisterRequest)
      (next : World → World) (hash : String),
      binding.bind c.RequestBody = Except.ok req → binding.validate req = none →
      ValidatePassword U req.Password = none →
      HashPassword bcrypt salt req.Password = Except.ok hash →
      UserHandler.registerStatus e = 500 →
      UserHandler.Register binding U bcrypt salt now next ⟨db, c⟩ =
        ⟨db, c.JSON 500 (Body.error e)⟩) := by
  have hlogin : ∀ email password,
      Login bcrypt jwtService now db email password =
        (Except.error "invalid email or password", db) := by
    intro email password
    simp [Login, UserRepository.GetByEmail, hout, errInvalidCredentials]
  have hrefresh : ∀ token claims, jwtService.ValidateToken now token = Except.ok claims →
      RefreshToken jwtService now db token = (Except.error "session not found", db) := by
    intro token claims hv
    simp [RefreshToken, hv, SessionRepository.GetByUserID, hout]
  have hregister : ∀ username email password hash, ValidatePassword U password = none →
      HashPassword bcrypt salt password = Except.ok hash →
      Register U bcrypt salt now db username email password = (Except.error e, db) := by
    intro username email password hash hv hh
    simp [Register, hv, hh, UserRepository.GetByEmail, UserRepository.GetByUsername,
      UserRepository.Create, hout]
  refine ⟨hlogin, ?_, hrefresh, ?_, hregister, ?_⟩
  · intro binding c req next hb hv
    simp only [UserHandler.Login, hb, hv, hlogin]
    rfl
  · intro binding c req next claims hb hv hc
    simp only [UserHandler.RefreshToken, hb, hv, hrefresh _ claims hc]
    rfl
  · intro binding c req next hash hb hv hp hh hs
    simp only [UserHandler.Register, hb, hv, hregister _ _ _ hash hp hh,
      UserHandler.registerRespond, hs]

theorem storage_failure_responses_witness :
    UserHandler.Login refBinding refBcrypt sampleJWT Second id
        ⟨outageDB, requestContext "" "a@x.io Abcdef1!"⟩ =
      ⟨outageDB, (requestContext "" "a@x.io Abcdef1!").JSON 401
        (Body.error "invalid email or password")⟩ ∧
    UserHandler.RefreshToken refRefreshBinding sampleJWT (2 * Second) id
        ⟨outageDB, requestContext "" refreshToken1⟩ =
      ⟨outageDB, (requestContext "" refreshToken1).JSON 401
        (Body.error "session not found")⟩ ∧
    UserHandler.Register refRegisterBinding (fun _ => none) refBcrypt 3 0 id
        ⟨outageDB, requestContext "" "bob b@x.io Abcdef1!"⟩ =
      ⟨outageDB, (requestContext "" "bob b@x.io Abcdef1!").JSON 500
        (Body.error "context deadline exceeded")⟩ :=
  have h := storage_failure_responses (fun _ => none) refBcrypt sampleJWT 3 (2 * Second)
    outageDB "context deadline exceeded" rfl
  have h0 := storage_failure_responses (fun _ => none) refBcrypt sampleJWT 3 0
    outageDB "context deadline exceeded" rfl
  have h1 := storage_failure_responses (fun _ => none) refBcrypt sampleJWT 3 Second
    outageDB "context deadline exceeded" rfl
  ⟨h1.2.1 refBinding _ ⟨"a@x.io", "Abcdef1!"⟩ id (by decide) (by decide),
   h.2.2.2.1 refRefreshBinding _ ⟨refreshToken1⟩ id ⟨1, "a@x.io", "user", 61, 1⟩
     (by decide) (by decide) (by decide),
   h0.2.2.2.2.2 refRegisterBinding _ ⟨"bob", "b@x.io", "Abcdef1!"⟩ id "$$$#Abcdef1!"
     (by decide) (by decide) (by decide) (by decide) (by decide)⟩

/-! ## A successful refresh -/

theorem unixSeconds_mul_le (t : Time) : unixSeconds t * Second ≤ t := by
  unfold unixSeconds Second
  exact Int.ediv_mul_le t (by decide)

theorem validateToken_issued (lib : JWTLib) (secretKey : String) (t : Time)
    (claims : JWTClaims) (token : String) (hlib : lib.Lawful)
    (hs : lib.SignedString "HS256" claims secretKey = Except.ok token)
    (h1 : claims.Iat * Second ≤ t) (h2 : t < claims.Exp * Second) :
    jwt.ValidateToken lib secretKey t token = Except.ok claims := by
  obtain ⟨-, hp, hv⟩ := hlib _ _ _ _ hs
  have hm : "HS256" ∈ hmacAlgs := by decide
  have hn : ¬ (t < claims.Iat * Second) := not_lt.2 h1
  simp [jwt.ValidateToken, ParseWithClaims, hp, hm, hv, JWTClaims.GetExpirationTime,
    JWTClaims.GetNotBefore, h2, hn]

/-- **C14.** When `RefreshToken` succeeds for a credential `r`, the refresh token
of the response is `r` and the user of the response is the record stored for
`claims.UserID`.  The new access token validates, from the time of the refresh
until its expiry, to claims carrying that record's id, email and role, and
`AuthRequired` lets a request bearing it proceed with these values as
principal.  The user store is unchanged, and the session store has changed
only in that the `last_activity` of the user's session is the current time. -/
theorem refreshToken_success_spec (lib : JWTLib) (secretKey : String)
    (accessExpiry refreshExpiry : Int) (now t : Time) (db db1 : DB) (r : String)
    (response : LoginResponse) (c : Context) (next : World → World)
    (hlib : lib.Lawful) (hids : SessionIDsUnique db)
    (h : RefreshToken (jwt.NewJWTService lib secretKey accessExpiry refreshExpiry) now db r =
      (Except.ok response, db1))
    (ht1 : now ≤ t) (ht2 : t < unixSeconds (now + accessExpiry) * Second)
    (hc : c.GetHeader "Authorization" = "Bearer " ++ response.AccessToken) :
    ∃ claims session,
      (jwt.NewJWTService lib secretKey accessExpiry refreshExpiry).ValidateToken now r =
        Except.ok claims ∧
      SessionRepository.GetByUserID db claims.UserID = Except.ok session ∧
      response.RefreshToken = r ∧
      UserRepository.GetByID db claims.UserID = Except.ok response.User ∧
      (jwt.NewJWTService lib secretKey accessExpiry refreshExpiry).ValidateToken t
          response.AccessToken =
        Except.ok ⟨response.User.ID, response.User.Email, response.User.Role,
          unixSeconds (now + accessExpiry), unixSeconds now⟩ ∧
      AuthRequired (jwt.NewJWTService lib secretKey accessExpiry refreshExpiry) t next
          ⟨db1, c⟩ =
        next ⟨db1, setPrincipal c ⟨response.User.ID, response.User.Email, response.User.Role,
          unixSeconds (now + accessExpiry), unixSeconds now⟩⟩ ∧
      (setPrincipal c ⟨response.User.ID, response.User.Email, response.User.Role,
          unixSeconds (now + accessExpiry), unixSeconds now⟩).Get "user_id" =
        some (CtxValue.oid response.User.ID) ∧
      (setPrincipal c ⟨response.User.ID, response.User.Email, response.User.Role,
          unixSeconds (now + accessExpiry), unixSeconds now⟩).Get "user_email" =
        some (CtxValue.str response.User.Email) ∧
      (setPrincipal c ⟨response.User.ID, response.User.Email, response.User.Role,
          unixSeconds (now + accessExpiry), unixSeconds now⟩).Get "user_role" =
        some (CtxValue.str response.User.Role) ∧
      db1.users = db.users ∧
      db1.sessions =
        db.sessions.map (fun s => if s.ID = session.ID then { s with LastActivity := now }
          else s) ∧
      (∀ s ∈ db.sessions, s.ID = session.ID → s = session) := by
  have hJ := newJWTService_sound lib secretKey accessExpiry refreshExpiry hlib
  obtain ⟨-, -, -, -, -, -, -, hg, -, -, -⟩ := refreshToken_inv _ now db db1 r response h
  have hval : (jwt.NewJWTService lib secretKey accessExpiry refreshExpiry).ValidateToken t
      response.AccessToken =
      Except.ok ⟨response.User.ID, response.User.Email, response.User.Role,
        unixSeconds (now + accessExpiry), unixSeconds now⟩ :=
    validateToken_issued lib secretKey t _ _ hlib hg
      (le_trans (unixSeconds_mul_le now) ht1) ht2
  obtain ⟨claims, session, k1, k2, k3, k4, -, -, -, k8, k9, k10, k11, k12, k13, k14⟩ :=
    refreshToken_success_sound _ now t db db1 r response _ c next hJ hids h hval hc
  exact ⟨claims, session, k1, k2, k3, k4, hval, k8, k9, k10, k11, k12, k13, k14⟩

theorem refreshToken_success_spec_witness :
    ∃ claims session,
      sampleService.ValidateToken (2 * Second) serviceRefreshToken = Except.ok claims ∧
      SessionRepository.GetByUserID serviceLogin.2 claims.UserID = Except.ok session ∧
      sampleService.ValidateToken (3 * Second)
          (tokenOf (sampleService.GenerateAccessToken (2 * Second) 1 "a@x.io" "user")) =
        Except.ok ⟨1, "a@x.io", "user", 17, 2⟩ ∧
      (RefreshToken sampleService (2 * Second) serviceLogin.2 serviceRefreshToken).2.sessions =
        serviceLogin.2.sessions.map
          (fun s => if s.ID = session.ID then { s with LastActivity := 2 * Second } else s) :=
  have h := refreshToken_success_spec refLib "secret" (15 * Second) (60 * Second) (2 * Second)
    (3 * Second) serviceLogin.2
    (RefreshToken sampleService (2 * Second) serviceLogin.2 serviceRefreshToken).2
    serviceRefreshToken
    ⟨sampleUser, tokenOf (sampleService.GenerateAccessToken (2 * Second) 1 "a@x.io" "user"),
      serviceRefreshToken⟩
    (requestContext ("Bearer " ++
      tokenOf (sampleService.GenerateAccessToken (2 * Second) 1 "a@x.io" "user")) "") id
    refLib_lawful (by decide) (by decide) (by decide) (by decide) (by decide)
  h.imp fun _ h1 => h1.imp fun _ h2 => ⟨h2.1, h2.2.1, h2.2.2.2.2.1, h2.2.2.2.2.2.2.2.2.2.2.1⟩

/-! ## The admin guard -/

/-- **C21 (evaluation at the failing input).** `alice` has the role `user` and an
active session.  Her request passes through the chain `AdminRequired`,
`UserHandler.Logout` with her access token.  The handler after the guard runs:
it deletes her session and writes its response with status 200; only then the
guard writes status 403 and aborts.  A request with an invalid token is
answered with 401 and the handler does not run; with a token of role `admin`
the handler runs once. -/
theorem adminRequired_runs_handler_before_role_check :
    sampleJWT.ValidateToken (2 * Second) accessToken1 =
      Except.ok ⟨1, "a@x.io", "user", 16, 1⟩ ∧
    firstLogin.2.sessions.length = 1 ∧
    (runChain [AdminRequired sampleJWT (2 * Second), UserHandler.Logout]
      ⟨firstLogin.2, requestContext ("Bearer " ++ accessToken1) ""⟩).db.sessions = [] ∧
    (runChain [AdminRequired sampleJWT (2 * Second), UserHandler.Logout]
      ⟨firstLogin.2, requestContext ("Bearer " ++ accessToken1) ""⟩).c.written =
      [(200, Body.logout "Successfully logged out"),
       (403, Body.error "Admin access required")] ∧
    (runChain [AdminRequired sampleJWT (2 * Second), UserHandler.Logout]
      ⟨firstLogin.2, requestContext ("Bearer " ++ accessToken1) ""⟩).c.aborted = true ∧
    runChain [AdminRequired sampleJWT (2 * Second), UserHandler.Logout]
        ⟨firstLogin.2, requestContext "Bearer x" ""⟩ =
      ⟨firstLogin.2, ((requestContext "Bearer x" "").JSON 401
        (Body.error "Invalid or expired token")).Abort⟩ ∧
    (runChain [AdminRequired sampleJWT (2 * Second), UserHandler.Logout]
      ⟨firstLogin.2, requestContext ("Bearer " ++ adminToken) ""⟩).c.written =
      [(200, Body.logout "Successfully logged out")] := by
  decide

/-! ## The optional guard -/

/-- **C22 (counterexample).** `alice` is registered and has no stored session.
A request with an access token that `ValidateToken` accepts passes
`OptionalAuth` with `user_id`, `user_email` and `user_role` set. -/
theorem optionalAuth_sets_principal_without_session :
    SessionRepository.GetByUserID sampleDB 1 = Except.error "session not found" ∧
    OptionalAuth sampleJWT (2 * Second) id
        ⟨sampleDB, requestContext ("Bearer " ++ accessToken1) ""⟩ =
      ⟨sampleDB, setPrincipal (requestContext ("Bearer " ++ accessToken1) "")
        ⟨1, "a@x.io", "user", 16, 1⟩⟩ ∧
    (OptionalAuth sampleJWT (2 * Second) id
      ⟨sampleDB, requestContext ("Bearer " ++ accessToken1) ""⟩).c.Get "user_id" =
      some (CtxValue.oid 1) ∧
    (OptionalAuth sampleJWT (2 * Second) id
      ⟨sampleDB, requestContext ("Bearer " ++ accessToken1) ""⟩).c.Get "user_role" =
      some (CtxValue.str "user") := by
  decide

theorem setPrincipal_flags (c : Context) (claims : JWTClaims) :
    (setPrincipal c claims).aborted = c.aborted ∧
    (setPrincipal c claims).finished = c.finished ∧
    (setPrincipal c claims).written = c.written ∧
    (setPrincipal c claims).Header = c.Header ∧
    (setPrincipal c claims).RequestBody = c.RequestBody :=
  ⟨rfl, rfl, rfl, rfl, rfl⟩

/-- **C22 (amended).** `OptionalAuth` passes every request on to the following
handlers, writes nothing and does not abort.  When the header is malformed
(no token is extracted) or `ValidateToken` rejects the token, the context is
passed on as it is, with no key set.  When `ValidateToken` accepts the token,
`user_id`, `user_email` and `user_role` are set to the claims, whatever the
session store holds: the sessions are not read. -/
theorem optionalAuth_spec (jwtService : JWTService) (now : Time) (next : World → World)
    (w : World) :
    (extractToken w.c = "" → OptionalAuth jwtService now next w = next w) ∧
    (∀ e, jwtService.ValidateToken now (extractToken w.c) = Except.error e →
      OptionalAuth jwtService now next w = next w) ∧
    (∀ claims, extractToken w.c ≠ "" →
      jwtService.ValidateToken now (extractToken w.c) = Except.ok claims →
      OptionalAuth jwtService now next w = next { w with c := setPrincipal w.c claims } ∧
      (setPrincipal w.c claims).Get "user_id" = some (CtxValue.oid claims.UserID) ∧
      (setPrincipal w.c claims).Get "user_email" = some (CtxValue.str claims.Email) ∧
      (setPrincipal w.c claims).Get "user_role" = some (CtxValue.str claims.Role)) ∧
    (∀ sessions : List Session,
      OptionalAuth jwtService now id { w with db := { w.db with sessions := sessions } } =
        { OptionalAuth jwtService now id w with db := { w.db with sessions := sessions } }) ∧
    (OptionalAuth jwtService now id w).db = w.db ∧
    (OptionalAuth jwtService now id w).c.aborted = w.c.aborted ∧
    (OptionalAuth jwtService now id w).c.written = w.c.written := by
  refine ⟨?_, ?_, ?_, ?_, ?_⟩
  · intro h
    simp [OptionalAuth, h]
  · intro e h
    simp [OptionalAuth, h]
  · intro claims hne h
    refine ⟨?_, setPrincipal_get w.c claims⟩
    simp [OptionalAuth, hne, h]
  · intro sessions
    unfold OptionalAuth
    by_cases h : extractToken w.c = ""
    · simp [h]
    · cases hv : jwtService.ValidateToken now (extractToken w.c) with
      | error e => simp [h, hv]
      | ok claims => simp [h, hv]
  · unfold OptionalAuth
    by_cases h : extractToken w.c = ""
    · simp [h]
    · cases hv : jwtService.ValidateToken now (extractToken w.c) with
      | error e => simp [h, hv]
      | ok claims => simp [h, hv, (setPrincipal_flags w.c claims).1,
          (setPrincipal_flags w.c claims).2.2.1]

theorem optionalAuth_spec_witness :
    OptionalAuth sampleJWT (2 * Second) id ⟨firstLogin.2, requestContext "Basic abc" ""⟩ =
      ⟨firstLogin.2, requestContext "Basic abc" ""⟩ ∧
    OptionalAuth sampleJWT (2 * Second) id ⟨firstLogin.2, requestContext "Bearer x" ""⟩ =
      ⟨firstLogin.2, requestContext "Bearer x" ""⟩ ∧
    OptionalAuth sampleJWT (2 * Second) id
        ⟨firstLogin.2, requestContext ("Bearer " ++ accessToken1) ""⟩ =
      ⟨firstLogin.2, setPrincipal (requestContext ("Bearer " ++ accessToken1) "")
        ⟨1, "a@x.io", "user", 16, 1⟩⟩ :=
  ⟨(optionalAuth_spec sampleJWT (2 * Second) id
      ⟨firstLogin.2, requestContext "Basic abc" ""⟩).1 (by decide),
   (optionalAuth_spec sampleJWT (2 * Second) id
      ⟨firstLogin.2, requestContext "Bearer x" ""⟩).2.1 "token is malformed" (by decide),
   ((optionalAuth_spec sampleJWT (2 * Second) id
      ⟨firstLogin.2, requestContext ("Bearer " ++ accessToken1) ""⟩).2.2.1
      ⟨1, "a@x.io", "user", 16, 1⟩ (by decide) (by decide)).1⟩

/-! ## The lifetime of a token -/

theorem validateToken_hmac (lib : JWTLib) (secretKey alg : String) (t : Time)
    (claims : JWTClaims) (token : String) (hlib : lib.Lawful) (ha : alg ∈ hmacAlgs)
    (hs : lib.SignedString alg claims secretKey = Except.ok token)
    (h1 : claims.Iat * Second ≤ t) (h2 : t < claims.Exp * Second) :
    jwt.ValidateToken lib secretKey t token = Except.ok claims := by
  obtain ⟨-, hp, hv⟩ := hlib _ _ _ _ hs
  have hn : ¬ (t < claims.Iat * Second) := not_lt.2 h1
  simp [jwt.ValidateToken, ParseWithClaims, hp, ha, hv, JWTClaims.GetExpirationTime,
    JWTClaims.GetNotBefore, h2, hn]

theorem validateToken_expired (lib : JWTLib) (secretKey alg : String) (t : Time)
    (claims : JWTClaims) (token : String)
    (hp : lib.ParseUnverified token = Except.ok (alg, claims))
    (h : claims.Exp * Second ≤ t) :
    ∃ e, jwt.ValidateToken lib secretKey t token = Except.error e := by
  have hn : ¬ (t < claims.Exp * Second) := not_lt.2 h
  unfold jwt.ValidateToken ParseWithClaims
  simp only [hp]
  split
  · exact ⟨_, rfl⟩
  · simp only [JWTClaims.GetExpirationTime, hn, decide_False, Bool.not_false, if_true]
    split_ifs <;> exact ⟨_, rfl⟩

theorem validateToken_other_alg (lib : JWTLib) (secretKey alg : String) (t : Time)
    (claims : JWTClaims) (token : String)
    (hp : lib.ParseUnverified token = Except.ok (alg, claims)) (ha : alg ∉ hmacAlgs) :
    jwt.ValidateToken lib secretKey t token =
      Except.error ("token is unverifiable: error while executing keyfunc: " ++
        ("unexpected signing method: " ++ alg)) := by
  simp [jwt.ValidateToken, ParseWithClaims, hp, ha]

theorem signed_lifetime (lib : JWTLib) (secretKey : String) (d : Int) (t0 : Time)
    (userID : ObjectID) (email role token : String) (hlib : lib.Lawful)
    (hs : lib.SignedString "HS256"
      { UserID := userID, Email := email, Role := role,
        Exp := unixSeconds (t0 + d), Iat := unixSeconds t0 } secretKey = Except.ok token) :
    lib.ParseUnverified token =
      Except.ok ("HS256", ⟨userID, email, role, unixSeconds (t0 + d), unixSeconds t0⟩) ∧
    (∀ t, t0 ≤ t → t < unixSeconds (t0 + d) * Second →
      jwt.ValidateToken lib secretKey t token =
        Except.ok ⟨userID, email, role, unixSeconds (t0 + d), unixSeconds t0⟩) ∧
    (∀ t, unixSeconds (t0 + d) * Second ≤ t →
      ∃ e, jwt.ValidateToken lib secretKey t token = Except.error e) := by
  obtain ⟨-, hp, -⟩ := hlib _ _ _ _ hs
  refine ⟨hp, ?_, ?_⟩
  · intro t h1 h2
    exact validateToken_hmac lib secretKey "HS256" t _ token hlib (by decide) hs
      (le_trans (unixSeconds_mul_le t0) h1) h2
  · intro t h
    exact validateToken_expired lib secretKey "HS256" t _ token hp h

/-- **C23.** A token issued at time `t0` by `GenerateAccessToken` (by
`GenerateRefreshToken`) for a user id, email and role carries these three
values, `iat = t0` and `exp = t0 + accessExpiry` (`t0 + refreshExpiry`) in whole
seconds.  `ValidateToken` with the same key returns exactly these claims at
every time `t` with `t0 ≤ t < exp`, and returns an error at every time
`t ≥ exp`. -/
theorem token_lifetime (lib : JWTLib) (secretKey : String) (accessExpiry refreshExpiry d : Int)
    (t0 : Time) (userID : ObjectID) (email role token : String) (hlib : lib.Lawful)
    (h : ((jwt.NewJWTService lib secretKey accessExpiry refreshExpiry).GenerateAccessToken
          t0 userID email role = Except.ok token ∧ d = accessExpiry) ∨
      ((jwt.NewJWTService lib secretKey accessExpiry refreshExpiry).GenerateRefreshToken
          t0 userID email role = Except.ok token ∧ d = refreshExpiry)) :
    lib.ParseUnverified token =
      Except.ok ("HS256", ⟨userID, email, role, unixSeconds (t0 + d), unixSeconds t0⟩) ∧
    (∀ t, t0 ≤ t → t < unixSeconds (t0 + d) * Second →
      (jwt.NewJWTService lib secretKey accessExpiry refreshExpiry).ValidateToken t token =
        Except.ok ⟨userID, email, role, unixSeconds (t0 + d), unixSeconds t0⟩) ∧
    (∀ t, unixSeconds (t0 + d) * Second ≤ t →
      ∃ e, (jwt.NewJWTService lib secretKey accessExpiry refreshExpiry).ValidateToken t token =
        Except.error e) := by
  rcases h with ⟨h, hd⟩ | ⟨h, hd⟩
  · subst hd
    exact signed_lifetime lib secretKey d t0 userID email role token hlib h
  · subst hd
    exact signed_lifetime lib secretKey d t0 userID email role token hlib h

theorem token_lifetime_witness :
    sampleService.ValidateToken (16 * Second - 1) serviceAccessToken =
      Except.ok ⟨1, "a@x.io", "user", 16, 1⟩ ∧
    (∃ e, sampleService.ValidateToken (16 * Second) serviceAccessToken = Except.error e) ∧
    sampleService.ValidateToken (61 * Second - 1) serviceRefreshToken =
      Except.ok ⟨1, "a@x.io", "user", 61, 1⟩ ∧
    (∃ e, sampleService.ValidateToken (61 * Second) serviceRefreshToken = Except.error e) :=
  have ha := token_lifetime refLib "secret" (15 * Second) (60 * Second) (15 * Second) Second 1
    "a@x.io" "user" serviceAccessToken refLib_lawful (Or.inl ⟨by decide, rfl⟩)
  have hr := token_lifetime refLib "secret" (15 * Second) (60 * Second) (60 * Second) Second 1
    "a@x.io" "user" serviceRefreshToken refLib_lawful (Or.inr ⟨by decide, rfl⟩)
  ⟨ha.2.1 (16 * Second - 1) (by decide) (by decide), ha.2.2 (16 * Second) (by decide),
   hr.2.1 (61 * Second - 1) (by decide) (by decide), hr.2.2 (61 * Second) (by decide)⟩

/-! ## The signing algorithm -/

/-- **C24 (counterexample).** A token whose header names `HS384`, signed with the
configured key, is accepted by `ValidateToken`. -/
theorem validateToken_accepts_hs384 :
    refLib.ParseUnverified
        (tokenOf (refLib.SignedString "HS384" ⟨1, "a@x.io", "user", 16, 1⟩ "secret")) =
      Except.ok ("HS384", ⟨1, "a@x.io", "user", 16, 1⟩) ∧
    "HS384" ≠ "HS256" ∧
    sampleService.ValidateToken (2 * Second)
        (tokenOf (refLib.SignedString "HS384" ⟨1, "a@x.io", "user", 16, 1⟩ "secret")) =
      Except.ok ⟨1, "a@x.io", "user", 16, 1⟩ := by
  decide

/-- **C24 (amended).** `ValidateToken` rejects every token whose header names a
signing algorithm that is not one of the HMAC methods `HS256`, `HS384` and
`HS512`.  A token whose header names any of these three, signed with the
configured key, is accepted from its not-before time until its expiry. -/
theorem validateToken_algorithms (lib : JWTLib) (secretKey : String) (hlib : lib.Lawful) :
    (∀ alg claims token t, lib.ParseUnverified token = Except.ok (alg, claims) →
      alg ≠ "HS256" → alg ≠ "HS384" → alg ≠ "HS512" →
      ∃ e, jwt.ValidateToken lib secretKey t token = Except.error e) ∧
    (∀ alg claims token t, alg = "HS256" ∨ alg = "HS384" ∨ alg = "HS512" →
      lib.SignedString alg claims secretKey = Except.ok token →
      claims.Iat * Second ≤ t → t < claims.Exp * Second →
      jwt.ValidateToken lib secretKey t token = Except.ok claims) := by
  refine ⟨?_, ?_⟩
  · intro alg claims token t hp h1 h2 h3
    exact ⟨_, validateToken_other_alg lib secretKey alg t claims token hp
      (by simp [hmacAlgs, h1, h2, h3])⟩
  · intro alg claims token t ha hs h1 h2
    exact validateToken_hmac lib secretKey alg t claims token hlib
      (by simpa [hmacAlgs] using ha) hs h1 h2

theorem validateToken_algorithms_witness :
    (∃ e, jwt.ValidateToken refLib "secret" (2 * Second)
      (tokenOf (refLib.SignedString "RS256" ⟨1, "a@x.io", "user", 16, 1⟩ "secret")) =
        Except.error e) ∧
    jwt.ValidateToken refLib "secret" (2 * Second)
        (tokenOf (refLib.SignedString "HS512" ⟨1, "a@x.io", "user", 16, 1⟩ "secret")) =
      Except.ok ⟨1, "a@x.io", "user", 16, 1⟩ :=
  have h := validateToken_algorithms refLib "secret" refLib_lawful
  ⟨h.1 "RS256" ⟨1, "a@x.io", "user", 16, 1⟩
      (tokenOf (refLib.SignedString "RS256" ⟨1, "a@x.io", "user", 16, 1⟩ "secret"))
      (2 * Second) (by decide) (by decide) (by decide) (by decide),
   h.2 "HS512" ⟨1, "a@x.io", "user", 16, 1⟩
      (tokenOf (refLib.SignedString "HS512" ⟨1, "a@x.io", "user", 16, 1⟩ "secret"))
      (2 * Second) (Or.inr (Or.inr rfl)) (by decide) (by decide) (by decide)⟩

/-! ## Password hashing -/

theorem utf8Encode_length (c : Char) : (utf8Encode c).length = c.utf8Size := by
  have e1 : (c.val ≤ UInt32.ofNatCore 127 (by decide)) ↔ c.toNat ≤ 127 := by
    rw [UInt32.le_def, BitVec.le_def]
    rfl
  have e2 : (c.val ≤ UInt32.ofNatCore 2047 (by decide)) ↔ c.toNat ≤ 2047 := by
    rw [UInt32.le_def, BitVec.le_def]
    rfl
  have e3 : (c.val ≤ UInt32.ofNatCore 65535 (by decide)) ↔ c.toNat ≤ 65535 := by
    rw [UInt32.le_def, BitVec.le_def]
    rfl
  unfold utf8Encode Char.utf8Size
  simp only [e1, e2, e3]
  split_ifs <;> first | rfl | (exfalso; omega)

theorem goBytes_length (s : String) : (goBytes s).length = goLen s := by
  cases s with
  | mk cs =>
    rw [goLen_mk]
    show ((cs.map utf8Encode).flatten).length = _
    induction cs with
    | nil => rfl
    | cons c cs ih =>
      simp only [List.map_cons, List.flatten_cons, List.length_append, List.sum_cons, ih,
        utf8Encode_length]

theorem toNat_ofNat_byte (n : Nat) (h : n < 256) : (Char.ofNat n).toNat = n := by
  have hv : n.isValidChar := Or.inl (by omega)
  simp [Char.ofNat, hv, Char.toNat, Char.ofNatAux, UInt32.toNat]

theorem refCore_lawful : refCore.Lawful := by
  intro cost salt key
  have hm : ∀ l : List Nat, (∀ b ∈ l, b < 256) → (l.map Char.ofNat).map Char.toNat = l := by
    intro l hl
    induction l with
    | nil => rfl
    | cons b l ih =>
      simp only [List.map_cons, List.cons.injEq]
      exact ⟨toNat_ofNat_byte b (hl b (by simp)), ih (fun x hx => hl x (by simp [hx]))⟩
  have hd : ∀ b ∈ key.map (fun b => (b + cost + salt) % 256), b < 256 := by
    intro b hb
    simp only [List.mem_map] at hb
    obtain ⟨a, -, rfl⟩ := hb
    exact Nat.mod_lt _ (by decide)
  simp only [refCore, readUnary_writeUnary 'c' cost _ (by decide),
    readUnary_writeUnary '$' salt _ (by decide), hm _ hd]

theorem hashPassword_eq (core : BcryptCore) (salt : Nat) (p h : String)
    (hh : HashPassword (goBcrypt core) salt p = Except.ok h) :
    goLen p ≤ 72 ∧
    h = core.encode DefaultCost salt (core.digest DefaultCost salt (bcryptKey (goBytes p))) := by
  by_cases h1 : goLen p > 72
  · simp [HashPassword, goBcrypt, h1] at hh
  · simp [HashPassword, goBcrypt, h1, DefaultCost, MinCost, MaxCost] at hh
    exact ⟨by omega, hh.symm⟩

theorem checkPassword_iff (core : BcryptCore) (hcore : core.Lawful) (salt : Nat)
    (p p1 h : String) (hh : HashPassword (goBcrypt core) salt p = Except.ok h) :
    CheckPassword (goBcrypt core) p1 h = true ↔
      core.digest DefaultCost salt (bcryptKey (goBytes p1)) =
        core.digest DefaultCost salt (bcryptKey (goBytes p)) := by
  obtain ⟨-, rfl⟩ := hashPassword_eq core salt p h hh
  simp only [CheckPassword, goBcrypt, hcore DefaultCost salt _]
  split_ifs with h1
  · simp [h1]
  · simp [h1]

/-- **C25 (counterexample).** `HashPassword` accepts the password `password72`
of 72 bytes, and `CheckPassword` accepts the different password `password73`
against its hash, whatever the Blowfish computation is: `bcrypt` reads the
same 72 bytes of key material from both.  The same holds for `Aa1!aa` and the
password that repeats it after a zero byte. -/
theorem checkPassword_accepts_other_password :
    password73 ≠ password72 ∧ goLen password72 = 72 ∧
    bcryptKey (goBytes password73) = bcryptKey (goBytes password72) ∧
    (∀ (core : BcryptCore) (salt : Nat) (h : String), core.Lawful →
      HashPassword (goBcrypt core) salt password72 = Except.ok h →
      CheckPassword (goBcrypt core) password73 h = true) ∧
    (∃ h, HashPassword (goBcrypt refCore) 3 password72 = Except.ok h ∧
      CheckPassword (goBcrypt refCore) password73 h = true) ∧
    repeatedPassword ≠ "Aa1!aa" ∧
    bcryptKey (goBytes repeatedPassword) = bcryptKey (goBytes "Aa1!aa") ∧
    (∃ h, HashPassword (goBcrypt refCore) 3 "Aa1!aa" = Except.ok h ∧
      CheckPassword (goBcrypt refCore) repeatedPassword h = true) := by
  have k1 : bcryptKey (goBytes password73) = bcryptKey (goBytes password72) := by decide
  have k2 : bcryptKey (goBytes repeatedPassword) = bcryptKey (goBytes "Aa1!aa") := by decide
  have c1 : ∀ (core : BcryptCore) (salt : Nat) (h : String), core.Lawful →
      HashPassword (goBcrypt core) salt password72 = Except.ok h →
      CheckPassword (goBcrypt core) password73 h = true := by
    intro core salt h hcore hh
    rw [checkPassword_iff core hcore salt password72 password73 h hh, k1]
  have a1 : HashPassword (goBcrypt refCore) 3 password72 =
      Except.ok (tokenOf (HashPassword (goBcrypt refCore) 3 password72)) := by decide
  have a2 : HashPassword (goBcrypt refCore) 3 "Aa1!aa" =
      Except.ok (tokenOf (HashPassword (goBcrypt refCore) 3 "Aa1!aa")) := by decide
  refine ⟨by decide, by decide, k1, c1, ⟨_, a1, c1 refCore 3 _ refCore_lawful a1⟩, by decide, k2,
    ⟨_, a2, ?_⟩⟩
  rw [checkPassword_iff refCore refCore_lawful 3 "Aa1!aa" repeatedPassword _ a2, k2]

/-- **C25 (amended).** For a password `p` that `HashPassword` accepts, with hash
`h`: `CheckPassword(p, h)` is true; `CheckPassword(p1, h)` is true exactly when
`bcrypt` computes for `p1` the digest it computed for `p` under the cost and
salt of `h`, and so for every `p1` from which it reads the same 72 bytes of key
material as from `p`.  For a hash that cannot be read, `CheckPassword` returns
false. -/
theorem checkPassword_spec (core : BcryptCore) (salt : Nat) (p h : String)
    (hcore : core.Lawful) (hh : HashPassword (goBcrypt core) salt p = Except.ok h) :
    CheckPassword (goBcrypt core) p h = true ∧
    (∀ p1, CheckPassword (goBcrypt core) p1 h = true ↔
      core.digest DefaultCost salt (bcryptKey (goBytes p1)) =
        core.digest DefaultCost salt (bcryptKey (goBytes p))) ∧
    (∀ p1, bcryptKey (goBytes p1) = bcryptKey (goBytes p) →
      CheckPassword (goBcrypt core) p1 h = true) ∧
    (∀ p1 hash e, core.decode hash = Except.error e →
      CheckPassword (goBcrypt core) p1 hash = false) := by
  refine ⟨?_, ?_, ?_, ?_⟩
  · rw [checkPassword_iff core hcore salt p p h hh]
  · intro p1
    exact checkPassword_iff core hcore salt p p1 h hh
  · intro p1 hk
    rw [checkPassword_iff core hcore salt p p1 h hh, hk]
  · intro p1 hash e hd
    simp [CheckPassword, goBcrypt, hd]

theorem checkPassword_spec_witness :
    CheckPassword (goBcrypt refCore) "Aa1!aa"
        (tokenOf (HashPassword (goBcrypt refCore) 3 "Aa1!aa")) = true ∧
    CheckPassword (goBcrypt refCore) repeatedPassword
        (tokenOf (HashPassword (goBcrypt refCore) 3 "Aa1!aa")) = true ∧
    CheckPassword (goBcrypt refCore) "Aa1!ab"
        (tokenOf (HashPassword (goBcrypt refCore) 3 "Aa1!aa")) = false ∧
    CheckPassword (goBcrypt refCore) "Aa1!aa" "x" = false :=
  have h := checkPassword_spec refCore 3 "Aa1!aa"
    (tokenOf (HashPassword (goBcrypt refCore) 3 "Aa1!aa")) refCore_lawful (by decide)
  ⟨h.1, h.2.2.1 repeatedPassword (by decide), by decide,
    h.2.2.2 "Aa1!aa" "x" "crypto/bcrypt: hashedSecret too short to be a bcrypted password"
      (by decide)⟩

/-! ## The password hash and the responses -/

theorem user_toJSON_password (u : User) (p : String) :
    ({ u with Password := p } : User).toJSON = u.toJSON := rfl

theorem body_toJSON_password (body : Body) (p : String) :
    (body.withPassword p).toJSON = body.toJSON := by
  cases body <;> rfl

theorem user_json_keys (u : User) :
    ∀ k ∈ u.jsonFields.map Prod.fst,
      k ∈ ["id", "username", "email", "role", "profile_picture", "bio", "created_at",
        "updated_at"] := by
  intro k hk
  unfold User.jsonFields at hk
  cases hp : u.ProfilePicture <;> by_cases hb : u.Bio = "" <;>
    simp only [hp, hb, if_true, if_false, List.append_nil, List.cons_append, List.nil_append,
      List.map_cons, List.map_nil, List.mem_cons, List.mem_singleton, List.not_mem_nil,
      or_false] at hk ⊢ <;> tauto

/-- **C26.** The JSON form of a user does not depend on its `Password` field and
has no field of the name `password`; hence neither has the JSON form of a login
response, and no response body changes its JSON form when the password of the
user it holds is replaced.  On success the register and profile endpoints send
the user and the login and refresh endpoints send the login response in this
form. -/
theorem responses_hide_password :
    (∀ (u : User) (p : String), ({ u with Password := p } : User).toJSON = u.toJSON) ∧
    (∀ (r : LoginResponse) (p : String),
      ({ r with User := { r.User with Password := p } } : LoginResponse).toJSON = r.toJSON) ∧
    (∀ (u : User), "password" ∉ u.jsonFields.map Prod.fst) ∧
    (∀ (body : Body) (p : String), (body.withPassword p).toJSON = body.toJSON) ∧
    (∀ (binding : RequestBinding RegisterRequest) (U : Char → Option RuneClass)
      (bcrypt : Bcrypt) (salt : Nat) (now : Time) (next : World → World) (w : World)
      (req : RegisterRequest) (user : User) (db1 : DB),
      binding.bind w.c.RequestBody = Except.ok req → binding.validate req = none →
      Register U bcrypt salt now w.db req.Username req.Email req.Password =
        (Except.ok user, db1) →
      (UserHandler.Register binding U bcrypt salt now next w).c.payloads =
        w.c.payloads ++ [(201, user.toJSON)]) ∧
    (∀ (binding : Binding) (bcrypt : Bcrypt) (jwtService : JWTService) (now : Time)
      (next : World → World) (w : World) (req : LoginRequest) (response : LoginResponse)
      (db1 : DB),
      binding.bindLoginRequest w.c.RequestBody = Except.ok req →
      binding.validateLoginRequest req = none →
      Login bcrypt jwtService now w.db req.Email req.Password = (Except.ok response, db1) →
      (UserHandler.Login binding bcrypt jwtService now next w).c.payloads =
        w.c.payloads ++ [(200, response.toJSON)]) ∧
    (∀ (binding : RequestBinding RefreshTokenRequest) (jwtService : JWTService) (now : Time)
      (next : World → World) (w : World) (req : RefreshTokenRequest)
      (response : LoginResponse) (db1 : DB),
      binding.bind w.c.RequestBody = Except.ok req → binding.validate req = none →
      RefreshToken jwtService now w.db req.RefreshToken = (Except.ok response, db1) →
      (UserHandler.RefreshToken binding jwtService now next w).c.payloads =
        w.c.payloads ++ [(200, response.toJSON)]) ∧
    (∀ (next : World → World) (w : World) (userID : ObjectID) (user : User),
      GetUserIDFromContext w.c = (userID, true) →
      GetByID w.db userID = Except.ok user →
      (UserHandler.GetProfile next w).c.payloads = w.c.payloads ++ [(200, user.toJSON)]) := by
  refine ⟨fun _ _ => rfl, fun _ _ => rfl, ?_, body_toJSON_password, ?_, ?_, ?_, ?_⟩
  · intro u h
    have := user_json_keys u _ h
    simp at this
  · intro binding U bcrypt salt now next w req user db1 hb hv hr
    simp [UserHandler.Register, hb, hv, hr, UserHandler.registerRespond, Context.payloads,
      Context.JSON, Body.toJSON, StatusCreated]
  · intro binding bcrypt jwtService now next w req response db1 hb hv hr
    simp [UserHandler.Login, hb, hv, hr, Context.payloads, Context.JSON, Body.toJSON, StatusOK]
  · intro binding jwtService now next w req response db1 hb hv hr
    simp [UserHandler.RefreshToken, hb, hv, hr, Context.payloads, Context.JSON, Body.toJSON,
      StatusOK]
  · intro next w userID user hu hg
    simp [UserHandler.GetProfile, hu, hg, Context.payloads, Context.JSON, Body.toJSON, StatusOK]

theorem responses_hide_password_witness :
    sampleUser.Password = "$$$#Abcdef1!" ∧
    sampleUser.toJSON =
      JSON.object [("id", JSON.objectID 1), ("username", JSON.string "alice"),
        ("email", JSON.string "a@x.io"), ("role", JSON.string "user"),
        ("created_at", JSON.time 0), ("updated_at", JSON.time 0)] ∧
    ({ sampleUser with Password := "other" } : User).toJSON = sampleUser.toJSON :=
  ⟨rfl, rfl, responses_hide_password.1 sampleUser "other"⟩

/-! ## The secure token -/

/-- **C27 (counterexample).** `GenerateSecureToken(1)` is the empty string, and
`GenerateSecureToken(4)` has 4 characters, not 8. -/
theorem generateSecureToken_length_four :
    GenerateSecureToken (fun _ => 171) 1 = some "" ∧
    GenerateSecureToken (fun _ => 171) 4 = some "abab" ∧
    "abab".length = 4 := by
  decide

theorem hextable_getD_mem (i : Nat) (h : i < 16) : hextable.getD i '0' ∈ hextable := by
  have : ∀ j, j < 16 → hextable.getD j '0' ∈ hextable := by decide
  exact this i h

theorem hexEncodeToString_spec (src : List Nat) :
    (hexEncodeToString src).length = 2 * src.length ∧
    ∀ c ∈ (hexEncodeToString src).data, c ∈ hextable := by
  induction src with
  | nil => exact ⟨rfl, by simp [hexEncodeToString]⟩
  | cons b bs ih =>
    obtain ⟨ih1, ih2⟩ := ih
    simp only [hexEncodeToString, String.length, List.map_cons, List.flatten_cons,
      List.cons_append, List.nil_append, List.length_cons, List.mem_cons] at *
    refine ⟨by omega, ?_⟩
    intro c hc
    rcases hc with rfl | rfl | hc
    · exact hextable_getD_mem _ (by omega)
    · exact hextable_getD_mem _ (by omega)
    · exact ih2 c hc

/-- **C27 (amended).** For every `n ≥ 0`, `GenerateSecureToken(n)` returns a string
of exactly `2·⌊n/2⌋` characters (`n` characters when `n` is even, `n - 1` when it
is odd), each of which is one of the lowercase hexadecimal digits `0-9`, `a-f`. -/
theorem generateSecureToken_spec (entropy : Nat → Nat) (n : Nat) :
    ∃ s, GenerateSecureToken entropy n = some s ∧ s.length = 2 * (n / 2) ∧
      (n % 2 = 0 → s.length = n) ∧ (n % 2 = 1 → s.length = n - 1) ∧
      ∀ c ∈ s.data, c ∈ "0123456789abcdef".data := by
  have hd : Int.tdiv (n : Int) 2 = ((n / 2 : Nat) : Int) := rfl
  have hs := hexEncodeToString_spec ((List.range (n / 2)).map (fun i => entropy i % 256))
  refine ⟨hexEncodeToString ((List.range (n / 2)).map (fun i => entropy i % 256)), ?_, ?_, ?_,
    ?_, hs.2⟩
  · have h0 : ¬ (((n / 2 : Nat) : Int) < 0) := by omega
    simp only [GenerateSecureToken, hd, h0, if_false, Int.toNat_ofNat]
  · simpa using hs.1
  · intro h
    have := hs.1
    simp at this
    omega
  · intro h
    have := hs.1
    simp at this
    omega

theorem generateSecureToken_spec_witness :
    ∃ s, GenerateSecureToken (fun i => 16 * i + 10) 5 = some s ∧ s.length = 2 * (5 / 2) ∧
      (5 % 2 = 0 → s.length = 5) ∧ (5 % 2 = 1 → s.length = 5 - 1) ∧
      ∀ c ∈ s.data, c ∈ "0123456789abcdef".data :=
  generateSecureToken_spec (fun i => 16 * i + 10) 5

/-! ## Updates that match no document -/

theorem updateFirst_of_none {α : Type} (p : α → Bool) (f : α → α) (l : List α)
    (h : ∀ x ∈ l, p x = false) : updateFirst p f l = l := by
  induction l with
  | nil => rfl
  | cons x xs ih =>
    unfold updateFirst
    have hx : p x = false := h x (by simp)
    simp only [hx, Bool.false_eq_true, if_false]
    rw [ih (fun y hy => h y (by simp [hy]))]

/-- **C28 (counterexample).** No session is stored in `sampleDB`, and none with
the id `99` after `alice`'s login.  `SessionRepository.Update` for user `1` and
`SessionRepository.UpdateLastActivity` for the id `99` return no error. -/
theorem session_update_missing_returns_nil :
    sampleDB.sessions = [] ∧
    SessionRepository.Update sampleDB (6 * Second) sampleSession =
      (none, { sampleSession with LastActivity := 6 * Second }, sampleDB) ∧
    SessionRepository.GetByID firstLogin.2 99 = Except.error "session not found" ∧
    SessionRepository.UpdateLastActivity firstLogin.2 (6 * Second) 99 = (none, firstLogin.2) := by
  decide

/-- **C28 (amended).** With the server reachable, `SessionRepository.Update`
called for a session whose `UserID` has no stored session, and
`SessionRepository.UpdateLastActivity` called for an id that is not stored,
each return no error and leave the store unchanged (`Update` has set
`LastActivity` in the struct of the caller). -/
theorem session_update_missing (db : DB) (now : Time) (hout : db.outage = none) :
    (∀ session : Session, (∀ s ∈ db.sessions, s.UserID ≠ session.UserID) →
      SessionRepository.Update db now session =
        (none, { session with LastActivity := now }, db)) ∧
    (∀ id : ObjectID, (∀ s ∈ db.sessions, s.ID ≠ id) →
      SessionRepository.UpdateLastActivity db now id = (none, db)) := by
  refine ⟨?_, ?_⟩
  · intro session h
    have hf : db.sessions.find? (fun s => s.UserID == session.UserID) = none := by
      rw [List.find?_eq_none]
      intro s hs
      simpa using h s hs
    simp [SessionRepository.Update, hout, hf]
  · intro id h
    have hu : updateFirst (fun s => s.ID == id) (fun s => { s with LastActivity := now })
        db.sessions = db.sessions :=
      updateFirst_of_none _ _ _ (fun s hs => by simpa using h s hs)
    simp only [SessionRepository.UpdateLastActivity, hout, hu]
    cases db
    simp_all

theorem session_update_missing_witness :
    SessionRepository.Update sampleDB (6 * Second) sampleSession =
      (none, { sampleSession with LastActivity := 6 * Second }, sampleDB) ∧
    SessionRepository.UpdateLastActivity firstLogin.2 (6 * Second) 99 = (none, firstLogin.2) :=
  have h1 := session_update_missing sampleDB (6 * Second) (by decide)
  have h2 := session_update_missing firstLogin.2 (6 * Second) (by decide)
  ⟨h1.1 sampleSession (by decide), h2.2 99 (by decide)⟩

/-! ## The times of a session -/

theorem create_eq_createAt (db : DB) (now : Time) (session : Session) :
    SessionRepository.Create db now session = SessionRepository.CreateAt db now now session :=
  rfl

theorem login_eq_loginAt (bcrypt : Bcrypt) (jwtService : JWTService) (now : Time) (db : DB)
    (email password : String) :
    Login bcrypt jwtService now db email password =
      LoginAt bcrypt jwtService ⟨now, now, StoreClock.const now⟩ db email password :=
  rfl

theorem refreshToken_eq_refreshTokenAt (jwtService : JWTService) (now : Time) (db : DB)
    (token : String) :
    RefreshToken jwtService now db token = RefreshTokenAt jwtService ⟨now, now, now, now⟩ db token :=
  rfl

theorem createSession_eq_createSessionAt (now : Time) (db : DB) (userID : ObjectID)
    (username refreshToken : String) :
    CreateSession now db userID username refreshToken =
      CreateSessionAt (StoreClock.const now) db userID username refreshToken :=
  rfl

theorem mem_updateFirst {α : Type} (p : α → Bool) (f : α → α) (l : List α) (y : α)
    (h : y ∈ updateFirst p f l) : y ∈ l ∨ ∃ x ∈ l, p x = true ∧ y = f x := by
  induction l with
  | nil => simp [updateFirst] at h
  | cons a as ih =>
    unfold updateFirst at h
    by_cases hp : p a = true
    · rw [if_pos hp] at h
      rcases List.mem_cons.1 h with h | h
      · exact Or.inr ⟨a, by simp, hp, h⟩
      · exact Or.inl (by simp [h])
    · rw [if_neg hp] at h
      rcases List.mem_cons.1 h with h | h
      · exact Or.inl (by simp [h])
      · rcases ih h with h1 | ⟨x, hx, hpx, hy⟩
        · exact Or.inl (by simp [h1])
        · exact Or.inr ⟨x, by simp [hx], hpx, hy⟩

theorem createAt_db (db : DB) (now later : Time) (session : Session)
    (hid : session.ID = NilObjectID) :
    (SessionRepository.CreateAt db now later session).2.2 = db ∨
    (SessionRepository.CreateAt db now later session).2.2 =
      DB.mk db.users
        (updateFirst (fun s => s.UserID == session.UserID)
          (fun s => { session with CreatedAt := now, LastActivity := later, ID := s.ID })
          db.sessions)
        db.nextID db.outage ∨
    (SessionRepository.CreateAt db now later session).2.2 =
      DB.mk db.users
        (db.sessions ++ [{ session with CreatedAt := now, LastActivity := now,
                                        ID := db.freshID }])
        (db.nextID + 1) db.outage := by
  cases hout : db.outage with
  | some e =>
    left
    simp [SessionRepository.CreateAt, hout]
  | none =>
    cases hf : db.sessions.find? (fun s => s.UserID == session.UserID) with
    | some old =>
      right
      left
      have hany : db.sessions.any (fun s => s.UserID == session.UserID) = true := by
        rw [List.any_eq_true]
        have hp := List.find?_some hf
        exact ⟨old, List.mem_of_find?_eq_some hf, hp⟩
      unfold SessionRepository.CreateAt
      simp only [hout, hany, true_or, if_true]
      unfold SessionRepository.Update
      simp only [hout, hf, hid, ne_eq, not_true_eq_false, false_and, if_false]
    | none =>
      right
      right
      have hany : db.sessions.any (fun s => s.UserID == session.UserID) = false := by
        rw [List.find?_eq_none] at hf
        rw [List.any_eq_false]
        exact hf
      simp [SessionRepository.CreateAt, hout, hany, hid]

theorem sessionTimes_mono (t now : Time) (db : DB) (h : SessionTimes t db) (hle : t ≤ now) :
    SessionTimes now db := by
  intro s hs
  obtain ⟨h1, h2⟩ := h s hs
  exact ⟨h1, le_trans h2 hle⟩

theorem createAt_times (t now later : Time) (db : DB) (session : Session)
    (hid : session.ID = NilObjectID) (h : SessionTimes t db) (h1 : t ≤ now)
    (h2 : now ≤ later) :
    SessionTimes later (SessionRepository.CreateAt db now later session).2.2 := by
  have hm := sessionTimes_mono t later db h (le_trans h1 h2)
  rcases createAt_db db now later session hid with e | e | e
  · rw [e]
    exact hm
  · rw [e]
    intro s hs
    rcases mem_updateFirst _ _ _ _ hs with k | ⟨x, -, -, rfl⟩
    · exact hm s k
    · exact ⟨h2, le_refl _⟩
  · rw [e]
    intro s hs
    rcases List.mem_append.1 hs with k | k
    · exact hm s k
    · rw [List.mem_singleton] at k
      subst k
      exact ⟨le_refl _, h2⟩

theorem createAt_expireLater (now later : Time) (db : DB) (session : Session)
    (hid : session.ID = NilObjectID) (hexp : now < session.ExpiresAt)
    (h : SessionsExpireLater db) :
    SessionsExpireLater (SessionRepository.CreateAt db now later session).2.2 := by
  rcases createAt_db db now later session hid with e | e | e
  · rw [e]
    exact h
  · rw [e]
    intro s hs
    rcases mem_updateFirst _ _ _ _ hs with k | ⟨x, -, -, rfl⟩
    · exact h s k
    · exact hexp
  · rw [e]
    intro s hs
    rcases List.mem_append.1 hs with k | k
    · exact h s k
    · rw [List.mem_singleton] at k
      subst k
      exact hexp

theorem createAt_notOverdue (now later : Time) (db : DB) (session : Session)
    (hid : session.ID = NilObjectID) (h2 : now ≤ later) (hexp : later ≤ session.ExpiresAt)
    (h : SessionsNotOverdue db) :
    SessionsNotOverdue (SessionRepository.CreateAt db now later session).2.2 := by
  rcases createAt_db db now later session hid with e | e | e
  · rw [e]
    exact h
  · rw [e]
    intro s hs
    rcases mem_updateFirst _ _ _ _ hs with k | ⟨x, -, -, rfl⟩
    · exact h s k
    · exact hexp
  · rw [e]
    intro s hs
    rcases List.mem_append.1 hs with k | k
    · exact h s k
    · rw [List.mem_singleton] at k
      subst k
      exact le_trans h2 hexp

theorem touch_times (t now : Time) (db : DB) (id : ObjectID) (h : SessionTimes t db)
    (hle : t ≤ now) : SessionTimes now (SessionRepository.UpdateLastActivity db now id).2 := by
  have hm := sessionTimes_mono t now db h hle
  unfold SessionRepository.UpdateLastActivity
  cases db.outage with
  | some e => exact hm
  | none =>
    intro s hs
    rcases mem_updateFirst _ _ _ _ hs with k | ⟨x, hx, -, rfl⟩
    · exact hm s k
    · obtain ⟨k1, k2⟩ := h x hx
      exact ⟨le_trans k1 (le_trans k2 hle), le_refl _⟩

theorem touch_expireLater (now : Time) (db : DB) (id : ObjectID)
    (h : SessionsExpireLater db) :
    SessionsExpireLater (SessionRepository.UpdateLastActivity db now id).2 := by
  unfold SessionRepository.UpdateLastActivity
  cases db.outage with
  | some e => exact h
  | none =>
    intro s hs
    rcases mem_updateFirst _ _ _ _ hs with k | ⟨x, hx, -, rfl⟩
    · exact h s k
    · exact h x hx

theorem loginAt_db (bcrypt : Bcrypt) (jwtService : JWTService) (k : LoginClock) (db : DB)
    (email password : String) :
    (LoginAt bcrypt jwtService k db email password).2 = db ∨
    ∃ session : Session, session.ID = NilObjectID ∧
      session.ExpiresAt = k.store.expires + Hour * 24 * 7 ∧
      (LoginAt bcrypt jwtService k db email password).2 =
        (SessionRepository.CreateAt db k.store.create k.store.update session).2.2 := by
  unfold LoginAt
  split
  · exact Or.inl rfl
  · split_ifs
    · exact Or.inl rfl
    · split
      · exact Or.inl rfl
      · split
        · exact Or.inl rfl
        · rename_i user _ _ _ accessToken _ _ refreshToken _
          right
          refine ⟨Session.mk NilObjectID user.ID user.Username refreshToken true
            k.store.created (k.store.expires + Hour * 24 * 7) k.store.activity, rfl, rfl, ?_⟩
          simp only
          split <;> rename_i h <;> rw [h]

theorem createSessionAt_db (k : StoreClock) (db : DB) (userID : ObjectID)
    (username refreshToken : String) :
    ∃ session : Session, session.ID = NilObjectID ∧
      session.ExpiresAt = k.expires + 7 * 24 * Hour ∧
      (CreateSessionAt k db userID username refreshToken).2 =
        (SessionRepository.CreateAt db k.create k.update session).2.2 := by
  refine ⟨Session.mk NilObjectID userID username refreshToken true k.created
    (k.expires + 7 * 24 * Hour) k.activity, rfl, rfl, ?_⟩
  unfold CreateSessionAt
  simp only
  split <;> rename_i h <;> rw [h]

theorem refreshTokenAt_db (jwtService : JWTService) (k : RefreshClock) (db : DB)
    (token : String) :
    (RefreshTokenAt jwtService k db token).2 = db ∨
    ∃ id : ObjectID, (RefreshTokenAt jwtService k db token).2 =
      (SessionRepository.UpdateLastActivity db k.touch id).2 := by
  unfold RefreshTokenAt
  split
  · exact Or.inl rfl
  · split
    · exact Or.inl rfl
    · rename_i session _
      split_ifs
      · exact Or.inl rfl
      · split
        · exact Or.inl rfl
        · split
          · exact Or.inl rfl
          · right
            refine ⟨session.ID, ?_⟩
            split <;> rename_i h <;> rw [h]

theorem updateSessionActivity_db (now : Time) (db : DB) (userID : ObjectID) :
    (UpdateSessionActivity now db userID).2 = db ∨
    ∃ id : ObjectID, (UpdateSessionActivity now db userID).2 =
      (SessionRepository.UpdateLastActivity db now id).2 := by
  unfold UpdateSessionActivity
  split
  · exact Or.inl rfl
  · rename_i session _
    exact Or.inr ⟨session.ID, rfl⟩

theorem exists_le_all (l : List Time) : ∃ t : Time, ∀ r ∈ l, t ≤ r := by
  induction l with
  | nil => exact ⟨0, fun r hr => by simp at hr⟩
  | cons a as ih =>
    obtain ⟨t, ht⟩ := ih
    refine ⟨min a t, ?_⟩
    intro r hr
    rcases List.mem_cons.1 hr with e | e
    · rw [e]
      exact min_le_left _ _
    · exact le_trans (min_le_right _ _) (ht r e)

theorem store_order (k : StoreClock)
    (h : List.Pairwise (fun a b : Time => a ≤ b) k.readings) : k.create ≤ k.update := by
  simp only [StoreClock.readings, List.pairwise_cons, List.mem_cons, List.mem_singleton,
    forall_eq_or_imp, forall_eq] at h
  exact h.2.2.2.1.1

theorem login_order (k : LoginClock)
    (h : List.Pairwise (fun a b : Time => a ≤ b) ([k.access, k.refresh] ++ k.store.readings)) :
    k.store.create ≤ k.store.update :=
  store_order k.store (List.pairwise_append.1 h).2.1

theorem last_mem (op : TimedOp) : op.last ∈ op.readings := by
  cases op <;> simp [TimedOp.last, TimedOp.readings, StoreClock.readings]

theorem clock_cons (op : TimedOp) (rest : List TimedOp) (h : ClockMonotone (op :: rest)) :
    List.Pairwise (fun a b : Time => a ≤ b) op.readings ∧ ClockMonotone rest ∧
    ∀ a ∈ op.readings, ∀ op1 ∈ rest, ∀ b ∈ op1.readings, a ≤ b := by
  unfold ClockMonotone at h
  rw [List.map_cons, List.flatten_cons, List.pairwise_append] at h
  refine ⟨h.1, h.2.1, ?_⟩
  intro a ha op1 h1 b hb
  exact h.2.2 a ha b (List.mem_flatten.2 ⟨op1.readings, List.mem_map.2 ⟨op1, h1, rfl⟩, hb⟩)

theorem seven_days : (7 : Int) * 24 * Hour = Hour * 24 * 7 := by
  unfold Hour
  norm_num

theorem step_times (t : Time) (db : DB) (op : TimedOp) (h : SessionTimes t db)
    (hge : ∀ r ∈ op.readings, t ≤ r)
    (hord : List.Pairwise (fun a b : Time => a ≤ b) op.readings) :
    SessionTimes op.last (op.apply db) := by
  have hl : t ≤ op.last := hge _ (last_mem op)
  cases op with
  | login bcrypt jwtService k email password =>
    show SessionTimes k.store.update (LoginAt bcrypt jwtService k db email password).2
    rcases loginAt_db bcrypt jwtService k db email password with e | ⟨session, hid, -, e⟩
    · rw [e]
      exact sessionTimes_mono t _ db h hl
    · rw [e]
      exact createAt_times t _ _ db session hid h
        (hge _ (by simp [TimedOp.readings, StoreClock.readings])) (login_order k hord)
  | refreshToken jwtService k token =>
    show SessionTimes k.touch (RefreshTokenAt jwtService k db token).2
    rcases refreshTokenAt_db jwtService k db token with e | ⟨id, e⟩
    · rw [e]
      exact sessionTimes_mono t _ db h hl
    · rw [e]
      exact touch_times t _ db id h hl
  | createSession k userID username token =>
    show SessionTimes k.update (CreateSessionAt k db userID username token).2
    obtain ⟨session, hid, -, e⟩ := createSessionAt_db k db userID username token
    rw [e]
    exact createAt_times t _ _ db session hid h
      (hge _ (by simp [TimedOp.readings, StoreClock.readings])) (store_order k hord)
  | updateSessionActivity now userID =>
    show SessionTimes now (UpdateSessionActivity now db userID).2
    rcases updateSessionActivity_db now db userID with e | ⟨id, e⟩
    · rw [e]
      exact sessionTimes_mono t _ db h hl
    · rw [e]
      exact touch_times t _ db id h hl

theorem step_expireLater (db : DB) (op : TimedOp) (hp : op.Prompt)
    (hord : List.Pairwise (fun a b : Time => a ≤ b) op.readings)
    (h : SessionsExpireLater db) : SessionsExpireLater (op.apply db) := by
  cases op with
  | login bcrypt jwtService k email password =>
    show SessionsExpireLater (LoginAt bcrypt jwtService k db email password).2
    rcases loginAt_db bcrypt jwtService k db email password with e | ⟨session, hid, hexp, e⟩
    · rw [e]
      exact h
    · rw [e]
      refine createAt_expireLater _ _ db session hid ?_ h
      rw [hexp]
      exact lt_of_le_of_lt (login_order k hord) hp
  | refreshToken jwtService k token =>
    show SessionsExpireLater (RefreshTokenAt jwtService k db token).2
    rcases refreshTokenAt_db jwtService k db token with e | ⟨id, e⟩
    · rw [e]
      exact h
    · rw [e]
      exact touch_expireLater _ db id h
  | createSession k userID username token =>
    show SessionsExpireLater (CreateSessionAt k db userID username token).2
    obtain ⟨session, hid, hexp, e⟩ := createSessionAt_db k db userID username token
    rw [e]
    refine createAt_expireLater _ _ db session hid ?_ h
    rw [hexp, seven_days]
    exact lt_of_le_of_lt (store_order k hord) hp
  | updateSessionActivity now userID =>
    show SessionsExpireLater (UpdateSessionActivity now db userID).2
    rcases updateSessionActivity_db now db userID with e | ⟨id, e⟩
    · rw [e]
      exact h
    · rw [e]
      exact touch_expireLater _ db id h

theorem step_notOverdue (db : DB) (op : TimedOp) (hp : op.Prompt) (hs : op.stores = true)
    (hord : List.Pairwise (fun a b : Time => a ≤ b) op.readings)
    (h : SessionsNotOverdue db) : SessionsNotOverdue (op.apply db) := by
  cases op with
  | login bcrypt jwtService k email password =>
    show SessionsNotOverdue (LoginAt bcrypt jwtService k db email password).2
    rcases loginAt_db bcrypt jwtService k db email password with e | ⟨session, hid, hexp, e⟩
    · rw [e]
      exact h
    · rw [e]
      refine createAt_notOverdue _ _ db session hid (login_order k hord) ?_ h
      rw [hexp]
      exact le_of_lt hp
  | refreshToken jwtService k token => simp [TimedOp.stores] at hs
  | createSession k userID username token =>
    show SessionsNotOverdue (CreateSessionAt k db userID username token).2
    obtain ⟨session, hid, hexp, e⟩ := createSessionAt_db k db userID username token
    rw [e]
    refine createAt_notOverdue _ _ db session hid (store_order k hord) ?_ h
    rw [hexp, seven_days]
    exact le_of_lt hp
  | updateSessionActivity now userID => simp [TimedOp.stores] at hs

theorem run_times (steps : List TimedOp) :
    ∀ (db : DB) (t : Time), SessionTimes t db →
      (∀ op ∈ steps, ∀ r ∈ op.readings, t ≤ r) → ClockMonotone steps →
      ∃ t1, SessionTimes t1 (runTimed db steps) := by
  induction steps with
  | nil =>
    intro db t h _ _
    exact ⟨t, h⟩
  | cons op rest ih =>
    intro db t h hge hm
    obtain ⟨hord, hrest, hcross⟩ := clock_cons op rest hm
    exact ih (op.apply db) op.last
      (step_times t db op h (hge op (by simp)) hord)
      (fun op1 h1 r hr => hcross _ (last_mem op) op1 h1 r hr) hrest

theorem run_expireLater (steps : List TimedOp) :
    ∀ (db : DB), SessionsExpireLater db → (∀ op ∈ steps, op.Prompt) → ClockMonotone steps →
      SessionsExpireLater (runTimed db steps) := by
  induction steps with
  | nil =>
    intro db h _ _
    exact h
  | cons op rest ih =>
    intro db h hp hm
    obtain ⟨hord, hrest, -⟩ := clock_cons op rest hm
    exact ih (op.apply db) (step_expireLater db op (hp op (by simp)) hord h)
      (fun op1 h1 => hp op1 (by simp [h1])) hrest

theorem run_notOverdue (steps : List TimedOp) :
    ∀ (db : DB), SessionsNotOverdue db → (∀ op ∈ steps, op.Prompt ∧ op.stores = true) →
      ClockMonotone steps → SessionsNotOverdue (runTimed db steps) := by
  induction steps with
  | nil =>
    intro db h _ _
    exact h
  | cons op rest ih =>
    intro db h hp hm
    obtain ⟨hord, hrest, -⟩ := clock_cons op rest hm
    exact ih (op.apply db)
      (step_notOverdue db op (hp op (by simp)).1 (hp op (by simp)).2 hord h)
      (fun op1 h1 => hp op1 (by simp [h1])) hrest

/-- The expiry of a session is tested at one reading of the clock and
`last_activity` is written at a later one: a refresh whose test falls on the
expiry of the session and whose write falls a nanosecond later leaves
`last_activity` after the expiry. -/
theorem refreshTokenAt_straddles_expiry :
    (RefreshTokenAt sampleJWT ⟨3 * Second, 3 * Second, 3 * Second, 3 * Second + 1⟩
      expiredSessionDB refreshToken1).2.sessions =
      [{ ID := 2, UserID := 1, Username := "alice", Token := refreshToken1, IsActive := true,
         CreatedAt := Second, ExpiresAt := 3 * Second, LastActivity := 3 * Second + 1 }] := by
  decide

/-- **C29 (counterexample).** `alice` logs in at the first second, so that her
session expires seven days later; `UpdateSessionActivity` for her thirty days
later, with a clock that has not gone backwards, sets `last_activity` to that
time, which is after the expiry. -/
theorem late_touch_after_expiry :
    sampleDB.sessions = [] ∧ ClockMonotone lateTouch ∧
    (runTimed sampleDB lateTouch).sessions =
      [{ ID := 2, UserID := 1, Username := "alice", Token := refreshToken1, IsActive := true,
         CreatedAt := Second, ExpiresAt := Second + Hour * 24 * 7,
         LastActivity := Second + 30 * 24 * Hour }] ∧
    ¬ (Second + 30 * 24 * Hour ≤ Second + Hour * 24 * 7) := by
  unfold ClockMonotone
  decide

/-- **C29 (amended).** In every state reached from a store without sessions
through `Login`, `RefreshToken`, `CreateSession` and `UpdateSessionActivity`,
each call of `time.Now()` taking its own reading of a clock that never goes
backwards, every session satisfies `createdAt ≤ lastActivity`.  When every
`Login` and `CreateSession` stores its session less than seven days after the
reading from which it computed the expiry, every session satisfies
`expiresAt > createdAt`; and in the states reached through such `Login` and
`CreateSession` alone, `lastActivity ≤ expiresAt` as well. -/
theorem session_times_reachable (db : DB) (steps : List TimedOp)
    (hdb : db.sessions = []) (hclock : ClockMonotone steps) :
    (∀ s ∈ (runTimed db steps).sessions, s.CreatedAt ≤ s.LastActivity) ∧
    ((∀ op ∈ steps, op.Prompt) →
      ∀ s ∈ (runTimed db steps).sessions, s.ExpiresAt > s.CreatedAt) ∧
    ((∀ op ∈ steps, op.Prompt ∧ op.stores = true) →
      ∀ s ∈ (runTimed db steps).sessions, s.LastActivity ≤ s.ExpiresAt) := by
  have hempty : ∀ s, s ∈ db.sessions → False := by
    intro s hs
    rw [hdb] at hs
    simp at hs
  refine ⟨?_, ?_, ?_⟩
  · obtain ⟨t, ht⟩ := exists_le_all (steps.map TimedOp.readings).flatten
    obtain ⟨t1, h1⟩ := run_times steps db t (fun s hs => (hempty s hs).elim)
      (fun op hop r hr =>
        ht r (List.mem_flatten.2 ⟨op.readings, List.mem_map.2 ⟨op, hop, rfl⟩, hr⟩)) hclock
    intro s hs
    exact (h1 s hs).1
  · intro hp
    exact run_expireLater steps db (fun s hs => (hempty s hs).elim) hp hclock
  · intro hp
    exact run_notOverdue steps db (fun s hs => (hempty s hs).elim) hp hclock

theorem session_times_reachable_witness :
    (∀ s ∈ (runTimed sampleDB lateTouch).sessions, s.CreatedAt ≤ s.LastActivity) ∧
    (∀ s ∈ (runTimed sampleDB lateTouch).sessions, s.ExpiresAt > s.CreatedAt) ∧
    (∀ s ∈ (runTimed sampleDB promptRun).sessions, s.LastActivity ≤ s.ExpiresAt) ∧
    (runTimed sampleDB promptRun).sessions =
      [{ ID := 2, UserID := 1, Username := "alice", Token := "t", IsActive := true,
         CreatedAt := 2 * Second + 3, ExpiresAt := 2 * Second + 1 + 7 * 24 * Hour,
         LastActivity := 2 * Second + 4 }] :=
  have h := session_times_reachable sampleDB lateTouch (by decide)
    (by unfold ClockMonotone; decide)
  have h1 := session_times_reachable sampleDB promptRun (by decide)
    (by unfold ClockMonotone; decide)
  ⟨h.1, h.2.1 (by simp [lateTouch, TimedOp.Prompt, StoreClock.Prompt, StoreClock.const]; decide),
   h1.2.2 (by simp [promptRun, TimedOp.Prompt, StoreClock.Prompt, TimedOp.stores]; decide),
   by decide⟩

/-! ## Authorisation of blog updates and deletions -/

theorem blogGetByID_ok (db : BlogDB) (id : ObjectID) (blog : Blog)
    (h : BlogRepo.GetByID db id = Except.ok blog) :
    db.outage = none ∧ blog ∈ db.blogs ∧ blog.ID = id := by
  unfold BlogRepo.GetByID at h
  split at h
  · simp at h
  · rename_i ho
    split at h
    · simp at h
    · rename_i x hf
      simp only [Except.ok.injEq] at h
      rw [← h]
      exact ⟨ho, List.mem_of_find?_eq_some hf, by simpa using List.find?_some hf⟩

theorem blogDelete_ok (db : BlogDB) (id : ObjectID) (blog : Blog)
    (h : BlogRepo.GetByID db id = Except.ok blog) :
    BlogRepo.Delete db id =
      (none, { db with blogs := deleteFirst (fun b => b.ID == id) db.blogs }) := by
  obtain ⟨ho, hm, hid⟩ := blogGetByID_ok db id blog h
  have hany : db.blogs.any (fun b => b.ID == id) = true :=
    List.any_eq_true.2 ⟨blog, hm, by simpa using hid⟩
  simp [BlogRepo.Delete, ho, hany]

/-- **C30.** `UpdateBlog` and `DeleteBlog` return the error `blog not found` when
`GetByID` does not find the blog, in particular when no blog with the id is
stored.  When it is found, the requesting user is not its author and the role
is not the admin role, they return an error that starts with `forbidden`.
`UpdateBlog` never changes the store and `DeleteBlog` leaves it unchanged on
every error.  `DeleteBlog` changes the store only when the blog is stored and
the requester is its author or has the admin role, and then it removes the
blog. -/
theorem blog_authorization (RoleAdmin : String) (now : Time) (db : BlogDB)
    (id : ObjectID) (blogUpdate : Blog) (userID : ObjectID) (userRole : String) :
    ((∀ b ∈ db.blogs, b.ID ≠ id) → ∃ e, BlogRepo.GetByID db id = Except.error e) ∧
    (∀ e, BlogRepo.GetByID db id = Except.error e →
      UpdateBlog RoleAdmin now db id blogUpdate userID userRole =
        (Except.error "blog not found", db) ∧
      DeleteBlog RoleAdmin db id userID userRole = (some "blog not found", db)) ∧
    (∀ blog, BlogRepo.GetByID db id = Except.ok blog → blog.AuthorID ≠ userID →
      userRole ≠ RoleAdmin →
      (∃ err, UpdateBlog RoleAdmin now db id blogUpdate userID userRole =
          (Except.error err, db) ∧ "forbidden".data <+: err.data) ∧
      (∃ err, DeleteBlog RoleAdmin db id userID userRole = (some err, db) ∧
          "forbidden".data <+: err.data)) ∧
    (UpdateBlog RoleAdmin now db id blogUpdate userID userRole).2 = db ∧
    (∀ err db1, DeleteBlog RoleAdmin db id userID userRole = (some err, db1) → db1 = db) ∧
    ((DeleteBlog RoleAdmin db id userID userRole).2 ≠ db →
      ∃ blog, blog ∈ db.blogs ∧ blog.ID = id ∧
        (blog.AuthorID = userID ∨ userRole = RoleAdmin)) ∧
    (∀ blog, BlogRepo.GetByID db id = Except.ok blog →
      (blog.AuthorID = userID ∨ userRole = RoleAdmin) →
      DeleteBlog RoleAdmin db id userID userRole =
        (none, { db with blogs := deleteFirst (fun b => b.ID == id) db.blogs })) := by
  refine ⟨?_, ?_, ?_, ?_, ?_, ?_, ?_⟩
  · intro h
    unfold BlogRepo.GetByID
    cases db.outage with
    | some e => exact ⟨_, rfl⟩
    | none =>
      have hf : db.blogs.find? (fun b => b.ID == id) = none := by
        rw [List.find?_eq_none]
        intro b hb
        simpa using h b hb
      simp only [hf]
      exact ⟨_, rfl⟩
  · intro e h
    simp [UpdateBlog, DeleteBlog, h]
  · intro blog h ha hr
    refine ⟨⟨"forbidden: you are not authorized to update this post", ?_,
      ⟨": you are not authorized to update this post".data, by decide⟩⟩,
      ⟨"forbidden: you are not authorized to delete this post", ?_,
      ⟨": you are not authorized to delete this post".data, by decide⟩⟩⟩
    · simp [UpdateBlog, h, ha, hr]
    · simp [DeleteBlog, h, ha, hr]
  · unfold UpdateBlog
    split
    · rfl
    · split_ifs <;> rfl
  · intro err db1 h
    unfold DeleteBlog at h
    split at h
    · simp only [Prod.mk.injEq] at h
      exact h.2.symm
    · rename_i blog hg
      split_ifs at h
      · simp only [Prod.mk.injEq] at h
        exact h.2.symm
      · rw [blogDelete_ok db id blog hg] at h
        simp at h
  · intro hne
    unfold DeleteBlog at hne
    split at hne
    · exact absurd rfl hne
    · rename_i blog hg
      split_ifs at hne with hc
      · exact absurd rfl hne
      · obtain ⟨-, hm, hid⟩ := blogGetByID_ok db id blog hg
        refine ⟨blog, hm, hid, ?_⟩
        by_cases ha : blog.AuthorID = userID
        · exact Or.inl ha
        · right
          by_contra hr
          exact hc ⟨ha, hr⟩
  · intro blog hg hauth
    have hc : ¬ (blog.AuthorID ≠ userID ∧ userRole ≠ RoleAdmin) := by
      rintro ⟨h1, h2⟩
      rcases hauth with h | h
      · exact h1 h
      · exact h2 h
    simp only [DeleteBlog, hg, hc, if_false]
    exact blogDelete_ok db id blog hg

theorem blog_authorization_witness :
    UpdateBlog "admin" (2 * Second) sampleBlogDB 8 sampleBlog 1 "user" =
      (Except.error "blog not found", sampleBlogDB) ∧
    DeleteBlog "admin" sampleBlogDB 7 2 "user" =
      (some "forbidden: you are not authorized to delete this post", sampleBlogDB) ∧
    DeleteBlog "admin" sampleBlogDB 7 2 "admin" = (none, { blogs := [], outage := none }) ∧
    DeleteBlog "admin" sampleBlogDB 7 1 "user" = (none, { blogs := [], outage := none }) :=
  have h := blog_authorization "admin" (2 * Second) sampleBlogDB 8 sampleBlog 1 "user"
  have h1 := blog_authorization "admin" (2 * Second) sampleBlogDB 7 sampleBlog 2 "admin"
  have h2 := blog_authorization "admin" (2 * Second) sampleBlogDB 7 sampleBlog 1 "user"
  ⟨(h.2.1 "blog not found" (by decide)).1, by decide,
   h1.2.2.2.2.2.2 sampleBlog (by decide) (Or.inr rfl),
   h2.2.2.2.2.2.2 sampleBlog (by decide) (Or.inl rfl)⟩

end BlogAPI
